import Mathlib

/-!
# Event defragmentation and driver generation

A shallow embedding of `CompilerSource/compiler/components/write_defragged_events.cpp`.
The output stream `wto` is a `String` and every `<<` is an append; `endl` is the
newline character.  `std::map<string, EventDescriptor>` is an association list
kept in ascending key order, `std::set<Event>` a list kept in ascending element
order; both refuse to insert over an equivalent entry, as the standard containers do.

The visitors of `CompilerSource/parsing/pretty_printer.cpp` are embedded one by one over an
abstract node type: the dispatching `Visit`, the discriminant of a node and
`PrintSemiColon`, which `parsing/ast.h` declares, are the fields of a `VisitorBase`.
-/

set_option maxRecDepth 100000

namespace Enigma

/-! ## Event catalog (event_reader/event_parser.h) -/

/-- Modelled from the spec: the catalog entry type `EventDescriptor` declared in
event_reader/event_parser.h, a header that is not among the sources.  Every accessor the
generator calls on a descriptor or on an event is one field: the canonical internal id,
the names, the flags and the optional code payloads. -/
structure EventDescriptor where
  internal_id : Int
  BaseFunctionName : String
  FunctionName : String
  HumanName : String
  IsInstance : Bool
  HasSubCheck : Bool
  HasSuperCheck : Bool
  HasSuperCheckExpression : Bool
  HasSuperCheckFunction : Bool
  HasDefaultCode : Bool
  HasInsteadCode : Bool
  UsesEventLoop : Bool
  DefaultCode : String
  InsteadCode : String
  SuperCheckExpression : String
  SuperCheckFunction : String
deriving DecidableEq

/-- Modelled from the spec: the type `Event` of event_reader/event_parser.h, a resolved
occurrence that references (or equals) an `EventDescriptor`. -/
abbrev Event := EventDescriptor

/-- Modelled from the spec: `Event::operator<` of event_reader/event_parser.h; ordering
and equality of events are by canonical internal id. -/
def Event.lt (a b : Event) : Prop := a.internal_id < b.internal_id

instance (a b : Event) : Decidable (Event.lt a b) := by
  unfold Event.lt; infer_instance

/-- The converting constructor `Event(const EventDescriptor &)`. -/
def Event.ofDescriptor (event : EventDescriptor) : Event := event

/-- The result type of `reverse_lookup_legacy_event`: a legacy `(mid, id)` pair. -/
structure LegacyEventPair where
  mid : Int
  id : Int
deriving DecidableEq

/-- The read-only context of one compilation: the event catalog in declaration order, the
translation of legacy pairs and its inverse, and the two strings the generator splices
into its artifacts.  The source reaches all of them through globals declared in headers
that are not among the sources. -/
structure Context where
  event_declarations : List EventDescriptor
  translate_legacy_id_pair : Int → Int → Event
  reverse_lookup_legacy_event : EventDescriptor → LegacyEventPair
  license : String
  system_get_uppermost_tier : String

/-! ## Game data (backend/GameData.h) and parsed objects (parser/object_storage.h) -/

/-- One `buffers::resources::Object::Event`: `name = some _` is `has_name()`. -/
structure ObjectEvent where
  type : Int
  number : Int
  name : Option String
deriving DecidableEq

structure Object where
  events : List ObjectEvent
deriving DecidableEq

structure Moment where
  step : Int
deriving DecidableEq

structure Timeline where
  name : String
  id : Int
  moments : List Moment
deriving DecidableEq

structure General where
  show_cursor : Bool
  game_id : Int
deriving DecidableEq

structure Windowing where
  stay_on_top : Bool
deriving DecidableEq

structure Shortcuts where
  let_escape_end_game : Bool
  let_f4_switch_fullscreen : Bool
  let_f1_show_game_info : Bool
  let_f9_screenshot : Bool
  let_f5_save_f6_load : Bool
deriving DecidableEq

structure Settings where
  general : General
  windowing : Windowing
  shortcuts : Shortcuts
deriving DecidableEq

structure GameData where
  objects : List Object
  timelines : List Timeline
  settings : Settings
deriving DecidableEq

/-- Modelled from the spec: `parsed_event` of parser/object_storage.h, reduced to the
legacy pair under which an object stores the event. -/
structure parsed_event where
  mainId : Int
  id : Int
deriving DecidableEq

/-- Modelled from the spec: `parsed_object` of parser/object_storage.h, reduced to the
numeric id and the growable event array the generator reads and appends to. -/
structure parsed_object where
  id : Int
  events : List parsed_event
deriving DecidableEq

/-! ## Standard containers -/

/-- The comparison `std::string::operator<`: lexicographic on the characters. -/
def string_lt (a b : String) : Prop := a.data < b.data

instance (a b : String) : Decidable (string_lt a b) := by
  unfold string_lt; infer_instance

/-- The member `std::map::insert`: walks the keys in ascending order and inserts the pair
at its place, unless an entry with an equivalent key is already there. -/
def map_insert (k : String) (v : EventDescriptor) :
    List (String × EventDescriptor) → List (String × EventDescriptor)
  | [] => [(k, v)]
  | (k', v') :: rest =>
    if string_lt k k' then (k, v) :: (k', v') :: rest
    else if string_lt k' k then (k', v') :: map_insert k v rest
    else (k', v') :: rest

/-- The member `std::map::find`, with `none` for `end()`. -/
def map_find (k : String) : List (String × EventDescriptor) → Option EventDescriptor
  | [] => none
  | (k', v') :: rest =>
    if string_lt k k' then none
    else if string_lt k' k then map_find k rest
    else some v'

/-- The member `std::set<Event>::insert`, ordered by `Event::operator<`. -/
def set_insert (ev : Event) : List Event → List Event
  | [] => [ev]
  | e :: rest =>
    if Event.lt ev e then ev :: e :: rest
    else if Event.lt e ev then e :: set_insert ev rest
    else e :: rest

/-- Membership in a `std::set<Event>` (`count(ev) != 0`): some element is equivalent to
`ev` under `Event::operator<`. -/
def set_contains (ev : Event) (s : List Event) : Bool :=
  s.any (fun e => !decide (Event.lt ev e) && !decide (Event.lt e ev))

/-! ## `EventGroup` and `UsedEventIndex` -/

/-- A `const Event *`: the address and the event it points to. -/
structure EventPtr where
  addr : Nat
  val : Event
deriving DecidableEq

/-- The struct `EventGroup`; `base_event = none` is the null pointer. -/
structure EventGroup where
  base_event : Option EventPtr := none
  count : Int := 0
deriving DecidableEq

/-- The first diagnostic of `EventGroup::operator+=`: a naming conflict. -/
def conflict_diagnostic (base ev : Event) : String :=
  "Two distinct events seem to have the same name ("
    ++ base.BaseFunctionName ++ ")! Check IDs "
    ++ toString base.internal_id ++ " (" ++ base.HumanName
    ++ ") and " ++ toString ev.internal_id ++ " (" ++ ev.HumanName
    ++ ")" ++ "\n"

/-- The second diagnostic of `EventGroup::operator+=`: informational aliasing. -/
def alias_diagnostic (base : Event) : String :=
  "FYI: two distinct event pointers exist for event "
    ++ toString base.internal_id ++ " (" ++ base.HumanName
    ++ ")..." ++ "\n"

/-- One line written to `std::cerr`, tagged by the statement that writes it. -/
inductive Diagnostic where
  | name_conflict (text : String)
  | pointer_alias (text : String)
  | names_unsupported (text : String)
deriving DecidableEq

/-- Whether a line of `std::cerr` is the naming-conflict diagnostic. -/
def Diagnostic.is_conflict : Diagnostic → Bool
  | .name_conflict _ => true
  | _ => false

/-- The operator `EventGroup::operator+=(const Event *ev)`, with the lines it writes to
`std::cerr`. -/
def EventGroup.add (g : EventGroup) (ev : EventPtr) (cerr : List Diagnostic) :
    EventGroup × List Diagnostic :=
  match g.base_event with
  | none => ({ g with base_event := some ev }, cerr)
  | some base =>
    if base.addr ≠ ev.addr then
      if base.val.internal_id ≠ ev.val.internal_id then
        (g, cerr ++ [.name_conflict (conflict_diagnostic base.val ev.val)])
      else
        (g, cerr ++ [.pointer_alias (alias_diagnostic base.val)])
    else (g, cerr)

/-- The struct `UsedEventIndex`. -/
structure UsedEventIndex where
  base_methods : List (String × EventDescriptor) := []
  all : List Event := []
deriving DecidableEq

/-- The member `UsedEventIndex::insert(const Event &ev)`. -/
def UsedEventIndex.insert (used_events : UsedEventIndex) (ev : Event) : UsedEventIndex :=
  { base_methods := map_insert ev.BaseFunctionName ev used_events.base_methods,
    all := set_insert ev used_events.all }

/-- The member `UsedEventIndex::insert(int mid, int id)`. -/
def UsedEventIndex.insert_pair (ctx : Context) (used_events : UsedEventIndex)
    (mid id : Int) : UsedEventIndex :=
  let ev := ctx.translate_legacy_id_pair mid id
  { base_methods := map_insert ev.BaseFunctionName ev used_events.base_methods,
    all := set_insert ev used_events.all }

/-- The streams `std::cerr` and `std::cout` as the lines written so far. -/
structure Console where
  cerr : List Diagnostic := []
  cout : List String := []
deriving DecidableEq

/-- The function `event_get_number`. -/
def event_get_number (event : ObjectEvent) (con : Console) : Int × Console :=
  let con :=
    if event.name.isSome then
      { con with cerr := con.cerr ++
          [.names_unsupported "ERROR! IMPLEMENT ME: Event names not supported in compiler.\n"] }
    else con
  (event.number, con)

/-! ## `lang_CPP::compile_writeDefraggedEvents` -/

/-- The inner loop of the collection pass: the events of one object. -/
def collect_object_events (ctx : Context) :
    List ObjectEvent → UsedEventIndex → Console → UsedEventIndex × Console
  | [], used_events, con => (used_events, con)
  | event :: rest, used_events, con =>
    let mid := event.type
    let r := event_get_number event con
    collect_object_events ctx rest (used_events.insert_pair ctx mid r.1) r.2

/-- The collection pass: every event of every object of the game is inserted into the
used-event index. -/
def collect_used_events (ctx : Context) :
    List Object → UsedEventIndex → Console → UsedEventIndex × Console
  | [], used_events, con => (used_events, con)
  | obj :: rest, used_events, con =>
    let r := collect_object_events ctx obj.events used_events con
    collect_used_events ctx rest r.1 r.2

/-- The forward declarations of the timeline moment scripts. -/
def write_moment_names (timelines : List Timeline) (wto : String) : String :=
  timelines.foldl (fun wto tl =>
    tl.moments.foldl (fun wto m =>
      wto ++ "void TLINE_" ++ tl.name ++ "_MOMENT_" ++ toString m.step ++ "();\n") wto) wto

/-- The search loop over `obj->events`, which breaks at the first event translating to
the canonical id. -/
def event_exists (ctx : Context) (internal_id : Int) : List parsed_event → Bool
  | [] => false
  | e :: rest =>
    if (ctx.translate_legacy_id_pair e.mainId e.id).internal_id = internal_id then true
    else event_exists ctx internal_id rest

/-- The body of the loop over the parsed objects: the object receives a synthesized event
when none of its events translates to the defaulted event. -/
def shell_out_object (ctx : Context) (event : EventDescriptor) (obj : parsed_object)
    (con : Console) : parsed_object × Console :=
  let exists_ := event_exists ctx event.internal_id obj.events
  if !exists_ then
    let con := { con with cout := con.cout ++
      ["EVENT SYSTEM: Adding a " ++ event.HumanName ++ " event with default code.\n"] }
    let hack := ctx.reverse_lookup_legacy_event event
    ({ obj with events := obj.events ++ [parsed_event.mk hack.mid hack.id] }, con)
  else (obj, con)

/-- The loop over the parsed objects for one defaulted event. -/
def shell_out (ctx : Context) (event : EventDescriptor) :
    List parsed_object → Console → List parsed_object × Console
  | [], con => ([], con)
  | obj :: rest, con =>
    let r := shell_out_object ctx event obj con
    let rs := shell_out ctx event rest r.2
    (r.1 :: rs.1, rs.2)

/-- The default-event injection: the loop over `event_declarations()`. -/
def inject_default_events (ctx : Context) :
    List EventDescriptor → UsedEventIndex → List parsed_object → Console →
      UsedEventIndex × List parsed_object × Console
  | [], used_events, parsed_objects, con => (used_events, parsed_objects, con)
  | event :: rest, used_events, parsed_objects, con =>
    if event.HasDefaultCode then
      let used_events := used_events.insert (Event.ofDescriptor event)
      let r := shell_out ctx event parsed_objects con
      inject_default_events ctx rest used_events r.1 r.2
    else inject_default_events ctx rest used_events parsed_objects con

/-- The body of the loop over `used_events.base_methods` in the declaration artifact. -/
def write_base_method (fname : String) (event : EventDescriptor) (wto : String) : String :=
  let e_is_inst := event.IsInstance
  let wto :=
    if event.HasSubCheck && !e_is_inst then
      wto ++ "    inline virtual bool myevent_" ++ fname ++ "_subcheck() \x7b return false; \x7d\n"
    else wto
  let wto := wto ++ (if e_is_inst then "    virtual void    myevent_"
    else "    virtual variant myevent_") ++ fname ++ "()"
  if event.HasDefaultCode then
    wto ++ "\n" ++ "    \x7b" ++ "\n" ++ "  " ++ event.DefaultCode ++ "\n"
      ++ (if e_is_inst then "    \x7d" else "    return 0;\n    \x7d") ++ "\n"
  else
    wto ++ (if e_is_inst then " \x7b \x7d // No default " else " \x7b return 0; \x7d // No default ")
      ++ event.HumanName ++ " code." ++ "\n"

/-- The cases of one timeline in `timeline_call_moment_script`. -/
def write_moment_cases (tl : Timeline) (wto : String) : String :=
  (tl.moments.foldl (fun (st : String × Nat) m =>
    let wto := st.1
    let j := st.2
    let wto := wto ++ "            case " ++ toString j ++ ": \x7b\n"
    let wto := wto ++ "              ::TLINE_" ++ tl.name ++ "_MOMENT_"
      ++ toString m.step ++ "();\n"
    let wto := wto ++ "              break;\n"
    let wto := wto ++ "            \x7d\n"
    (wto, j + 1)) (wto, 0)).1

/-- The lookup table `timeline_call_moment_script`. -/
def write_timeline_call_moment_script (timelines : List Timeline) (wto : String) : String :=
  let wto := wto ++ "    virtual void timeline_call_moment_script(int timeline_index, int moment_index) \x7b\n"
  let wto := wto ++ "      switch (timeline_index) \x7b\n"
  let wto := timelines.foldl (fun wto tl =>
    let wto := wto ++ "        case " ++ toString tl.id ++ ": \x7b\n"
    let wto := wto ++ "          switch (moment_index) \x7b\n"
    let wto := write_moment_cases tl wto
    let wto := wto ++ "          \x7d\n"
    let wto := wto ++ "        \x7d\n"
    wto ++ "        break;\n") wto
  let wto := wto ++ "      \x7d\n"
  wto ++ "    \x7d\n"

/-- The struct `event_parent` of the declaration artifact, from `namespace enigma` to the
closing brace of the namespace. -/
def write_event_parent (ctx : Context) (game : GameData) (used_events : UsedEventIndex)
    (wto : String) : String :=
  let wto := wto ++ "namespace enigma" ++ "\n" ++ "\x7b" ++ "\n"
  let wto := wto ++ "  struct event_parent: " ++ ctx.system_get_uppermost_tier ++ "\n"
  let wto := wto ++ "  \x7b" ++ "\n"
  let wto := used_events.base_methods.foldl
    (fun wto str_ev => write_base_method str_ev.1 str_ev.2 wto) wto
  let wto := write_timeline_call_moment_script game.timelines wto
  let wto := wto ++ "    //virtual void unlink() \x7b\x7d // This is already declared at the super level." ++ "\n"
  let wto := wto ++ "    virtual variant myevents_perf(int type, int numb) \x7breturn 0;\x7d" ++ "\n"
  let wto := wto ++ "    event_parent() \x7b\x7d" ++ "\n"
  let wto := wto ++ "    event_parent(unsigned _x, int _y): " ++ ctx.system_get_uppermost_tier
    ++ "(_x,_y) \x7b\x7d" ++ "\n"
  let wto := wto ++ "  \x7d;" ++ "\n"
  wto ++ "\x7d" ++ "\n"

/-- The value of a C++ `int` expression whose mathematical value is `x`: 32-bit two's
complement, wrapping around on overflow. -/
def int_wrap (x : Int) : Int :=
  (x + 2147483648) % 4294967296 - 2147483648

/-- The loop computing `obj_high_id`. -/
def object_high_id (parsed_objects : List parsed_object) : Int :=
  parsed_objects.foldl (fun obj_high_id obj =>
    if obj.id > obj_high_id then obj.id else obj_high_id) 0

/-- The anchor declarations and `event_system_initialize` of the driver artifact. -/
def write_event_system_initialize (used_events : UsedEventIndex)
    (parsed_objects : List parsed_object) (wto : String) : String :=
  let wto := used_events.base_methods.foldl (fun wto evfun =>
    wto ++ "  event_iter *event_" ++ evfun.1 ++ ";" ++ "\n") wto
  let wto := wto ++ "  int event_system_initialize()" ++ "\n" ++ "  \x7b" ++ "\n"
  let wto := wto ++ "    events = new event_iter[" ++ toString used_events.base_methods.length
    ++ "]; // Allocated here; not really meant to change." ++ "\n"
  let obj_high_id := object_high_id parsed_objects
  let wto := wto ++ "    objects = new objectid_base[" ++ toString (int_wrap (obj_high_id + 1))
    ++ "]; // Allocated here; not really meant to change." ++ "\n"
  let wto := (used_events.base_methods.foldl (fun (st : String × Nat) evfun =>
    let wto := st.1
    let ind := st.2
    (wto ++ "    event_" ++ evfun.1 ++ " = events + " ++ toString ind ++ ";  event_"
      ++ evfun.1 ++ "->name = \"" ++ evfun.2.HumanName ++ "\";\n", ind + 1)) (wto, 0)).1
  let wto := wto ++ "    return 0;" ++ "\n"
  wto ++ "  \x7d" ++ "\n"

/-- The function `game_settings_initialize` of the driver artifact. -/
def write_game_settings_initialize (game : GameData) (wto : String) : String :=
  let wto := wto ++ "  int game_settings_initialize()" ++ "\n" ++ "  \x7b" ++ "\n"
  let wto :=
    if !game.settings.general.show_cursor then
      wto ++ "    window_set_cursor(cr_none);" ++ "\n"
    else wto
  let wto :=
    if game.settings.windowing.stay_on_top then
      wto ++ "    window_set_stayontop(true);" ++ "\n"
    else wto
  let wto := wto ++ "    return 0;" ++ "\n"
  wto ++ "  \x7d" ++ "\n"

/-- The export of the supercheck functions: the loop over `used_events.all`. -/
def write_supercheck_functions (used_events : UsedEventIndex) (wto : String) : String :=
  used_events.all.foldl (fun wto event =>
    if event.HasSuperCheckFunction then
      wto ++ "  static inline bool supercheck_" ++ event.FunctionName
        ++ "() " ++ event.SuperCheckFunction ++ "\n\n"
    else wto) wto

/-- The value `string(4, ' ')` of `base_indent`. -/
def base_indent : String := "    "

/-- The body of the loop over `event_declarations()` in `ENIGMA_events`, after the two
`continue` tests: the block of one event kind. -/
def write_event_block (event : EventDescriptor) (wto : String) : String :=
  let callsubcheck := event.HasSubCheck && !event.IsInstance
  let emitsupercheck := event.HasSuperCheck && !event.IsInstance
  let fname := event.BaseFunctionName
  let wto :=
    if event.HasInsteadCode then
      wto ++ base_indent ++ (event.InsteadCode ++ "\n\n")
    else if emitsupercheck then
      let wto :=
        if event.HasSuperCheckExpression then
          wto ++ base_indent ++ "if (" ++ (Event.ofDescriptor event).SuperCheckExpression ++ ")\n"
        else
          wto ++ base_indent ++ "if (myevent_" ++ (fname ++ "_supercheck())\n")
      let wto := wto ++ base_indent ++ "  for (instance_event_iterator = event_" ++ fname
        ++ "->next; instance_event_iterator != NULL; instance_event_iterator = instance_event_iterator->next) \x7b\n"
      let wto :=
        if callsubcheck then
          wto ++ base_indent ++ "    if (((enigma::event_parent*)(instance_event_iterator->inst))->myevent_"
            ++ fname ++ "_subcheck()) \x7b\n"
        else wto
      let wto := wto ++ base_indent
        ++ "      ((enigma::event_parent*)(instance_event_iterator->inst))->myevent_"
        ++ fname ++ "();\n"
      let wto :=
        if callsubcheck then
          wto ++ base_indent ++ "    \x7d\n"
        else wto
      wto ++ base_indent ++ "    if (enigma::room_switching_id != -1) goto after_events;\n"
        ++ base_indent ++ "  \x7d\n"
    else
      let wto := wto ++ base_indent ++ "for (instance_event_iterator = event_" ++ fname
        ++ "->next; instance_event_iterator != NULL; instance_event_iterator = instance_event_iterator->next) \x7b\n"
      let wto :=
        if callsubcheck then
          wto ++ base_indent ++ "  if (((enigma::event_parent*)(instance_event_iterator->inst))->myevent_"
            ++ fname ++ "_subcheck()) \x7b\n"
        else wto
      let wto := wto ++ base_indent
        ++ "    ((enigma::event_parent*)(instance_event_iterator->inst))->myevent_"
        ++ fname ++ "();\n"
      let wto :=
        if callsubcheck then
          wto ++ base_indent ++ "  \x7d\n"
        else wto
      wto ++ base_indent ++ "  if (enigma::room_switching_id != -1) goto after_events;\n"
        ++ base_indent ++ "\x7d\n"
  wto ++ base_indent ++ "\n"
    ++ base_indent ++ "enigma::update_globals();" ++ "\n"
    ++ base_indent ++ "\n"

/-- The event sequence of `ENIGMA_events`: the loop over `event_declarations()`, which
skips the kinds that are not used or not loop-driven. -/
def write_event_sequence (used_events : UsedEventIndex) :
    List EventDescriptor → String → String
  | [], wto => wto
  | event :: rest, wto =>
    if (map_find event.BaseFunctionName used_events.base_methods).isNone then
      write_event_sequence used_events rest wto
    else if !event.UsesEventLoop then
      write_event_sequence used_events rest wto
    else
      write_event_sequence used_events rest (write_event_block event wto)

/-- The end of `ENIGMA_events`: the label `after_events:` and everything up to the closing
brace of the function. -/
def write_after_events (game : GameData) (wto : String) : String :=
  let wto := wto ++ "    after_events:" ++ "\n"
  let wto :=
    if game.settings.shortcuts.let_escape_end_game then
      wto ++ "    if (keyboard_check_pressed(vk_escape)) game_end();" ++ "\n"
    else wto
  let wto :=
    if game.settings.shortcuts.let_f4_switch_fullscreen then
      wto ++ "    if (keyboard_check_pressed(vk_f4)) window_set_fullscreen(!window_get_fullscreen());" ++ "\n"
    else wto
  let wto :=
    if game.settings.shortcuts.let_f1_show_game_info then
      wto ++ "    if (keyboard_check_pressed(vk_f1)) show_info();" ++ "\n"
    else wto
  let wto :=
    if game.settings.shortcuts.let_f9_screenshot then
      wto ++ "    if (keyboard_check_pressed(vk_f9)) \x7b\x7d" ++ "\n"
    else wto
  let wto :=
    if game.settings.shortcuts.let_f5_save_f6_load then
      let wto := wto ++ "    //if (keyboard_check_pressed(vk_f5)) game_save('_save"
        ++ toString game.settings.general.game_id ++ ".sav');" ++ "\n"
      wto ++ "    //if (keyboard_check_pressed(vk_f6)) game_load('_save"
        ++ toString game.settings.general.game_id ++ ".sav');" ++ "\n"
    else wto
  let wto := wto ++ "    enigma::dispose_destroyed_instances();" ++ "\n"
  let wto := wto ++ "    enigma::rooms_switch();" ++ "\n"
  let wto := wto ++ "    enigma::set_room_speed(room_speed);" ++ "\n"
  let wto := wto ++ "    " ++ "\n"
  let wto := wto ++ "    return 0;" ++ "\n"
  wto ++ "  \x7d // event function" ++ "\n"

/-- The function `ENIGMA_events` of the driver artifact. -/
def write_ENIGMA_events (ctx : Context) (game : GameData) (used_events : UsedEventIndex)
    (wto : String) : String :=
  let wto := wto ++ "  int ENIGMA_events()" ++ "\n" ++ "  \x7b" ++ "\n"
  let wto := write_event_sequence used_events ctx.event_declarations wto
  write_after_events game wto

/-- The driver artifact `IDE_EDIT_events.h`. -/
def write_events_file (ctx : Context) (game : GameData) (used_events : UsedEventIndex)
    (parsed_objects : List parsed_object) : String :=
  let wto := ctx.license
  let wto := wto ++ "namespace enigma" ++ "\n" ++ "\x7b" ++ "\n"
  let wto := write_event_system_initialize used_events parsed_objects wto
  let wto := write_game_settings_initialize game wto
  let wto := wto ++ "  variant ev_perf(int type, int numb)\n  \x7b\n    return ((enigma::event_parent*)(instance_event_iterator->inst))->myevents_perf(type, numb);\n  \x7d\n"
  let wto := write_supercheck_functions used_events wto
  let wto := write_ENIGMA_events ctx game used_events wto
  wto ++ "\x7d // namespace enigma" ++ "\n"

/-- Everything `compile_writeDefraggedEvents` leaves behind: the two artifacts, the parsed
objects after the injection, the used-event index, the console and the return value. -/
structure Generated where
  evparent_h : String
  events_h : String
  parsed_objects : List parsed_object
  used_events : UsedEventIndex
  console : Console
  result : Int

/-- The function `lang_CPP::compile_writeDefraggedEvents`. -/
def compile_writeDefraggedEvents (ctx : Context) (game : GameData)
    (parsed_objects : List parsed_object) : Generated :=
  let used_events : UsedEventIndex := {}
  let con : Console := {}
  let r := collect_used_events ctx game.objects used_events con
  let used_events := r.1
  let con := r.2
  let wto := ctx.license
  let wto := write_moment_names game.timelines wto
  let wto := wto ++ "\n"
  let r := inject_default_events ctx ctx.event_declarations used_events parsed_objects con
  let used_events := r.1
  let parsed_objects := r.2.1
  let con := r.2.2
  let evparent_h := write_event_parent ctx game used_events wto
  let events_h := write_events_file ctx game used_events parsed_objects
  { evparent_h := evparent_h, events_h := events_h, parsed_objects := parsed_objects,
    used_events := used_events, console := con, result := 0 }

/-! ## Concrete inputs -/

/-- A descriptor with every flag off and every code payload empty. -/
def plain_event (internal_id : Int) (name : String) : EventDescriptor :=
  { internal_id := internal_id, BaseFunctionName := name, FunctionName := name,
    HumanName := name, IsInstance := false, HasSubCheck := false, HasSuperCheck := false,
    HasSuperCheckExpression := false, HasSuperCheckFunction := false,
    HasDefaultCode := false, HasInsteadCode := false, UsesEventLoop := true,
    DefaultCode := "", InsteadCode := "", SuperCheckExpression := "",
    SuperCheckFunction := "" }

/-- The catalog `[Create, Step, Draw, Destroy]` of the emission-order example. -/
def example_catalog : List EventDescriptor :=
  [plain_event 0 "create", plain_event 1 "step", plain_event 2 "draw",
   plain_event 3 "destroy"]

/-- The used set `{Step, Destroy}` of the emission-order example, with `Step` inserted
first. -/
def example_used : UsedEventIndex :=
  (UsedEventIndex.insert {} (plain_event 1 "step")).insert (plain_event 3 "destroy")

/-- The test that selects the event kinds `ENIGMA_events` emits a block for: the base
function name is a key of the used index and the kind is loop-driven. -/
def is_emitted (used_events : UsedEventIndex) (event : EventDescriptor) : Bool :=
  (map_find event.BaseFunctionName used_events.base_methods).isSome && event.UsesEventLoop

/-- The loop over the live instances of an event kind, written at a given indentation:
the `for` line over the anchor `event_<fname>`, the invocation `myevent_<fname>()` (under
the test of `myevent_<fname>_subcheck()` when `callsubcheck` holds), the room-switch test
and the closing brace of the loop. -/
def instance_loop (indent fname : String) (callsubcheck : Bool) : String :=
  indent ++ "for (instance_event_iterator = event_" ++ fname
    ++ "->next; instance_event_iterator != NULL; instance_event_iterator = instance_event_iterator->next) \x7b\n"
    ++ (if callsubcheck then
          indent ++ "  if (((enigma::event_parent*)(instance_event_iterator->inst))->myevent_"
            ++ fname ++ "_subcheck()) \x7b\n"
        else "")
    ++ indent ++ "    ((enigma::event_parent*)(instance_event_iterator->inst))->myevent_"
    ++ fname ++ "();\n"
    ++ (if callsubcheck then indent ++ "  \x7d\n" else "")
    ++ indent ++ "  if (enigma::room_switching_id != -1) goto after_events;\n"
    ++ indent ++ "\x7d\n"

/-- The three lines that close the block of every event kind: a blank line, the global
state-update hook and another blank line. -/
def update_globals_hook : String :=
  "    \n    enigma::update_globals();\n    \n"

/-- The three shapes of a block of `ENIGMA_events`, each with the test that selects it:
the literal instead-code; the loop nested under an outer guard `if (<guard>)`; the same
loop, two columns to the left, with no outer guard. -/
def block_shape (event : EventDescriptor) (block : String) : Prop :=
  (event.HasInsteadCode = true
      ∧ block = "    " ++ event.InsteadCode ++ "\n\n" ++ update_globals_hook)
  ∨ (event.HasInsteadCode = false ∧ (event.HasSuperCheck && !event.IsInstance) = true
      ∧ ∃ guard : String, block = "    if (" ++ guard ++ ")\n"
          ++ instance_loop "      " event.BaseFunctionName
              (event.HasSubCheck && !event.IsInstance)
          ++ update_globals_hook)
  ∨ (event.HasInsteadCode = false ∧ (event.HasSuperCheck && !event.IsInstance) = false
      ∧ block = instance_loop "    " event.BaseFunctionName
              (event.HasSubCheck && !event.IsInstance)
          ++ update_globals_hook)

/-- The end of `ENIGMA_events` after the label `after_events:`: the shortcut checks of the
settings that are on, the three unconditional calls, and the return of the function. -/
def post_processing (settings : Settings) : String :=
  (if settings.shortcuts.let_escape_end_game then
      "    if (keyboard_check_pressed(vk_escape)) game_end();\n" else "")
    ++ (if settings.shortcuts.let_f4_switch_fullscreen then
      "    if (keyboard_check_pressed(vk_f4)) window_set_fullscreen(!window_get_fullscreen());\n"
      else "")
    ++ (if settings.shortcuts.let_f1_show_game_info then
      "    if (keyboard_check_pressed(vk_f1)) show_info();\n" else "")
    ++ (if settings.shortcuts.let_f9_screenshot then
      "    if (keyboard_check_pressed(vk_f9)) \x7b\x7d\n" else "")
    ++ (if settings.shortcuts.let_f5_save_f6_load then
      "    //if (keyboard_check_pressed(vk_f5)) game_save('_save"
        ++ toString settings.general.game_id ++ ".sav');\n"
        ++ "    //if (keyboard_check_pressed(vk_f6)) game_load('_save"
        ++ toString settings.general.game_id ++ ".sav');\n"
      else "")
    ++ "    enigma::dispose_destroyed_instances();\n"
    ++ "    enigma::rooms_switch();\n"
    ++ "    enigma::set_room_speed(room_speed);\n"
    ++ "    \n    return 0;\n  \x7d // event function\n"

/-- A descriptor with a supercheck expression and instead-code at once. -/
def guarded_instead_event : EventDescriptor :=
  { plain_event 5 "draw" with
    HasSuperCheck := true, HasSuperCheckExpression := true,
    SuperCheckExpression := "visible",
    HasInsteadCode := true, InsteadCode := "draw_all();" }

/-- A descriptor with a supercheck expression, no instead-code, not per-instance. -/
def expression_guarded_event : EventDescriptor :=
  { plain_event 1 "step" with
    HasSuperCheck := true, HasSuperCheckExpression := true,
    SuperCheckExpression := "room_speed > 0" }

/-- A descriptor whose supercheck is a function, not an expression. -/
def supercheck_function_event : EventDescriptor :=
  { plain_event 1 "step" with
    HasSuperCheck := true, HasSuperCheckFunction := true,
    SuperCheckFunction := "\x7b return instance_number > 0; \x7d" }

/-- A catalog of the single descriptor `supercheck_function_event`, which every legacy
pair translates to. -/
def supercheck_context : Context :=
  { event_declarations := [supercheck_function_event],
    translate_legacy_id_pair := fun _ _ => supercheck_function_event,
    reverse_lookup_legacy_event := fun _ => ⟨3, 0⟩,
    license := "", system_get_uppermost_tier := "object_collisions" }

/-- A game of one object with one event, the legacy pair `(3, 0)`, and every shortcut
off. -/
def supercheck_game : GameData :=
  { objects := [⟨[⟨3, 0, none⟩]⟩], timelines := [],
    settings := ⟨⟨true, 0⟩, ⟨false⟩, ⟨false, false, false, false, false⟩⟩ }

/-- The default-coded descriptor `create` of the injection example: per-instance, default
code `x=0;`. -/
def create_event : EventDescriptor :=
  { plain_event 0 "create" with
    IsInstance := true, HasDefaultCode := true, DefaultCode := "x=0;" }

/-- The descriptor `step` of the injection example: a subcheck, no default code. -/
def step_event : EventDescriptor :=
  { plain_event 1 "step" with HasSubCheck := true }

/-- The catalog `[create, step]`; the legacy pair `(0, 0)` is `create`, every other pair
is `step`, and the reverse lookup of `create` is `(0, 0)`. -/
def injection_context : Context :=
  { event_declarations := [create_event, step_event],
    translate_legacy_id_pair := fun mid _ => if mid = 0 then create_event else step_event,
    reverse_lookup_legacy_event := fun event =>
      if event.internal_id = 0 then ⟨0, 0⟩ else ⟨3, 0⟩,
    license := "", system_get_uppermost_tier := "object_collisions" }

/-- Two objects, of which only the first declares an event, a `step` event. -/
def injection_game : GameData :=
  { objects := [⟨[⟨3, 0, none⟩]⟩, ⟨[]⟩], timelines := [],
    settings := ⟨⟨true, 0⟩, ⟨false⟩, ⟨false, false, false, false, false⟩⟩ }

/-- The parsed objects of `injection_game`. -/
def injection_objects : List parsed_object :=
  [⟨0, [⟨3, 0⟩]⟩, ⟨1, []⟩]

/-- The number of events of an object that translate to a canonical id. -/
def count_events_with_id (ctx : Context) (internal_id : Int) (obj : parsed_object) : Nat :=
  (obj.events.filter (fun e =>
    decide ((ctx.translate_legacy_id_pair e.mainId e.id).internal_id = internal_id))).length

/-- Two descriptors with the base function name `step` and different canonical ids. -/
def step_event_a : EventDescriptor := plain_event 1 "step"

/-- The second descriptor named `step`. -/
def step_event_b : EventDescriptor :=
  { plain_event 2 "step" with HumanName := "Begin Step" }

/-- A translation under which the legacy pairs `(3, 0)` and `(3, 1)` are two distinct
canonical events with the same base function name. -/
def conflict_context : Context :=
  { event_declarations := [step_event_a, step_event_b],
    translate_legacy_id_pair := fun _ id => if id = 0 then step_event_a else step_event_b,
    reverse_lookup_legacy_event := fun event => ⟨3, event.internal_id - 1⟩,
    license := "", system_get_uppermost_tier := "object_collisions" }

/-- A game whose only object declares both legacy pairs. -/
def conflict_game : GameData :=
  { objects := [⟨[⟨3, 0, none⟩, ⟨3, 1, none⟩]⟩], timelines := [],
    settings := ⟨⟨true, 0⟩, ⟨false⟩, ⟨false, false, false, false, false⟩⟩ }

/-- A game whose only object declares one event, the legacy pair `(3, 0)`, that carries
the name `collision`. -/
def named_event_game : GameData :=
  { objects := [⟨[⟨3, 0, some "collision"⟩]⟩], timelines := [],
    settings := ⟨⟨true, 0⟩, ⟨false⟩, ⟨false, false, false, false, false⟩⟩ }

/-- The events of all objects of the game, in the order the collection pass reads them. -/
def all_object_events (objects : List Object) : List ObjectEvent :=
  objects.flatMap (fun obj => obj.events)

/-- The name `TLINE_<timeline-name>_MOMENT_<step>` of the script of one moment. -/
def moment_function_name (tl : Timeline) (m : Moment) : String :=
  "TLINE_" ++ (tl.name ++ ("_MOMENT_" ++ toString m.step))

/-- The lines of `event_parent` after the timeline table, up to the closing brace of the
namespace. -/
def event_parent_tail (ctx : Context) : String :=
  "    //virtual void unlink() \x7b\x7d // This is already declared at the super level.\n"
    ++ ("    virtual variant myevents_perf(int type, int numb) \x7breturn 0;\x7d\n"
    ++ ("    event_parent() \x7b\x7d\n"
    ++ ("    event_parent(unsigned _x, int _y): " ++ (ctx.system_get_uppermost_tier
    ++ ("(_x,_y) \x7b\x7d\n" ++ "  \x7d;\n\x7d\n")))))

/-- The catalog `[step, create]` of the end-to-end scenario: `step` is not per-instance,
has a subcheck, is loop-driven and has no supercheck; `create` is per-instance, has the
default code `x=0;` and is loop-driven.  The legacy pair `(0, 0)` is `create`, every
other pair is `step`. -/
def scenario_context : Context :=
  { event_declarations := [step_event, create_event],
    translate_legacy_id_pair := fun mid _ => if mid = 0 then create_event else step_event,
    reverse_lookup_legacy_event := fun event =>
      if event.internal_id = 0 then ⟨0, 0⟩ else ⟨3, 0⟩,
    license := "", system_get_uppermost_tier := "object_collisions" }

/-! ## The pretty printer (parsing/pretty_printer.cpp) -/

/-- Modelled from the spec: the discriminant `AST::NodeType` of parsing/ast.h, a header
that is not among the sources; one kind for each node the printer has a visitor for. -/
inductive NodeType where
  | IDENTIFIER
  | LITERAL
  | PARENTHETICAL
  | UNARY_POSTFIX_EXPRESSION
  | UNARY_PREFIX_EXPRESSION
  | DELETE
  | BREAK
  | CONTINUE
  | WITH
  | BINARY_EXPRESSION
  | FUNCTION_CALL
  | TERNARY_EXPRESSION
  | LAMBDA
  | RETURN
  | SIZEOF
  | ALIGNOF
  | CAST
  | ARRAY
  | NEW
  | DECLARATION
  | BLOCK
  | IF
  | FOR
  | CASE
  | DEFAULT
  | SWITCH
  | WHILE
  | DO
deriving DecidableEq

/-- Modelled from the spec: the state of an `AST::Visitor` of parsing/ast.h: the text
handed to `print` so far and the member `print_type`. -/
structure Visitor where
  printed : String
  print_type : Bool
deriving DecidableEq

/-- Modelled from the spec: the member `print` of the visitor, the sink of the rendered
text; it appends its argument to the text printed so far. -/
def Visitor.print (v : Visitor) (s : String) : Visitor :=
  { v with printed := v.printed ++ s }

/-- The members that parsing/ast.h declares and the visitors of pretty_printer.cpp call:
the discriminant `type` of a node, the dispatching `Visit`, which reports success and
leaves the visitor in a new state, and `PrintSemiColon`. -/
structure VisitorBase (Node : Type) where
  type : Node → NodeType
  Visit : Node → Visitor → Bool × Visitor
  PrintSemiColon : Node → Visitor → Visitor

/-- The macro `VISIT_AND_CHECK(node)`, `if (!Visit(node)) return false;`, applied to the
outcome of the visit: on failure the visitor returns false at once, on success it goes on
with the rest of its body. -/
def VISIT_AND_CHECK (visited : Bool × Visitor) (rest : Visitor → Bool × Visitor) :
    Bool × Visitor :=
  if !visited.1 then (false, visited.2) else rest visited.2

/-- The node `AST::Parenthetical`; `expression = none` is the null pointer. -/
structure Parenthetical (Node : Type) where
  expression : Option Node

/-- The enumeration `AST::WhileLoop::Kind`. -/
inductive WhileLoopKind where
  | WHILE
  | UNTIL
  | REPEAT
deriving DecidableEq

/-- The node `AST::WhileLoop`. -/
structure WhileLoop (Node : Type) where
  kind : WhileLoopKind
  condition : Node
  body : Node

/-- The node `AST::DoLoop`. -/
structure DoLoop (Node : Type) where
  body : Node
  condition : Node
  is_until : Bool

/-- The visitor `AST::Visitor::VisitParenthetical`. -/
def VisitParenthetical {Node : Type} (base : VisitorBase Node) (node : Parenthetical Node)
    (v : Visitor) : Bool × Visitor :=
  let v := v.print "("
  match node.expression with
  | some expression =>
    VISIT_AND_CHECK (base.Visit expression v) fun v =>
    let v := v.print ")"
    (true, v)
  | none =>
    let v := v.print ")"
    (true, v)

/-- The visitor `AST::Visitor::VisitWhileLoop`. -/
def VisitWhileLoop {Node : Type} (base : VisitorBase Node) (node : WhileLoop Node)
    (v : Visitor) : Bool × Visitor :=
  let v :=
    if node.kind = WhileLoopKind.REPEAT then
      v.print "int strange_name = "
    else
      let v := v.print "while"
      let v :=
        if base.type node.condition ≠ NodeType.PARENTHETICAL then v.print "(" else v
      if node.kind = WhileLoopKind.UNTIL then
        if base.type node.condition = NodeType.PARENTHETICAL then v.print "(!"
        else v.print "!("
      else v
  VISIT_AND_CHECK (base.Visit node.condition v) fun v =>
  let v :=
    if node.kind ≠ WhileLoopKind.REPEAT then
      let v := if node.kind = WhileLoopKind.UNTIL then v.print ")" else v
      if base.type node.condition ≠ NodeType.PARENTHETICAL then v.print ")" else v
    else
      v.print "; while(strange_name--)"
  let v := v.print " "
  VISIT_AND_CHECK (base.Visit node.body v) fun v =>
  let v := base.PrintSemiColon node.body v
  (true, v)

/-- The visitor `AST::Visitor::VisitDoLoop`. -/
def VisitDoLoop {Node : Type} (base : VisitorBase Node) (node : DoLoop Node)
    (v : Visitor) : Bool × Visitor :=
  let v := v.print "do"
  let v := if base.type node.body ≠ NodeType.BLOCK then v.print "\x7b" else v
  VISIT_AND_CHECK (base.Visit node.body v) fun v =>
  let v := base.PrintSemiColon node.body v
  let v := if base.type node.body ≠ NodeType.BLOCK then v.print "\x7d" else v
  let v := v.print "while"
  let v := if base.type node.condition ≠ NodeType.PARENTHETICAL then v.print "(" else v
  let v :=
    if node.is_until then
      if base.type node.condition = NodeType.PARENTHETICAL then v.print "(!"
      else v.print "!("
    else v
  VISIT_AND_CHECK (base.Visit node.condition v) fun v =>
  let v := if node.is_until then v.print ")" else v
  let v := if base.type node.condition ≠ NodeType.PARENTHETICAL then v.print ")" else v
  let v := v.print ";"
  (true, v)

/-- A small closed tree for examples: identifiers, parentheticals and empty blocks. -/
inductive SampleNode where
  | identifier (name : String)
  | parenthetical (expression : SampleNode)
  | block
deriving DecidableEq

/-- The discriminant of a sample node. -/
def SampleNode.type : SampleNode → NodeType
  | .identifier _ => NodeType.IDENTIFIER
  | .parenthetical _ => NodeType.PARENTHETICAL
  | .block => NodeType.BLOCK

/-- The dispatch on sample nodes: an identifier goes to `VisitIdentifierAccess`, a
parenthetical to `VisitParenthetical`, and an empty block prints its two braces. -/
def sample_visit : SampleNode → Visitor → Bool × Visitor
  | .identifier name, v =>
    let v := if v.print_type then v.print "auto " else v
    (true, v.print name)
  | .parenthetical expression, v =>
    VISIT_AND_CHECK (sample_visit expression (v.print "(")) fun v => (true, v.print ")")
  | .block, v => (true, (v.print "\x7b").print "\x7d")

/-- A `PrintSemiColon` for sample nodes: a semicolon after everything but a block. -/
def sample_semicolon (node : SampleNode) (v : Visitor) : Visitor :=
  if node.type ≠ NodeType.BLOCK then v.print ";" else v

/-- The sample nodes with their dispatch. -/
def sample_base : VisitorBase SampleNode :=
  { type := SampleNode.type, Visit := sample_visit, PrintSemiColon := sample_semicolon }

/-! ## JSON parsing utilities (Serialization/JSON_Serialization/JSON_parsing_utilities.h) -/

/-- The member `std::string::find(pattern)`: the least position at which the pattern
starts, `none` for `npos`. -/
def string_find (pattern : List Char) : List Char → Option Nat
  | [] => if pattern = [] then some 0 else none
  | c :: cs =>
    if pattern.isPrefixOf (c :: cs) then some 0
    else (string_find pattern cs).map (fun i => i + 1)

/-- The position of the first character of the list that is one of `chars`. -/
def first_of (chars : List Char) : List Char → Option Nat
  | [] => none
  | c :: cs =>
    if chars.contains c then some 0
    else (first_of chars cs).map (fun i => i + 1)

/-- The member `std::string::find_first_of(chars, pos)`: the least position from `pos` on
that holds one of `chars`, `none` for `npos`. -/
def string_find_first_of (chars : List Char) (s : List Char) (pos : Nat) : Option Nat :=
  (first_of chars (s.drop pos)).map (fun i => i + pos)

/-- The member `std::string::substr(pos, count)`. -/
def string_substr (s : List Char) (pos count : Nat) : List Char :=
  (s.drop pos).take count

/-- The function `json_find_value`. -/
def json_find_value (json key : String) : String :=
  match string_find (("\"" ++ key ++ "\":").data) json.data with
  | some startPos =>
    let startPos := startPos + (key.length + 3)
    match string_find_first_of [',', '}'] json.data startPos with
    | some endPos => ⟨string_substr json.data startPos (endPos - startPos)⟩
    | none => ""
  | none => ""

/-! ## Tokens and types of the pretty printer -/

/-- Modelled from the spec: the token types of parsing/tokens.h, a header that is not
among the sources, that the printer tests for and the expressions of the examples use. -/
inductive TokenType where
  | TT_IDENTIFIER
  | TT_DECLITERAL
  | TT_STRINGLIT
  | TT_CHARLIT
  | TT_PLUS
  | TT_STAR
  | TT_EQUALS
  | TT_BEGINBRACKET
  | TT_ENDOFCODE
deriving DecidableEq

/-- Modelled from the spec: the operator of an expression node, `operation` in
parsing/ast.h: the token type and the spelling `token`. -/
structure Operation where
  type : TokenType
  token : String
deriving DecidableEq

/-- Modelled from the spec: the enumeration `jdi::ref_stack::ref_type` of the JDI library,
which is not among the sources. -/
inductive ref_type where
  | RT_POINTERTO
  | RT_REFERENCE
  | RT_ARRAYBOUND
  | RT_FUNCTION
  | RT_MEMBER_POINTER
deriving DecidableEq

/-- Modelled from the spec: one layer of a `jdi::ref_stack`, with what `arraysize()`
returns for it. -/
structure ref_node where
  type : ref_type
  arraysize : Nat
deriving DecidableEq

/-- Modelled from the spec: the struct `FullType` of parsing/full_type.h, reduced to what
`VisitFullType` reads: the flag bits, `def->name`, `decl.name.content`,
`decl.components.size()` and the layers that `decl.to_jdi_refstack` puts on the stack,
in the order of iteration. -/
structure FullType where
  flags : Nat
  def_name : String
  decl_name : String
  components_size : Nat
  ref_stack : List ref_node
deriving DecidableEq

/-- Modelled from the spec: one builtin flag of the JDI library, `value` and `mask`. -/
structure builtin_flag where
  value : Nat
  mask : Nat
deriving DecidableEq

/-- The fifteen builtin flags of JDI/src/System/builtins.h that `VisitFullType` reads;
the header is not among the sources, so their values and masks are parameters. -/
structure jdi_builtins where
  builtin_flag__const : builtin_flag
  builtin_flag__static : builtin_flag
  builtin_flag__volatile : builtin_flag
  builtin_flag__mutable : builtin_flag
  builtin_flag__register : builtin_flag
  builtin_flag__inline : builtin_flag
  builtin_flag__Complex : builtin_flag
  builtin_flag__unsigned : builtin_flag
  builtin_flag__signed : builtin_flag
  builtin_flag__short : builtin_flag
  builtin_flag__long : builtin_flag
  builtin_flag__long_long : builtin_flag
  builtin_flag__restrict : builtin_flag
  builtin_typeflag__override : builtin_flag
  builtin_typeflag__final : builtin_flag

/-- Modelled from the spec: the default argument of `VisitFullType` for `print_type` that
parsing/ast.h declares: a type visited on its own is printed with its flags and its base
type. -/
def VisitFullType_default_print_type : Bool := true

/-- The loop of `VisitFullType` over the three flag tables. -/
def print_type_flags (ft : FullType) (flags_values flags_masks : List Nat)
    (flags_names : List String) (v : Visitor) : Visitor :=
  ((flags_values.zip flags_masks).zip flags_names).foldl (fun v entry =>
    if (ft.flags &&& entry.1.2) = entry.1.1 then
      if entry.2 ≠ "signed" ∨ (entry.2 = "signed" ∧ ft.def_name = "char") then
        v.print (entry.2 ++ " ")
      else v
    else v) v

/-- The variables of the loop of `VisitFullType` over the ref-stack: `ref`, `flag`,
`print_name` and the visitor, which the loop prints to. -/
structure RefWalk where
  ref : String
  flag : Bool
  print_name : Bool
  visitor : Visitor
deriving DecidableEq

/-- The body of the loop of `VisitFullType` over the ref-stack, for one layer. -/
def ref_walk_step (name : String) (st : RefWalk) (it : ref_node) : RefWalk :=
  let st :=
    if it.type = ref_type.RT_POINTERTO then
      { st with flag := true, ref := "*" ++ st.ref }
    else if it.type = ref_type.RT_REFERENCE then
      { st with flag := true, ref := "&" ++ st.ref }
    else
      let st :=
        if it.type = ref_type.RT_ARRAYBOUND then
          let st := if st.flag then { st with ref := "(" ++ st.ref ++ ")" } else st
          let arr_size := it.arraysize
          if arr_size ≠ 0 then
            { st with ref := st.ref ++ ("[" ++ toString arr_size ++ "]") }
          else
            { st with ref := st.ref ++ "[]" }
        else
          { st with visitor := st.visitor.print "RT_MEMBER_POINTER" }
      { st with flag := false }
  if st.print_name then
    let st :=
      if name ≠ "" then
        if it.type = ref_type.RT_ARRAYBOUND then { st with ref := name ++ st.ref }
        else { st with ref := st.ref ++ name }
      else st
    { st with print_name := false }
  else st

/-- The loop of `VisitFullType` over the ref-stack, from the layer `stack.begin()` to
`stack.end()`. -/
def ref_walk (name : String) (stack : List ref_node) (st : RefWalk) : RefWalk :=
  stack.foldl (ref_walk_step name) st

/-- The visitor `AST::Visitor::VisitFullType`. -/
def VisitFullType (jdi : jdi_builtins) (ft : FullType) (print_type : Bool) (v : Visitor) :
    Bool × Visitor :=
  let v :=
    if print_type then
      let flags_values :=
        [jdi.builtin_flag__const.value, jdi.builtin_flag__static.value,
         jdi.builtin_flag__volatile.value, jdi.builtin_flag__mutable.value,
         jdi.builtin_flag__register.value, jdi.builtin_flag__inline.value,
         jdi.builtin_flag__Complex.value, jdi.builtin_flag__unsigned.value,
         jdi.builtin_flag__signed.value, jdi.builtin_flag__short.value,
         jdi.builtin_flag__long.value, jdi.builtin_flag__long_long.value,
         jdi.builtin_flag__restrict.value, jdi.builtin_typeflag__override.value,
         jdi.builtin_typeflag__final.value]
      let flags_masks :=
        [jdi.builtin_flag__const.mask, jdi.builtin_flag__static.mask,
         jdi.builtin_flag__volatile.mask, jdi.builtin_flag__mutable.mask,
         jdi.builtin_flag__register.mask, jdi.builtin_flag__inline.mask,
         jdi.builtin_flag__Complex.mask, jdi.builtin_flag__unsigned.mask,
         jdi.builtin_flag__signed.mask, jdi.builtin_flag__short.mask,
         jdi.builtin_flag__long.mask, jdi.builtin_flag__long_long.mask,
         jdi.builtin_flag__restrict.mask, jdi.builtin_typeflag__override.mask,
         jdi.builtin_typeflag__final.mask]
      let flags_names :=
        ["const", "static", "volatile", "mutable", "register",
         "inline", "complex", "unsigned", "signed", "short",
         "long", "long long", "restrict", "override", "final"]
      let v := print_type_flags ft flags_values flags_masks flags_names v
      v.print (ft.def_name ++ " ")
    else v
  let name := ft.decl_name
  let v :=
    if name ≠ "" ∧ ft.components_size = 0 then v.print (name ++ " ") else v
  let st := ref_walk name ft.ref_stack
    { ref := "", flag := false, print_name := true, visitor := v }
  let v := st.visitor.print st.ref
  (true, v)

/-! ## The visitors of expressions (parsing/pretty_printer.cpp) -/

/-- The node `AST::IdentifierAccess`; `name` is `name.content`. -/
structure IdentifierAccess where
  name : String
deriving DecidableEq

/-- The node `AST::Literal`; `value` is the string that `value.value` holds, one character
for each `char`, and `type` is `value.type`. -/
structure Literal where
  value : String
  type : TokenType
deriving DecidableEq

/-- The node `AST::UnaryPostfixExpression`. -/
structure UnaryPostfixExpression (Node : Type) where
  operand : Node
  operation : Operation

/-- The node `AST::UnaryPrefixExpression`. -/
structure UnaryPrefixExpression (Node : Type) where
  operation : Operation
  operand : Node

/-- The node `AST::DeleteExpression`. -/
structure DeleteExpression (Node : Type) where
  is_global : Bool
  is_array : Bool
  expression : Node

/-- The node `AST::BreakStatement`; `count = none` is the null pointer. -/
structure BreakStatement (Node : Type) where
  count : Option Node

/-- The node `AST::ContinueStatement`; `count = none` is the null pointer. -/
structure ContinueStatement (Node : Type) where
  count : Option Node

/-- The node `AST::WithStatement`. -/
structure WithStatement (Node : Type) where
  object : Node
  body : Node

/-- The node `AST::BinaryExpression`. -/
structure BinaryExpression (Node : Type) where
  left : Node
  operation : Operation
  right : Node

/-- The node `AST::FunctionCallExpression`. -/
structure FunctionCallExpression (Node : Type) where
  function : Node
  arguments : List Node

/-- The node `AST::TernaryExpression`. -/
structure TernaryExpression (Node : Type) where
  condition : Node
  true_expression : Node
  false_expression : Node

/-- The node `AST::LambdaExpression`. -/
structure LambdaExpression (Node : Type) where
  parameters : Node
  body : Node

/-- The node `AST::ReturnStatement`; `expression = none` is the null pointer. -/
structure ReturnStatement (Node : Type) where
  expression : Option Node

/-- The node `AST::SizeofExpression`: its `kind` together with the alternative of the
variant `argument` that `std::get` reads for that kind. -/
inductive SizeofExpression (Node : Type) where
  | EXPR (argument : Node)
  | VARIADIC (argument : String)
  | TYPE (argument : FullType)

/-- The node `AST::AlignofExpression`. -/
structure AlignofExpression where
  ft : FullType

/-- The enumeration `AST::CastExpression::Kind`. -/
inductive CastKind where
  | C_STYLE
  | STATIC
  | DYNAMIC
  | REINTERPRET
  | CONST
  | FUNCTIONAL
deriving DecidableEq

/-- The node `AST::CastExpression`; `expr = none` is the null pointer. -/
structure CastExpression (Node : Type) where
  kind : CastKind
  ft : FullType
  expr : Option Node

/-- The node `AST::Array`. -/
structure Array (Node : Type) where
  elements : List Node

/-- The visitor `AST::Visitor::VisitIdentifierAccess`. -/
def VisitIdentifierAccess (node : IdentifierAccess) (v : Visitor) : Bool × Visitor :=
  let v := if v.print_type then v.print "auto " else v
  let v := v.print node.name
  (true, v)

/-- The value of `static_cast<int>(c)` as `std::oct` writes it: a `char` is a signed byte,
and the stream writes a negative `int` as the 32-bit unsigned number of the same bits. -/
def char_as_oct_operand (c : Char) : Nat :=
  if c.toNat < 128 then c.toNat else 4294967040 + c.toNat

/-- The body of the loop of `VisitLiteral`: what one character adds to `to_print`. -/
def literal_escape (c : Char) : String :=
  if c = '\\' then "\\\\"
  else if ' ' ≤ c ∧ c ≤ '~' then String.singleton c
  else if c = '\n' then "\\n"
  else if c = '\t' then "\\t"
  else if c = Char.ofNat 11 then "\\v"
  else if c = Char.ofNat 8 then "\\b"
  else if c = '\r' then "\\r"
  else if c = Char.ofNat 12 then "\\f"
  else if c = Char.ofNat 7 then "\\a"
  else if c = '?' then "\\?"
  else "\\" ++ String.mk (Nat.toDigits 8 (char_as_oct_operand c))

/-- The visitor `AST::Visitor::VisitLiteral`. -/
def VisitLiteral (node : Literal) (v : Visitor) : Bool × Visitor :=
  let value := node.value
  if node.type ≠ TokenType.TT_CHARLIT ∧ node.type ≠ TokenType.TT_STRINGLIT then
    let v := v.print value
    (true, v)
  else
    let v := v.print (if node.type = TokenType.TT_CHARLIT then "'" else "\"")
    let to_print := value.data.foldl (fun to_print c => to_print ++ literal_escape c) ""
    let v := v.print to_print
    let v := v.print (if node.type = TokenType.TT_CHARLIT then "'" else "\"")
    (true, v)

/-- The visitor `AST::Visitor::VisitUnaryPostfixExpression`. -/
def VisitUnaryPostfixExpression {Node : Type} (base : VisitorBase Node)
    (node : UnaryPostfixExpression Node) (v : Visitor) : Bool × Visitor :=
  VISIT_AND_CHECK (base.Visit node.operand v) fun v =>
  let v := v.print node.operation.token
  (true, v)

/-- The visitor `AST::Visitor::VisitUnaryPrefixExpression`. -/
def VisitUnaryPrefixExpression {Node : Type} (base : VisitorBase Node)
    (node : UnaryPrefixExpression Node) (v : Visitor) : Bool × Visitor :=
  let v := v.print node.operation.token
  let v :=
    if node.operation.type = TokenType.TT_STAR ∧
        base.type node.operand ≠ NodeType.PARENTHETICAL then v.print "("
    else v
  VISIT_AND_CHECK (base.Visit node.operand v) fun v =>
  let v :=
    if node.operation.type = TokenType.TT_STAR ∧
        base.type node.operand ≠ NodeType.PARENTHETICAL then v.print ")"
    else v
  (true, v)

/-- The visitor `AST::Visitor::VisitDeleteExpression`. -/
def VisitDeleteExpression {Node : Type} (base : VisitorBase Node)
    (node : DeleteExpression Node) (v : Visitor) : Bool × Visitor :=
  let v := if node.is_global then v.print "::" else v
  let v := v.print "delete "
  let v := if node.is_array then v.print "[] " else v
  VISIT_AND_CHECK (base.Visit node.expression v) fun v =>
  (true, v)

/-- The visitor `AST::Visitor::VisitBreakStatement`. -/
def VisitBreakStatement {Node : Type} (base : VisitorBase Node)
    (node : BreakStatement Node) (v : Visitor) : Bool × Visitor :=
  let v := v.print "break"
  match node.count with
  | some count =>
    let v := v.print " "
    VISIT_AND_CHECK (base.Visit count v) fun v =>
    (true, v)
  | none => (true, v)

/-- The visitor `AST::Visitor::VisitContinueStatement`. -/
def VisitContinueStatement {Node : Type} (base : VisitorBase Node)
    (node : ContinueStatement Node) (v : Visitor) : Bool × Visitor :=
  let v := v.print "continue"
  match node.count with
  | some count =>
    let v := v.print " "
    VISIT_AND_CHECK (base.Visit count v) fun v =>
    (true, v)
  | none => (true, v)

/-- The visitor `AST::Visitor::VisitWithStatement`. -/
def VisitWithStatement {Node : Type} (base : VisitorBase Node)
    (node : WithStatement Node) (v : Visitor) : Bool × Visitor :=
  let v := v.print "with"
  let v := if base.type node.object ≠ NodeType.PARENTHETICAL then v.print "(" else v
  VISIT_AND_CHECK (base.Visit node.object v) fun v =>
  let v := if base.type node.object ≠ NodeType.PARENTHETICAL then v.print ")" else v
  VISIT_AND_CHECK (base.Visit node.body v) fun v =>
  let v := base.PrintSemiColon node.body v
  (true, v)

/-- The visitor `AST::Visitor::VisitBinaryExpression`. -/
def VisitBinaryExpression {Node : Type} (base : VisitorBase Node)
    (node : BinaryExpression Node) (v : Visitor) : Bool × Visitor :=
  VISIT_AND_CHECK (base.Visit node.left v) fun v =>
  let v := v.print (" " ++ node.operation.token ++ " ")
  VISIT_AND_CHECK (base.Visit node.right v) fun v =>
  let v := if node.operation.type = TokenType.TT_BEGINBRACKET then v.print "]" else v
  (true, v)

/-- The loop of `VisitFunctionCallExpression` over the arguments: each one is visited, and
every one but the last is followed by a comma. -/
def visit_arguments {Node : Type} (base : VisitorBase Node) :
    List Node → Visitor → Bool × Visitor
  | [], v => (true, v)
  | arg :: rest, v =>
    VISIT_AND_CHECK (base.Visit arg v) fun v =>
    let v := if !rest.isEmpty then v.print ", " else v
    visit_arguments base rest v

/-- The visitor `AST::Visitor::VisitFunctionCallExpression`. -/
def VisitFunctionCallExpression {Node : Type} (base : VisitorBase Node)
    (node : FunctionCallExpression Node) (v : Visitor) : Bool × Visitor :=
  VISIT_AND_CHECK (base.Visit node.function v) fun v =>
  let v := v.print "("
  VISIT_AND_CHECK (visit_arguments base node.arguments v) fun v =>
  let v := v.print ")"
  (true, v)

/-- The visitor `AST::Visitor::VisitTernaryExpression`. -/
def VisitTernaryExpression {Node : Type} (base : VisitorBase Node)
    (node : TernaryExpression Node) (v : Visitor) : Bool × Visitor :=
  VISIT_AND_CHECK (base.Visit node.condition v) fun v =>
  let v := v.print " ? "
  VISIT_AND_CHECK (base.Visit node.true_expression v) fun v =>
  let v := v.print " : "
  VISIT_AND_CHECK (base.Visit node.false_expression v) fun v =>
  (true, v)

/-- The visitor `AST::Visitor::VisitLambdaExpression`. -/
def VisitLambdaExpression {Node : Type} (base : VisitorBase Node)
    (node : LambdaExpression Node) (v : Visitor) : Bool × Visitor :=
  let v := v.print "[&]"
  let v := if base.type node.parameters = NodeType.IDENTIFIER then v.print "(" else v
  let v := { v with print_type := true }
  VISIT_AND_CHECK (base.Visit node.parameters v) fun v =>
  let v := { v with print_type := false }
  let v := if base.type node.parameters = NodeType.IDENTIFIER then v.print ")" else v
  let v := if base.type node.body ≠ NodeType.BLOCK then v.print "\x7b" else v
  VISIT_AND_CHECK (base.Visit node.body v) fun v =>
  let v := base.PrintSemiColon node.body v
  let v := if base.type node.body ≠ NodeType.BLOCK then v.print "\x7d" else v
  (true, v)

/-- The visitor `AST::Visitor::VisitReturnStatement`. -/
def VisitReturnStatement {Node : Type} (base : VisitorBase Node)
    (node : ReturnStatement Node) (v : Visitor) : Bool × Visitor :=
  let v := v.print "return "
  match node.expression with
  | some expression =>
    VISIT_AND_CHECK (base.Visit expression v) fun v =>
    (true, v)
  | none => (true, v)

/-- The visitor `AST::Visitor::VisitSizeofExpression`. -/
def VisitSizeofExpression {Node : Type} (jdi : jdi_builtins) (base : VisitorBase Node)
    (node : SizeofExpression Node) (v : Visitor) : Bool × Visitor :=
  let v := v.print "sizeof"
  match node with
  | .EXPR arg =>
    let v := v.print " "
    VISIT_AND_CHECK (base.Visit arg v) fun v =>
    (true, v)
  | .VARIADIC arg =>
    let v := v.print "...("
    let v := v.print (arg ++ ")")
    (true, v)
  | .TYPE ft =>
    let v := v.print "("
    VISIT_AND_CHECK (VisitFullType jdi ft VisitFullType_default_print_type v) fun v =>
    let v := v.print ")"
    (true, v)

/-- The visitor `AST::Visitor::VisitAlignofExpression`. -/
def VisitAlignofExpression (jdi : jdi_builtins) (node : AlignofExpression) (v : Visitor) :
    Bool × Visitor :=
  let v := v.print "alignof("
  VISIT_AND_CHECK (VisitFullType jdi node.ft VisitFullType_default_print_type v) fun v =>
  let v := v.print ")"
  (true, v)

/-- The end of `VisitCastExpression`, from the test of `node.expr` on. -/
def cast_operand_and_close {Node : Type} (base : VisitorBase Node)
    (node : CastExpression Node) (v : Visitor) : Bool × Visitor :=
  let close := fun (v : Visitor) =>
    let v :=
      if node.kind = CastKind.FUNCTIONAL then v.print ")"
      else if node.kind ≠ CastKind.C_STYLE then v.print ")"
      else v
    (true, v)
  match node.expr with
  | some expr => VISIT_AND_CHECK (base.Visit expr v) close
  | none => close v

/-- The visitor `AST::Visitor::VisitCastExpression`. -/
def VisitCastExpression {Node : Type} (jdi : jdi_builtins) (base : VisitorBase Node)
    (node : CastExpression Node) (v : Visitor) : Bool × Visitor :=
  if node.kind = CastKind.FUNCTIONAL then
    VISIT_AND_CHECK (VisitFullType jdi node.ft VisitFullType_default_print_type v) fun v =>
    let v := v.print "("
    cast_operand_and_close base node v
  else if node.kind = CastKind.C_STYLE then
    let v := v.print "("
    VISIT_AND_CHECK (VisitFullType jdi node.ft VisitFullType_default_print_type v) fun v =>
    let v := v.print ")"
    cast_operand_and_close base node v
  else
    let v :=
      if node.kind = CastKind.STATIC then v.print "static_cast<"
      else if node.kind = CastKind.DYNAMIC then v.print "dynamic_cast<"
      else if node.kind = CastKind.CONST then v.print "const_cast<"
      else if node.kind = CastKind.REINTERPRET then v.print "reinterpret_cast<"
      else v
    VISIT_AND_CHECK (VisitFullType jdi node.ft VisitFullType_default_print_type v) fun v =>
    let v := v.print ">("
    cast_operand_and_close base node v

/-- The visitor `AST::Visitor::VisitArray`. -/
def VisitArray {Node : Type} (base : VisitorBase Node) (node : Array Node) (v : Visitor) :
    Bool × Visitor :=
  let v := v.print "["
  match node.elements with
  | element :: _ =>
    VISIT_AND_CHECK (base.Visit element v) fun v =>
    let v := v.print "]"
    (true, v)
  | [] =>
    let v := v.print "]"
    (true, v)

/-! ## The visitors of initializers and statements (parsing/pretty_printer.cpp) -/

/-- The enumeration `AST::BraceOrParenInitializer::Kind`. -/
inductive BraceOrParenInitializerKind where
  | PAREN_INIT
  | BRACE_INIT
  | DESIGNATED_INIT
deriving DecidableEq

mutual
/-- The node `AST::Initializer`: its `kind` with the alternative of the variant
`initializer` that `std::get` reads for that kind, and `is_variadic`; `other` stands for
the kinds that `VisitInitializer` has no branch for. -/
inductive Initializer (Node : Type) where
  | BRACE_INIT (init : BraceOrParenInitializer Node) (is_variadic : Bool)
  | PLACEMENT_NEW (init : BraceOrParenInitializer Node) (is_variadic : Bool)
  | ASSIGN_EXPR (init : AssignmentInitializer Node) (is_variadic : Bool)
  | other (is_variadic : Bool)
/-- The node `AST::BraceOrParenInitializer`. -/
inductive BraceOrParenInitializer (Node : Type) where
  | mk (kind : BraceOrParenInitializerKind) (values : InitializerValues Node)
/-- The vector `values` of a `BraceOrParenInitializer`: pairs of a designator `first` and
an initializer `second`. -/
inductive InitializerValues (Node : Type) where
  | nil
  | cons (first : String) (second : Initializer Node) (rest : InitializerValues Node)
/-- The node `AST::AssignmentInitializer`: its `kind` with the alternative of the variant
`initializer` that `std::get` reads for that kind. -/
inductive AssignmentInitializer (Node : Type) where
  | BRACE_INIT (init : BraceOrParenInitializer Node)
  | EXPR (expr : Node)
end

/-- Whether a vector of values is empty. -/
def InitializerValues.isEmpty {Node : Type} : InitializerValues Node → Bool
  | .nil => true
  | .cons _ _ _ => false

mutual
/-- The visitor `AST::Visitor::VisitInitializer`. -/
def VisitInitializer {Node : Type} (base : VisitorBase Node) :
    Initializer Node → Visitor → Bool × Visitor
  | .BRACE_INIT init is_variadic, v =>
    VISIT_AND_CHECK (VisitBraceOrParenInitializer base init v) fun v =>
    let v := if is_variadic then v.print "..." else v
    (true, v)
  | .PLACEMENT_NEW init is_variadic, v =>
    VISIT_AND_CHECK (VisitBraceOrParenInitializer base init v) fun v =>
    let v := if is_variadic then v.print "..." else v
    (true, v)
  | .ASSIGN_EXPR init is_variadic, v =>
    VISIT_AND_CHECK (VisitAssignmentInitializer base init v) fun v =>
    let v := if is_variadic then v.print "..." else v
    (true, v)
  | .other is_variadic, v =>
    let v := if is_variadic then v.print "..." else v
    (true, v)
/-- The visitor `AST::Visitor::VisitBraceOrParenInitializer`. -/
def VisitBraceOrParenInitializer {Node : Type} (base : VisitorBase Node) :
    BraceOrParenInitializer Node → Visitor → Bool × Visitor
  | .mk kind values, v =>
    let v :=
      if kind = BraceOrParenInitializerKind.PAREN_INIT then v.print "("
      else v.print "\x7b"
    VISIT_AND_CHECK (visit_initializer_values base kind values v) fun v =>
    let v :=
      if kind = BraceOrParenInitializerKind.PAREN_INIT then v.print ")"
      else v.print "\x7d"
    (true, v)
/-- The loop of `VisitBraceOrParenInitializer` over `node.values`. -/
def visit_initializer_values {Node : Type} (base : VisitorBase Node)
    (kind : BraceOrParenInitializerKind) :
    InitializerValues Node → Visitor → Bool × Visitor
  | .nil, v => (true, v)
  | .cons first second rest, v =>
    let v := if kind = BraceOrParenInitializerKind.DESIGNATED_INIT then v.print "." else v
    let v := if first ≠ "" then v.print (first ++ "=") else v
    VISIT_AND_CHECK (VisitInitializer base second v) fun v =>
    let v := if !rest.isEmpty then v.print ", " else v
    visit_initializer_values base kind rest v
/-- The visitor `AST::Visitor::VisitAssignmentInitializer`. -/
def VisitAssignmentInitializer {Node : Type} (base : VisitorBase Node) :
    AssignmentInitializer Node → Visitor → Bool × Visitor
  | .BRACE_INIT init, v =>
    VISIT_AND_CHECK (VisitBraceOrParenInitializer base init v) fun v =>
    (true, v)
  | .EXPR expr, v =>
    VISIT_AND_CHECK (base.Visit expr v) fun v =>
    (true, v)
end

/-- The node `AST::NewExpression`; `none` is the null pointer. -/
structure NewExpression (Node : Type) where
  is_global : Bool
  placement : Option (Initializer Node)
  ft : FullType
  initializer : Option (Initializer Node)

/-- One entry of `declarations` of a declaration statement; `init = none` is the null
pointer. -/
structure Declaration (Node : Type) where
  declarator : FullType
  init : Option (Initializer Node)

/-- The node `AST::DeclarationStatement`. -/
structure DeclarationStatement (Node : Type) where
  declarations : List (Declaration Node)

/-- The node `AST::CodeBlock`. -/
structure CodeBlock (Node : Type) where
  statements : List Node

/-- The node `AST::IfStatement`; `none` is the null pointer. -/
structure IfStatement (Node : Type) where
  condition : Node
  true_branch : Option Node
  false_branch : Option Node

/-- The node `AST::ForLoop`. -/
structure ForLoop (Node : Type) where
  assignment : Node
  condition : Node
  increment : Node
  body : Node

/-- The node `AST::CaseStatement`; `statements` is the code block that `As<CodeBlock>`
reads the node `statements` as. -/
structure CaseStatement (Node : Type) where
  value : Node
  statements : CodeBlock Node

/-- The node `AST::DefaultStatement`; `statements` is the code block that `As<CodeBlock>`
reads the node `statements` as. -/
structure DefaultStatement (Node : Type) where
  statements : CodeBlock Node

/-- The node `AST::SwitchStatement`; `body` is the code block that `As<CodeBlock>` reads
the node `body` as. -/
structure SwitchStatement (Node : Type) where
  expression : Node
  body : CodeBlock Node

/-- The end of `VisitNewExpression`, from the type on. -/
def new_type_and_initializer {Node : Type} (jdi : jdi_builtins) (base : VisitorBase Node)
    (node : NewExpression Node) (v : Visitor) : Bool × Visitor :=
  let v := v.print "("
  VISIT_AND_CHECK (VisitFullType jdi node.ft VisitFullType_default_print_type v) fun v =>
  let v := v.print ")"
  match node.initializer with
  | some init =>
    VISIT_AND_CHECK (VisitInitializer base init v) fun v =>
    (true, v)
  | none => (true, v)

/-- The visitor `AST::Visitor::VisitNewExpression`. -/
def VisitNewExpression {Node : Type} (jdi : jdi_builtins) (base : VisitorBase Node)
    (node : NewExpression Node) (v : Visitor) : Bool × Visitor :=
  let v := if node.is_global then v.print "::" else v
  let v := v.print "new "
  match node.placement with
  | some placement =>
    VISIT_AND_CHECK (VisitInitializer base placement v) fun v =>
    let v := v.print " "
    new_type_and_initializer jdi base node v
  | none => new_type_and_initializer jdi base node v

/-- The loop of `VisitDeclarationStatement` from index `i` on; `first` is `!i`. -/
def visit_declarations {Node : Type} (jdi : jdi_builtins) (base : VisitorBase Node) :
    Bool → List (Declaration Node) → Visitor → Bool × Visitor
  | _, [], v => (true, v)
  | first, declaration :: rest, v =>
    VISIT_AND_CHECK (VisitFullType jdi declaration.declarator first v) fun v =>
    let separate := fun (v : Visitor) =>
      let v := if !rest.isEmpty then v.print ", " else v
      visit_declarations jdi base false rest v
    match declaration.init with
    | some init =>
      let v := v.print " = "
      VISIT_AND_CHECK (VisitInitializer base init v) separate
    | none => separate v

/-- The visitor `AST::Visitor::VisitDeclarationStatement`. -/
def VisitDeclarationStatement {Node : Type} (jdi : jdi_builtins) (base : VisitorBase Node)
    (node : DeclarationStatement Node) (v : Visitor) : Bool × Visitor :=
  visit_declarations jdi base true node.declarations v

/-- The loop of `VisitCode` over the statements. -/
def visit_statements {Node : Type} (base : VisitorBase Node) :
    List Node → Visitor → Bool × Visitor
  | [], v => (true, v)
  | stmt :: rest, v =>
    VISIT_AND_CHECK (base.Visit stmt v) fun v =>
    let v := base.PrintSemiColon stmt v
    visit_statements base rest v

/-- The visitor `AST::Visitor::VisitCode`. -/
def VisitCode {Node : Type} (base : VisitorBase Node) (node : CodeBlock Node)
    (v : Visitor) : Bool × Visitor :=
  visit_statements base node.statements v

/-- The visitor `AST::Visitor::VisitCodeBlock`. -/
def VisitCodeBlock {Node : Type} (base : VisitorBase Node) (node : CodeBlock Node)
    (v : Visitor) : Bool × Visitor :=
  let v := v.print "\x7b"
  VISIT_AND_CHECK (VisitCode base node v) fun v =>
  let v := v.print "\x7d"
  (true, v)

/-- The end of `VisitIfStatement`, from the test of `node.false_branch` on. -/
def if_false_branch {Node : Type} (base : VisitorBase Node) (node : IfStatement Node)
    (v : Visitor) : Bool × Visitor :=
  let v := v.print " "
  match node.false_branch with
  | some false_branch =>
    let v := v.print "else "
    VISIT_AND_CHECK (base.Visit false_branch v) fun v =>
    let v := base.PrintSemiColon false_branch v
    let v := v.print " "
    (true, v)
  | none => (true, v)

/-- The visitor `AST::Visitor::VisitIfStatement`. -/
def VisitIfStatement {Node : Type} (base : VisitorBase Node) (node : IfStatement Node)
    (v : Visitor) : Bool × Visitor :=
  let v := v.print "if"
  let v := if base.type node.condition ≠ NodeType.PARENTHETICAL then v.print "(" else v
  VISIT_AND_CHECK (base.Visit node.condition v) fun v =>
  let v := if base.type node.condition ≠ NodeType.PARENTHETICAL then v.print ")" else v
  let v := v.print " "
  match node.true_branch with
  | some true_branch =>
    VISIT_AND_CHECK (base.Visit true_branch v) fun v =>
    let v := base.PrintSemiColon true_branch v
    if_false_branch base node v
  | none =>
    let v := v.print ";"
    if_false_branch base node v

/-- The visitor `AST::Visitor::VisitForLoop`. -/
def VisitForLoop {Node : Type} (base : VisitorBase Node) (node : ForLoop Node)
    (v : Visitor) : Bool × Visitor :=
  let v := v.print "for("
  VISIT_AND_CHECK (base.Visit node.assignment v) fun v =>
  let v := v.print "; "
  VISIT_AND_CHECK (base.Visit node.condition v) fun v =>
  let v := v.print "; "
  VISIT_AND_CHECK (base.Visit node.increment v) fun v =>
  let v := v.print ") "
  VISIT_AND_CHECK (base.Visit node.body v) fun v =>
  let v := base.PrintSemiColon node.body v
  let v := v.print " "
  (true, v)

/-- The visitor `AST::Visitor::VisitCaseStatement`. -/
def VisitCaseStatement {Node : Type} (base : VisitorBase Node) (node : CaseStatement Node)
    (v : Visitor) : Bool × Visitor :=
  let v := v.print "case "
  VISIT_AND_CHECK (base.Visit node.value v) fun v =>
  let v := v.print ": "
  VISIT_AND_CHECK (VisitCodeBlock base node.statements v) fun v =>
  let v := v.print " "
  (true, v)

/-- The visitor `AST::Visitor::VisitDefaultStatement`. -/
def VisitDefaultStatement {Node : Type} (base : VisitorBase Node)
    (node : DefaultStatement Node) (v : Visitor) : Bool × Visitor :=
  let v := v.print "default: "
  VISIT_AND_CHECK (VisitCodeBlock base node.statements v) fun v =>
  let v := v.print " "
  (true, v)

/-- The visitor `AST::Visitor::VisitSwitchStatement`. -/
def VisitSwitchStatement {Node : Type} (base : VisitorBase Node)
    (node : SwitchStatement Node) (v : Visitor) : Bool × Visitor :=
  let v := v.print "switch"
  let v := if base.type node.expression ≠ NodeType.PARENTHETICAL then v.print "(" else v
  VISIT_AND_CHECK (base.Visit node.expression v) fun v =>
  let v := if base.type node.expression ≠ NodeType.PARENTHETICAL then v.print ")" else v
  let v := v.print " "
  VISIT_AND_CHECK (VisitCodeBlock base node.body v) fun v =>
  let v := v.print " "
  (true, v)

/-- The three tables of `VisitFullType`, `flags_values`, `flags_masks` and `flags_names`,
read as one table of fifteen flags with their names, in the order of the tables. -/
def flag_table (jdi : jdi_builtins) : List (builtin_flag × String) :=
  [(jdi.builtin_flag__const, "const"), (jdi.builtin_flag__static, "static"),
   (jdi.builtin_flag__volatile, "volatile"), (jdi.builtin_flag__mutable, "mutable"),
   (jdi.builtin_flag__register, "register"), (jdi.builtin_flag__inline, "inline"),
   (jdi.builtin_flag__Complex, "complex"), (jdi.builtin_flag__unsigned, "unsigned"),
   (jdi.builtin_flag__signed, "signed"), (jdi.builtin_flag__short, "short"),
   (jdi.builtin_flag__long, "long"), (jdi.builtin_flag__long_long, "long long"),
   (jdi.builtin_flag__restrict, "restrict"), (jdi.builtin_typeflag__override, "override"),
   (jdi.builtin_typeflag__final, "final")]

/-- A table of builtin flags for examples: one bit for each flag, but `signed`, which
is the bit of `unsigned` being clear, and `long long`, which is two bits. -/
def example_builtins : jdi_builtins :=
  { builtin_flag__const := ⟨1, 1⟩
    builtin_flag__static := ⟨2, 2⟩
    builtin_flag__volatile := ⟨4, 4⟩
    builtin_flag__mutable := ⟨8, 8⟩
    builtin_flag__register := ⟨16, 16⟩
    builtin_flag__inline := ⟨32, 32⟩
    builtin_flag__Complex := ⟨64, 64⟩
    builtin_flag__unsigned := ⟨128, 128⟩
    builtin_flag__signed := ⟨0, 128⟩
    builtin_flag__short := ⟨256, 256⟩
    builtin_flag__long := ⟨512, 1536⟩
    builtin_flag__long_long := ⟨1536, 1536⟩
    builtin_flag__restrict := ⟨2048, 2048⟩
    builtin_typeflag__override := ⟨4096, 4096⟩
    builtin_typeflag__final := ⟨8192, 8192⟩ }

/-! ## The bodies of the visitors as sequences of steps -/

/-- One statement of the body of a visitor: a call of `print`, an assignment to
`print_type`, a call of `PrintSemiColon`, a checked call of `VisitFullType`, or a checked
visit of a child, `VISIT_AND_CHECK(node)`. -/
inductive RenderStep (Node : Type) where
  | print (text : String)
  | set_print_type (value : Bool)
  | semicolon (node : Node)
  | full_type (ft : FullType) (print_type : Bool)
  | child (node : Node)

/-- The run of a sequence of steps: each step acts on the visitor in turn; a checked call
that fails ends the run with failure, in the state that the failing call left, and a run
that comes to its end succeeds. -/
def render_steps {Node : Type} (jdi : jdi_builtins) (base : VisitorBase Node) :
    List (RenderStep Node) → Visitor → Bool × Visitor
  | [], v => (true, v)
  | .print text :: rest, v => render_steps jdi base rest (v.print text)
  | .set_print_type value :: rest, v =>
    render_steps jdi base rest { v with print_type := value }
  | .semicolon node :: rest, v => render_steps jdi base rest (base.PrintSemiColon node v)
  | .full_type ft print_type :: rest, v =>
    VISIT_AND_CHECK (VisitFullType jdi ft print_type v) fun v => render_steps jdi base rest v
  | .child node :: rest, v =>
    VISIT_AND_CHECK (base.Visit node v) fun v => render_steps jdi base rest v

/-- The steps of a child that may be the null pointer. -/
def optional_child {Node : Type} : Option Node → List (RenderStep Node)
  | some node => [.child node]
  | none => []

/-- The steps of `VisitParenthetical`. -/
def VisitParenthetical_steps {Node : Type} (node : Parenthetical Node) :
    List (RenderStep Node) :=
  [.print "("] ++ optional_child node.expression ++ [.print ")"]

/-- The steps of `VisitUnaryPostfixExpression`. -/
def VisitUnaryPostfixExpression_steps {Node : Type} (node : UnaryPostfixExpression Node) :
    List (RenderStep Node) :=
  [.child node.operand, .print node.operation.token]

/-- The steps of `VisitUnaryPrefixExpression`. -/
def VisitUnaryPrefixExpression_steps {Node : Type} (base : VisitorBase Node)
    (node : UnaryPrefixExpression Node) : List (RenderStep Node) :=
  [.print node.operation.token]
    ++ (if node.operation.type = TokenType.TT_STAR ∧
          base.type node.operand ≠ NodeType.PARENTHETICAL then [.print "("] else [])
    ++ [.child node.operand]
    ++ (if node.operation.type = TokenType.TT_STAR ∧
          base.type node.operand ≠ NodeType.PARENTHETICAL then [.print ")"] else [])

/-- The steps of `VisitDeleteExpression`. -/
def VisitDeleteExpression_steps {Node : Type} (node : DeleteExpression Node) :
    List (RenderStep Node) :=
  (if node.is_global then [.print "::"] else [])
    ++ [.print "delete "]
    ++ (if node.is_array then [.print "[] "] else [])
    ++ [.child node.expression]

/-- The steps of `VisitBreakStatement`. -/
def VisitBreakStatement_steps {Node : Type} (node : BreakStatement Node) :
    List (RenderStep Node) :=
  [.print "break"]
    ++ (match node.count with
        | some count => [.print " ", .child count]
        | none => [])

/-- The steps of `VisitContinueStatement`. -/
def VisitContinueStatement_steps {Node : Type} (node : ContinueStatement Node) :
    List (RenderStep Node) :=
  [.print "continue"]
    ++ (match node.count with
        | some count => [.print " ", .child count]
        | none => [])

/-- The steps of `VisitWithStatement`. -/
def VisitWithStatement_steps {Node : Type} (base : VisitorBase Node)
    (node : WithStatement Node) : List (RenderStep Node) :=
  [.print "with"]
    ++ (if base.type node.object ≠ NodeType.PARENTHETICAL then [.print "("] else [])
    ++ [.child node.object]
    ++ (if base.type node.object ≠ NodeType.PARENTHETICAL then [.print ")"] else [])
    ++ [.child node.body, .semicolon node.body]

/-- The steps of `VisitBinaryExpression`. -/
def VisitBinaryExpression_steps {Node : Type} (node : BinaryExpression Node) :
    List (RenderStep Node) :=
  [.child node.left, .print (" " ++ node.operation.token ++ " "), .child node.right]
    ++ (if node.operation.type = TokenType.TT_BEGINBRACKET then [.print "]"] else [])

/-- The steps of the loop of `VisitFunctionCallExpression` over the arguments. -/
def visit_arguments_steps {Node : Type} : List Node → List (RenderStep Node)
  | [] => []
  | arg :: rest =>
    [.child arg] ++ (if !rest.isEmpty then [.print ", "] else [])
      ++ visit_arguments_steps rest

/-- The steps of `VisitFunctionCallExpression`. -/
def VisitFunctionCallExpression_steps {Node : Type} (node : FunctionCallExpression Node) :
    List (RenderStep Node) :=
  [.child node.function, .print "("] ++ visit_arguments_steps node.arguments
    ++ [.print ")"]

/-- The steps of `VisitTernaryExpression`. -/
def VisitTernaryExpression_steps {Node : Type} (node : TernaryExpression Node) :
    List (RenderStep Node) :=
  [.child node.condition, .print " ? ", .child node.true_expression, .print " : ",
   .child node.false_expression]

/-- The steps of `VisitLambdaExpression`. -/
def VisitLambdaExpression_steps {Node : Type} (base : VisitorBase Node)
    (node : LambdaExpression Node) : List (RenderStep Node) :=
  [.print "[&]"]
    ++ (if base.type node.parameters = NodeType.IDENTIFIER then [.print "("] else [])
    ++ [.set_print_type true, .child node.parameters, .set_print_type false]
    ++ (if base.type node.parameters = NodeType.IDENTIFIER then [.print ")"] else [])
    ++ (if base.type node.body ≠ NodeType.BLOCK then [.print "\x7b"] else [])
    ++ [.child node.body, .semicolon node.body]
    ++ (if base.type node.body ≠ NodeType.BLOCK then [.print "\x7d"] else [])

/-- The steps of `VisitReturnStatement`. -/
def VisitReturnStatement_steps {Node : Type} (node : ReturnStatement Node) :
    List (RenderStep Node) :=
  [.print "return "] ++ optional_child node.expression

/-- The steps of `VisitSizeofExpression`. -/
def VisitSizeofExpression_steps {Node : Type} :
    SizeofExpression Node → List (RenderStep Node)
  | .EXPR arg => [.print "sizeof", .print " ", .child arg]
  | .VARIADIC arg => [.print "sizeof", .print "...(", .print (arg ++ ")")]
  | .TYPE ft =>
    [.print "sizeof", .print "(", .full_type ft VisitFullType_default_print_type,
     .print ")"]

/-- The steps of `VisitAlignofExpression`. -/
def VisitAlignofExpression_steps {Node : Type} (node : AlignofExpression) :
    List (RenderStep Node) :=
  [.print "alignof(", .full_type node.ft VisitFullType_default_print_type, .print ")"]

/-- The steps of `VisitCastExpression`. -/
def VisitCastExpression_steps {Node : Type} (node : CastExpression Node) :
    List (RenderStep Node) :=
  (if node.kind = CastKind.FUNCTIONAL then
      [.full_type node.ft VisitFullType_default_print_type, .print "("]
    else if node.kind = CastKind.C_STYLE then
      [.print "(", .full_type node.ft VisitFullType_default_print_type, .print ")"]
    else
      (if node.kind = CastKind.STATIC then [.print "static_cast<"]
        else if node.kind = CastKind.DYNAMIC then [.print "dynamic_cast<"]
        else if node.kind = CastKind.CONST then [.print "const_cast<"]
        else if node.kind = CastKind.REINTERPRET then [.print "reinterpret_cast<"]
        else [])
      ++ [.full_type node.ft VisitFullType_default_print_type, .print ">("])
    ++ optional_child node.expr
    ++ (if node.kind = CastKind.FUNCTIONAL then [.print ")"]
        else if node.kind ≠ CastKind.C_STYLE then [.print ")"]
        else [])

/-- The steps of `VisitArray`. -/
def VisitArray_steps {Node : Type} (node : Array Node) : List (RenderStep Node) :=
  [.print "["]
    ++ (match node.elements with
        | element :: _ => [.child element]
        | [] => [])
    ++ [.print "]"]

mutual
/-- The steps of `VisitInitializer`. -/
def VisitInitializer_steps {Node : Type} : Initializer Node → List (RenderStep Node)
  | .BRACE_INIT init is_variadic =>
    VisitBraceOrParenInitializer_steps init ++ (if is_variadic then [.print "..."] else [])
  | .PLACEMENT_NEW init is_variadic =>
    VisitBraceOrParenInitializer_steps init ++ (if is_variadic then [.print "..."] else [])
  | .ASSIGN_EXPR init is_variadic =>
    VisitAssignmentInitializer_steps init ++ (if is_variadic then [.print "..."] else [])
  | .other is_variadic => if is_variadic then [.print "..."] else []
/-- The steps of `VisitBraceOrParenInitializer`. -/
def VisitBraceOrParenInitializer_steps {Node : Type} :
    BraceOrParenInitializer Node → List (RenderStep Node)
  | .mk kind values =>
    (if kind = BraceOrParenInitializerKind.PAREN_INIT then [.print "("]
      else [.print "\x7b"])
      ++ visit_initializer_values_steps kind values
      ++ (if kind = BraceOrParenInitializerKind.PAREN_INIT then [.print ")"]
          else [.print "\x7d"])
/-- The steps of the loop of `VisitBraceOrParenInitializer` over `node.values`. -/
def visit_initializer_values_steps {Node : Type} (kind : BraceOrParenInitializerKind) :
    InitializerValues Node → List (RenderStep Node)
  | .nil => []
  | .cons first second rest =>
    (if kind = BraceOrParenInitializerKind.DESIGNATED_INIT then [.print "."] else [])
      ++ (if first ≠ "" then [.print (first ++ "=")] else [])
      ++ VisitInitializer_steps second
      ++ (if !rest.isEmpty then [.print ", "] else [])
      ++ visit_initializer_values_steps kind rest
/-- The steps of `VisitAssignmentInitializer`. -/
def VisitAssignmentInitializer_steps {Node : Type} :
    AssignmentInitializer Node → List (RenderStep Node)
  | .BRACE_INIT init => VisitBraceOrParenInitializer_steps init
  | .EXPR expr => [.child expr]
end

/-- The steps of an initializer that may be the null pointer, after the steps `before`
that come with it. -/
def optional_initializer {Node : Type} (before after : List (RenderStep Node)) :
    Option (Initializer Node) → List (RenderStep Node)
  | some init => before ++ VisitInitializer_steps init ++ after
  | none => []

/-- The steps of `VisitNewExpression`. -/
def VisitNewExpression_steps {Node : Type} (node : NewExpression Node) :
    List (RenderStep Node) :=
  (if node.is_global then [.print "::"] else [])
    ++ [.print "new "]
    ++ optional_initializer [] [.print " "] node.placement
    ++ [.print "(", .full_type node.ft VisitFullType_default_print_type, .print ")"]
    ++ optional_initializer [] [] node.initializer

/-- The steps of the loop of `VisitDeclarationStatement` from index `i` on; `first` is
`!i`. -/
def visit_declarations_steps {Node : Type} :
    Bool → List (Declaration Node) → List (RenderStep Node)
  | _, [] => []
  | first, declaration :: rest =>
    [.full_type declaration.declarator first]
      ++ optional_initializer [.print " = "] [] declaration.init
      ++ (if !rest.isEmpty then [.print ", "] else [])
      ++ visit_declarations_steps false rest

/-- The steps of `VisitDeclarationStatement`. -/
def VisitDeclarationStatement_steps {Node : Type} (node : DeclarationStatement Node) :
    List (RenderStep Node) :=
  visit_declarations_steps true node.declarations

/-- The steps of the loop of `VisitCode` over the statements. -/
def visit_statements_steps {Node : Type} : List Node → List (RenderStep Node)
  | [] => []
  | stmt :: rest => [.child stmt, .semicolon stmt] ++ visit_statements_steps rest

/-- The steps of `VisitCode`. -/
def VisitCode_steps {Node : Type} (node : CodeBlock Node) : List (RenderStep Node) :=
  visit_statements_steps node.statements

/-- The steps of `VisitCodeBlock`. -/
def VisitCodeBlock_steps {Node : Type} (node : CodeBlock Node) : List (RenderStep Node) :=
  [.print "\x7b"] ++ VisitCode_steps node ++ [.print "\x7d"]

/-- The steps of `VisitIfStatement`. -/
def VisitIfStatement_steps {Node : Type} (base : VisitorBase Node)
    (node : IfStatement Node) : List (RenderStep Node) :=
  [.print "if"]
    ++ (if base.type node.condition ≠ NodeType.PARENTHETICAL then [.print "("] else [])
    ++ [.child node.condition]
    ++ (if base.type node.condition ≠ NodeType.PARENTHETICAL then [.print ")"] else [])
    ++ [.print " "]
    ++ (match node.true_branch with
        | some true_branch => [.child true_branch, .semicolon true_branch]
        | none => [.print ";"])
    ++ [.print " "]
    ++ (match node.false_branch with
        | some false_branch =>
          [.print "else ", .child false_branch, .semicolon false_branch, .print " "]
        | none => [])

/-- The steps of `VisitForLoop`. -/
def VisitForLoop_steps {Node : Type} (node : ForLoop Node) : List (RenderStep Node) :=
  [.print "for(", .child node.assignment, .print "; ", .child node.condition,
   .print "; ", .child node.increment, .print ") ", .child node.body,
   .semicolon node.body, .print " "]

/-- The steps of `VisitCaseStatement`. -/
def VisitCaseStatement_steps {Node : Type} (node : CaseStatement Node) :
    List (RenderStep Node) :=
  [.print "case ", .child node.value, .print ": "]
    ++ VisitCodeBlock_steps node.statements ++ [.print " "]

/-- The steps of `VisitDefaultStatement`. -/
def VisitDefaultStatement_steps {Node : Type} (node : DefaultStatement Node) :
    List (RenderStep Node) :=
  [.print "default: "] ++ VisitCodeBlock_steps node.statements ++ [.print " "]

/-- The steps of `VisitSwitchStatement`. -/
def VisitSwitchStatement_steps {Node : Type} (base : VisitorBase Node)
    (node : SwitchStatement Node) : List (RenderStep Node) :=
  [.print "switch"]
    ++ (if base.type node.expression ≠ NodeType.PARENTHETICAL then [.print "("] else [])
    ++ [.child node.expression]
    ++ (if base.type node.expression ≠ NodeType.PARENTHETICAL then [.print ")"] else [])
    ++ [.print " "]
    ++ VisitCodeBlock_steps node.body ++ [.print " "]

/-- The steps of `VisitWhileLoop`. -/
def VisitWhileLoop_steps {Node : Type} (base : VisitorBase Node) (node : WhileLoop Node) :
    List (RenderStep Node) :=
  (if node.kind = WhileLoopKind.REPEAT then [.print "int strange_name = "]
    else
      [.print "while"]
        ++ (if base.type node.condition ≠ NodeType.PARENTHETICAL then [.print "("]
            else [])
        ++ (if node.kind = WhileLoopKind.UNTIL then
              (if base.type node.condition = NodeType.PARENTHETICAL then [.print "(!"]
                else [.print "!("])
            else []))
    ++ [.child node.condition]
    ++ (if node.kind ≠ WhileLoopKind.REPEAT then
          (if node.kind = WhileLoopKind.UNTIL then [.print ")"] else [])
            ++ (if base.type node.condition ≠ NodeType.PARENTHETICAL then [.print ")"]
                else [])
        else [.print "; while(strange_name--)"])
    ++ [.print " ", .child node.body, .semicolon node.body]

/-- The steps of `VisitDoLoop`. -/
def VisitDoLoop_steps {Node : Type} (base : VisitorBase Node) (node : DoLoop Node) :
    List (RenderStep Node) :=
  [.print "do"]
    ++ (if base.type node.body ≠ NodeType.BLOCK then [.print "\x7b"] else [])
    ++ [.child node.body, .semicolon node.body]
    ++ (if base.type node.body ≠ NodeType.BLOCK then [.print "\x7d"] else [])
    ++ [.print "while"]
    ++ (if base.type node.condition ≠ NodeType.PARENTHETICAL then [.print "("] else [])
    ++ (if node.is_until then
          (if base.type node.condition = NodeType.PARENTHETICAL then [.print "(!"]
            else [.print "!("])
        else [])
    ++ [.child node.condition]
    ++ (if node.is_until then [.print ")"] else [])
    ++ (if base.type node.condition ≠ NodeType.PARENTHETICAL then [.print ")"] else [])
    ++ [.print ";"]

/-- A dispatch on sample nodes that cannot render a block: an identifier and a
parenthetical are visited as in `sample_visit`, and the visit of a block fails. -/
def failing_visit : SampleNode → Visitor → Bool × Visitor
  | .identifier name, v =>
    let v := if v.print_type then v.print "auto " else v
    (true, v.print name)
  | .parenthetical expression, v =>
    VISIT_AND_CHECK (failing_visit expression (v.print "(")) fun v => (true, v.print ")")
  | .block, v => (false, v)

/-- The sample nodes with the dispatch that fails on blocks. -/
def failing_base : VisitorBase SampleNode :=
  { type := SampleNode.type, Visit := failing_visit, PrintSemiColon := sample_semicolon }

/-! ## The expression parser (parser/parser.h) -/

/-- Modelled from the spec: a token of the lexer, its type and its text. -/
structure Token where
  type : TokenType
  content : String
deriving DecidableEq

/-- Modelled from the spec: the fixed table of operators keyed by token type:
`GetPrecedence` gives the precedence of a binary operator, `none` for a token that is not
one, and `right_associative` tells the operators that nest to the right. -/
structure OperatorTable where
  GetPrecedence : TokenType → Option Nat
  right_associative : TokenType → Bool

/-- Modelled from the spec: the trees that the expression parser builds from identifiers
and binary operators. -/
inductive ParsedNode where
  | identifier (name : String)
  | binary (operation : Operation) (left right : ParsedNode)
deriving DecidableEq

/-- Modelled from the spec: `TryParseOperand` on identifiers: an identifier token is an
operand and is consumed; anything else is no operand. -/
def TryParseOperand : List Token → Option (ParsedNode × List Token)
  | [] => none
  | token :: rest =>
    if token.type = TokenType.TT_IDENTIFIER then some (ParsedNode.identifier token.content, rest)
    else none

mutual
/-- Modelled from the spec: `TryParseExpression(minPrecedence)` on binary operators: it
parses an operand and then inspects the next token again and again. The first argument
bounds the number of calls. -/
def TryParseExpression (table : OperatorTable) :
    Nat → Nat → List Token → Option (ParsedNode × List Token)
  | 0, _, _ => none
  | fuel + 1, precedence, tokens =>
    match TryParseOperand tokens with
    | none => none
    | some (operand, rest) => parse_operators table fuel precedence operand rest
/-- Modelled from the spec: the loop of `TryParseExpression` on the accumulated
expression `operand`: a binary operator whose precedence is at least `precedence` takes
as its right operand the expression parsed with the precedence of the operator, raised by
one unless the operator is right-associative, and the loop goes on with the node built;
any other token stops the loop, which returns the accumulated expression. -/
def parse_operators (table : OperatorTable) :
    Nat → Nat → ParsedNode → List Token → Option (ParsedNode × List Token)
  | 0, _, _, _ => none
  | _ + 1, _, operand, [] => some (operand, [])
  | fuel + 1, precedence, operand, token :: rest =>
    match table.GetPrecedence token.type with
    | none => some (operand, token :: rest)
    | some p =>
      if p ≥ precedence then
        match TryParseExpression table fuel
            (if table.right_associative token.type then p else p + 1) rest with
        | none => none
        | some (right, rest) =>
          parse_operators table fuel precedence
            (ParsedNode.binary ⟨token.type, token.content⟩ operand right) rest
      else some (operand, token :: rest)
end

/-- A table of operators for examples: `=` has the precedence 1 and nests to the right,
`+` has the precedence 4 and `*` the precedence 5. -/
def example_operators : OperatorTable :=
  { GetPrecedence := fun type =>
      if type = TokenType.TT_EQUALS then some 1
      else if type = TokenType.TT_PLUS then some 4
      else if type = TokenType.TT_STAR then some 5
      else none
    right_associative := fun type => decide (type = TokenType.TT_EQUALS) }

/-! ## Blocks and their hook, expression trees -/

/-- The text that `ENIGMA_events` writes for one event kind before the hook: the
instead-code, or the instance loop under its guard, or the instance loop alone. -/
def block_body (event : EventDescriptor) : String :=
  if event.HasInsteadCode then "    " ++ event.InsteadCode ++ "\n\n"
  else if event.HasSuperCheck && !event.IsInstance then
    "    if (" ++ (if event.HasSuperCheckExpression then event.SuperCheckExpression
        else "myevent_" ++ event.BaseFunctionName ++ "_supercheck()") ++ ")\n"
      ++ instance_loop "      " event.BaseFunctionName (event.HasSubCheck && !event.IsInstance)
  else
    instance_loop "    " event.BaseFunctionName (event.HasSubCheck && !event.IsInstance)

/-- A closed tree of identifiers and binary expressions, without parentheticals. -/
inductive ExpressionNode where
  | identifier (name : String)
  | binary (left : ExpressionNode) (operation : Operation) (right : ExpressionNode)
deriving DecidableEq

/-- The discriminant of an expression node. -/
def ExpressionNode.type : ExpressionNode → NodeType
  | .identifier _ => NodeType.IDENTIFIER
  | .binary _ _ _ => NodeType.BINARY_EXPRESSION

/-- The dispatch on expression nodes: an identifier goes to `VisitIdentifierAccess` and a
binary expression to `VisitBinaryExpression`, whose body is written out here. -/
def expression_visit : ExpressionNode → Visitor → Bool × Visitor
  | .identifier name, v => VisitIdentifierAccess ⟨name⟩ v
  | .binary left operation right, v =>
    VISIT_AND_CHECK (expression_visit left v) fun v =>
    let v := v.print (" " ++ operation.token ++ " ")
    VISIT_AND_CHECK (expression_visit right v) fun v =>
    let v := if operation.type = TokenType.TT_BEGINBRACKET then v.print "]" else v
    (true, v)

/-- The expression nodes with their dispatch. -/
def expression_base : VisitorBase ExpressionNode :=
  { type := ExpressionNode.type, Visit := expression_visit,
    PrintSemiColon := fun _ v => v.print ";" }

/-- The text of an expression tree read without parentheses: the name of an identifier,
and for a binary expression the text of the left operand, the operator between blanks
and the text of the right operand, closed by `]` for a subscript. -/
def expression_text : ExpressionNode → String
  | .identifier name => name
  | .binary left operation right =>
    expression_text left ++ (" " ++ operation.token ++ " ") ++ expression_text right
      ++ (if operation.type = TokenType.TT_BEGINBRACKET then "]" else "")

/-! ## Splitting a JSON text (Serialization/JSON_Serialization/JSON_parsing_utilities.h) -/

/-- The local variables of `json_split`: `parts`, `start`, `end`, `within_quotes`,
`within_array` and `num_open_braces`. -/
structure SplitState where
  parts : List String
  start : Nat
  end_pos : Nat
  within_quotes : Bool
  within_array : Bool
  num_open_braces : Nat
deriving DecidableEq

/-- The body of the loop of `json_split`, for `end < len`; `num_open_braces` is a
`size_t` and wraps at 64 bits. -/
def json_split_body (s : List Char) (delimiter : Char) (st : SplitState) : SplitState :=
  let st :=
    if s[st.end_pos]? = some '"' ∧ (st.end_pos = 0 ∨ s[st.end_pos - 1]? ≠ some '\\') then
      { st with within_quotes := !st.within_quotes }
    else if s[st.end_pos]? = some '[' ∧ st.within_quotes = false then
      { st with within_array := true }
    else if s[st.end_pos]? = some ']' ∧ st.within_quotes = false then
      { st with within_array := false }
    else if s[st.end_pos]? = some '{' ∧ st.within_quotes = false then
      { st with num_open_braces := (st.num_open_braces + 1) % 18446744073709551616 }
    else if s[st.end_pos]? = some '}' ∧ st.within_quotes = false then
      { st with num_open_braces :=
          (st.num_open_braces + 18446744073709551615) % 18446744073709551616 }
    else if s[st.end_pos]? = some delimiter ∧ st.within_quotes = false ∧
        st.within_array = false ∧ st.num_open_braces = 0 then
      let st :=
        if st.end_pos ≠ st.start then
          { st with parts := st.parts ++
              [String.mk (string_substr s st.start (st.end_pos - st.start))] }
        else st
      { st with start := st.end_pos + 1 }
    else st
  { st with end_pos := st.end_pos + 1 }

/-- The loop `while (end < len)` of `json_split`; the first argument bounds the number of
iterations. -/
def json_split_loop (s : List Char) (delimiter : Char) : Nat → SplitState → SplitState
  | 0, st => st
  | fuel + 1, st =>
    if st.end_pos < s.length then
      json_split_loop s delimiter fuel (json_split_body s delimiter st)
    else st

/-- The function `json_split`; the loop advances `end` by one in every iteration, so
`len` iterations bring it to `len`. -/
def json_split (s : String) (delimiter : Char) : List String :=
  let len := s.data.length
  let st := json_split_loop s.data delimiter len
    { parts := [], start := 0, end_pos := 0, within_quotes := false,
      within_array := false, num_open_braces := 0 }
  if st.start ≠ len then st.parts ++ [String.mk (s.data.drop st.start)] else st.parts

/-- The ordinary split of a text on a delimiter with the empty fields dropped: the
non-empty maximal substrings without the delimiter, in order. -/
def split_dropping_empty (s : String) (delimiter : Char) : List String :=
  ((s.data.splitOn delimiter).filter (fun field => field ≠ [])).map String.mk

/-! ## Binary serialization (Universal_System/Serialization) -/

/-- The loop of `internal_serialize_any_into`: `n` iterations are left, `i` is the index
written next, a `size_t` that wraps at 64 bits when it is decremented, and `iter` is the
buffer from the pointer `iter` on, one number for each byte. -/
def serialize_any_loop : Nat → Nat → Nat → List Nat → List Nat
  | 0, _, _, iter => iter
  | n + 1, i, as_unsigned, iter =>
    serialize_any_loop n ((i + 18446744073709551615) % 18446744073709551616)
      (as_unsigned >>> 8) (iter.set i (as_unsigned &&& 0xff))

/-- The function `internal_serialize_any_into<Base, T>` for an unsigned `Base` of
`sizeof_Base` bytes; `value` is the number that the bits of the value form, which
`bit_cast<Base>` keeps within the width of `Base`, and `as_unsigned` is a `size_t`. -/
def internal_serialize_any_into (sizeof_Base : Nat) (iter : List Nat) (value : Nat) :
    List Nat :=
  let i := sizeof_Base - 1
  let as_unsigned := value % 2 ^ (8 * sizeof_Base) % 18446744073709551616
  serialize_any_loop sizeof_Base i as_unsigned iter

/-- The function `serialize_any<Base, T>`: an array of `sizeof(T)` zero bytes that
`internal_serialize_any_into` writes to. -/
def serialize_any (sizeof_Base sizeof_T : Nat) (value : Nat) : List Nat :=
  internal_serialize_any_into sizeof_Base (List.replicate sizeof_T 0) value

/-- The loop of `internal_deserialize_any`: `n` iterations are left, `i` is the index
read next, and `result` is kept within the width of `Base`. -/
def deserialize_any_loop (sizeof_Base : Nat) (iter : List Nat) : Nat → Nat → Nat → Nat
  | 0, _, result => result
  | n + 1, i, result =>
    deserialize_any_loop sizeof_Base iter n (i + 1)
      (((result <<< 8) ||| iter.getD i 0) % 2 ^ (8 * sizeof_Base))

/-- The function `internal_deserialize_any<Base, T>` for an unsigned `Base` of
`sizeof_Base` bytes and a `T` of `sizeof_T` bytes; the result is the number that the bits
of the value form. -/
def internal_deserialize_any (sizeof_Base sizeof_T : Nat) (iter : List Nat) : Nat :=
  deserialize_any_loop sizeof_Base iter sizeof_T 0 0

/-- The serialization of a `std::size_t` that the string and container functions call,
`internal_serialize_into<std::size_t>` and `internal_deserialize_numeric<std::size_t>`;
numeric_serialization_functions.h is not among the sources, so the two functions are
parameters: `serialize_into iter n` is the buffer from `iter` on after the write, and
`deserialize iter` is the number read at `iter`. -/
structure SizeSerialization where
  serialize_into : List Nat → Nat → List Nat
  deserialize : List Nat → Nat

/-- The value of `sizeof(std::size_t)`. -/
def sizeof_size_t : Nat := 8

/-- A call of `std::transform` or `std::copy` that writes `bytes` to the buffer from the
offset `offset` on. -/
def write_bytes (buffer : List Nat) (offset : Nat) (bytes : List Nat) : List Nat :=
  buffer.take offset ++ bytes ++ buffer.drop (offset + bytes.length)

/-- The function `internal_serialize_fn(std::string &&)`; a `char` becomes the byte of
its code. -/
def string_internal_serialize_fn (size : SizeSerialization) (value : String) : List Nat :=
  let result := List.replicate (sizeof_size_t + value.length) 0
  let result := size.serialize_into result value.length
  write_bytes result sizeof_size_t (value.data.map (fun c => c.toNat % 256))

/-- The function `internal_deserialize_fn<std::string>`: the string of the `len` bytes
that follow the length. -/
def string_internal_deserialize_fn (size : SizeSerialization) (iter : List Nat) : String :=
  let len := size.deserialize iter
  let offset := sizeof_size_t
  String.mk (((iter.drop offset).take len).map Char.ofNat)

/-- The function `internal_resize_buffer_for_fn` for a string: the size of the buffer
after `resize`. -/
def string_internal_resize_buffer_for_fn (buffer_size : Nat) (value : String) : Nat :=
  buffer_size + value.length + sizeof_size_t

/-- The function `enigma_internal_deserialize_fn` for a string: the value read at
`iter + len` and the new value of `len`. -/
def string_enigma_internal_deserialize_fn (size : SizeSerialization) (iter : List Nat)
    (len : Nat) : String × Nat :=
  let value := string_internal_deserialize_fn size (iter.drop len)
  (value, len + (value.length + sizeof_size_t))

/-- The serialization of a `std::size_t` by the functions of serialization.h with
`Base = T = std::size_t`. -/
def size_as_any : SizeSerialization :=
  { serialize_into := fun iter n => internal_serialize_any_into 8 iter n
    deserialize := fun iter => internal_deserialize_any 8 8 iter }

/-- The function `internal_resize_buffer_for_fn` for a vector or a set: the size of the
buffer after `resize`; `enigma_internal_sizeof` is the size function of the elements. -/
def vector_internal_resize_buffer_for_fn {α : Type} (enigma_internal_sizeof : α → Nat)
    (buffer_size : Nat) (value : List α) : Nat :=
  buffer_size
    + value.length * (if value.length ≠ 0 then
        (match value with
          | first :: _ => enigma_internal_sizeof first
          | [] => 0)
      else 0)
    + sizeof_size_t

/-- A write of `data` to the buffer `bytes` at the offset `iter`: `none` when the write
reaches past the end of the buffer, which the language leaves undefined. -/
def checked_write (bytes : List Nat) (iter : Nat) (data : List Nat) : Option (List Nat) :=
  if iter + data.length ≤ bytes.length then some (write_bytes bytes iter data) else none

/-- The call `internal_serialize_into<std::size_t>(iter, n)` on the buffer `bytes`, with
`iter` as an offset: it writes the `sizeof(std::size_t)` bytes from `iter` on, and is
`none` when they reach past the end of the buffer. -/
def size_internal_serialize_into (size : SizeSerialization) (bytes : List Nat) (iter : Nat)
    (n : Nat) : Option (List Nat) :=
  if iter + sizeof_size_t ≤ bytes.length then
    some (bytes.take iter ++ size.serialize_into (bytes.drop iter) n)
  else none

/-- The function `internal_serialize_into_fn` for a string, on the buffer `bytes` with
`iter` as an offset: the size at `iter`, then `std::transform` writes the characters
from `iter + sizeof(std::size_t)` on. -/
def string_internal_serialize_into_fn (size : SizeSerialization) (bytes : List Nat)
    (iter : Nat) (value : String) : Option (List Nat) :=
  match size_internal_serialize_into size bytes iter value.length with
  | none => none
  | some bytes =>
    checked_write bytes (iter + sizeof_size_t) (value.data.map (fun c => c.toNat % 256))

/-- The loop of `internal_serialize_into_fn` for a vector or a set: each element is
written at `iter` by `internal_serialize_into`, a parameter, and `iter` moves on by
`enigma_internal_sizeof(element)`. -/
def vector_serialize_elements {α : Type}
    (internal_serialize_into : List Nat → Nat → α → Option (List Nat))
    (enigma_internal_sizeof : α → Nat) : List α → List Nat → Nat → Option (List Nat)
  | [], bytes, _ => some bytes
  | element :: rest, bytes, iter =>
    match internal_serialize_into bytes iter element with
    | none => none
    | some bytes =>
      vector_serialize_elements internal_serialize_into enigma_internal_sizeof rest bytes
        (iter + enigma_internal_sizeof element)

/-- The function `internal_serialize_into_fn` for a vector or a set, on the buffer
`bytes` with `iter` as an offset: the size of the vector, then the elements; `none` when
a write reaches past the end of the buffer. -/
def vector_internal_serialize_into_fn {α : Type} (size : SizeSerialization)
    (internal_serialize_into : List Nat → Nat → α → Option (List Nat))
    (enigma_internal_sizeof : α → Nat) (bytes : List Nat) (iter : Nat) (value : List α) :
    Option (List Nat) :=
  match size_internal_serialize_into size bytes iter value.length with
  | none => none
  | some bytes =>
    vector_serialize_elements internal_serialize_into enigma_internal_sizeof value bytes
      (iter + sizeof_size_t)

/-- The branch of `enigma_internal_sizeof` for a type with a method `size()`, at a
string: `value.size()` times the size of a `char`. -/
def string_enigma_internal_sizeof (value : String) : Nat :=
  value.length * 1

/-- The function `enigma_serialize` for a vector: `internal_resize_buffer_for` grows
`bytes` with zero bytes and `internal_serialize_into` writes the value from
`bytes.data() + len` on; the result is the buffer after the writes, `none` when a write
reaches past its end. -/
def vector_enigma_serialize {α : Type} (size : SizeSerialization)
    (internal_serialize_into : List Nat → Nat → α → Option (List Nat))
    (enigma_internal_sizeof : α → Nat) (value : List α) (bytes : List Nat) :
    Option (List Nat) :=
  let len := bytes.length
  let bytes := bytes ++ List.replicate
    (vector_internal_resize_buffer_for_fn enigma_internal_sizeof bytes.length value
      - bytes.length) 0
  vector_internal_serialize_into_fn size internal_serialize_into enigma_internal_sizeof
    bytes len value

/-! ## Backgrounds as JSON (Resources/backgrounds_internal.cpp) -/

/-- The loop of `JSON_serialize_into` for a vector (Types_Impl_JSON/containers.h): each
element is serialized, and every one but the last is followed by a comma. -/
def JSON_serialize_elements {α : Type} (JSON_serialize_into : α → String) :
    List α → String → String
  | [], json => json
  | element :: rest, json =>
    let json := json ++ JSON_serialize_into element
    let json := if !rest.isEmpty then json ++ "," else json
    JSON_serialize_elements JSON_serialize_into rest json

/-- The function `JSON_serialize_into` for a vector (Types_Impl_JSON/containers.h), with
the serialization of an element as a parameter. -/
def vector_JSON_serialize_into {α : Type} (JSON_serialize_into : α → String)
    (value : List α) : String :=
  let json := "["
  let json := JSON_serialize_elements JSON_serialize_into value json
  json ++ "]"

/-- The functions `JSON_serialization::internal_serialize_into_fn` that
`Background::json_serialize` calls for its fields, by the type of the field; their
headers are not among the sources, so they are parameters. The vector of strings is
serialized by `vector_JSON_serialize_into` over `string_`. -/
structure JSON_serialization (Scalar : Type) where
  unsigned_ : Nat → String
  int_ : Int → String
  bool_ : Bool → String
  scalar_ : Scalar → String
  string_ : String → String

/-- The class `Background`, with what `graphics_copy_texture_pixels` gives for its
texture: `texture_width`, `texture_height` and the pixel bytes `texture`; `Scalar` is
`gs_scalar`. -/
structure Background (Scalar : Type) where
  width : Nat
  height : Nat
  texture_width : Nat
  texture_height : Nat
  texture : List Nat
  textureBounds_x : Scalar
  textureBounds_y : Scalar
  textureBounds_h : Scalar
  textureBounds_w : Scalar
  isTileset : Bool
  tileWidth : Nat
  tileHeight : Nat
  hOffset : Int
  vOffset : Int
  hSep : Int
  vSep : Int

/-- The vector `hexStream` of `Background::json_serialize`: for each of the
`texture_width * texture_height * 4` bytes, a product of `unsigned` numbers, the text
that `std::hex` writes for it. -/
def Background.hexStream {Scalar : Type} (b : Background Scalar) : List String :=
  (List.range (b.texture_width * b.texture_height * 4 % 4294967296)).map
    (fun i => String.mk (Nat.toDigits 16 (b.texture.getD i 0)))

/-- The function `Background::json_serialize`. -/
def Background.json_serialize {Scalar : Type} (ser : JSON_serialization Scalar)
    (b : Background Scalar) : String :=
  let json := "\x7b\"width\":"
  let json := json ++ ser.unsigned_ b.width
  let json := json ++ ",\"height\":"
  let json := json ++ ser.unsigned_ b.height
  let json := json ++ ",\"texture_width\":"
  let json := json ++ ser.unsigned_ b.texture_width
  let json := json ++ ",\"texture_height\":"
  let json := json ++ ser.unsigned_ b.texture_height
  let json := json ++ ",\"texture\":"
  let hexStream := b.hexStream
  let json := json ++ vector_JSON_serialize_into ser.string_ hexStream
  let json := json ++ ",\"textureBounds.x\":"
  let json := json ++ ser.scalar_ b.textureBounds_x
  let json := json ++ ",\"textureBounds.y\":"
  let json := json ++ ser.scalar_ b.textureBounds_y
  let json := json ++ ",\"textureBounds.h\":"
  let json := json ++ ser.scalar_ b.textureBounds_h
  let json := json ++ ",\"textureBounds.w\":"
  let json := json ++ ser.scalar_ b.textureBounds_w
  let json := json ++ ",\"isTileset\":"
  let json := json ++ ser.bool_ b.isTileset
  let json := json ++ ",\"tileWidth\":"
  let json := json ++ ser.unsigned_ b.tileWidth
  let json := json ++ ",\"tileHeight\":"
  let json := json ++ ser.unsigned_ b.tileHeight
  let json := json ++ ",\"hOffset\":"
  let json := json ++ ser.int_ b.hOffset
  let json := json ++ ",\"vOffset\":"
  let json := json ++ ser.int_ b.vOffset
  let json := json ++ ",\"hSep\":"
  let json := json ++ ser.int_ b.hSep
  let json := json ++ ",\"vSep\":"
  let json := json ++ ser.int_ b.vSep
  let json := json ++ "\x7d"
  json

/-- The lambda `find_value` of `Background::json_deserialize_self`. -/
def find_value (json field : String) : String :=
  match string_find (("\"" ++ field ++ "\":").data) json.data with
  | some startPos =>
    let startPos := startPos + (field.length + 3)
    match string_find_first_of [',', '}'] json.data startPos with
    | some endPos => String.mk (string_substr json.data startPos (endPos - startPos))
    | none => ""
  | none => ""

/-- A serialization for examples: numbers in decimal, booleans as `true` and `false`, a
string between double quotes. -/
def example_serialization : JSON_serialization Int :=
  { unsigned_ := fun n => toString n
    int_ := fun n => toString n
    bool_ := fun flag => if flag then "true" else "false"
    scalar_ := fun x => toString x
    string_ := fun s => "\"" ++ s ++ "\"" }

/-- A background whose texture is one pixel, the bytes 255, 0, 128 and 255. -/
def example_background : Background Int :=
  { width := 1, height := 1, texture_width := 1, texture_height := 1,
    texture := [255, 0, 128, 255],
    textureBounds_x := 0, textureBounds_y := 0, textureBounds_h := 1, textureBounds_w := 1,
    isTileset := false, tileWidth := 0, tileHeight := 0,
    hOffset := 0, vOffset := 0, hSep := 0, vSep := 0 }

/-! ## The emitted text as a sequence of blocks -/

theorem write_event_block_append (event : EventDescriptor) (wto : String) :
    write_event_block event wto = wto ++ write_event_block event "" := by
  obtain ⟨id, bn, fn, hn, inst, sub, sup, supe, supf, dc, ic, uel, dcode, icode, sce, scf⟩ :=
    event
  cases inst <;> cases sub <;> cases sup <;> cases supe <;> cases ic <;>
    simp [write_event_block, base_indent, Event.ofDescriptor, String.append_assoc]

theorem string_join_cons (a : String) (l : List String) :
    String.join (a :: l) = a ++ String.join l := by
  apply String.ext
  simp [String.data_append]

theorem write_event_sequence_eq (used_events : UsedEventIndex)
    (catalog : List EventDescriptor) (wto : String) :
    write_event_sequence used_events catalog wto =
      wto ++ String.join (((catalog.filter (is_emitted used_events)).map
        (fun event => write_event_block event ""))) := by
  induction catalog generalizing wto with
  | nil =>
    apply String.ext
    simp [write_event_sequence, String.data_append]
  | cons event rest ih =>
    unfold write_event_sequence
    by_cases h1 : (map_find event.BaseFunctionName used_events.base_methods).isNone = true
    · have h2 : is_emitted used_events event = false := by
        unfold is_emitted
        cases hf : map_find event.BaseFunctionName used_events.base_methods with
        | none => simp
        | some v => simp [hf] at h1
      rw [if_pos h1, ih, List.filter_cons_of_neg (by simp [h2])]
    · rw [if_neg h1]
      have h1s : (map_find event.BaseFunctionName used_events.base_methods).isSome = true := by
        cases hf : map_find event.BaseFunctionName used_events.base_methods with
        | none => simp [hf] at h1
        | some v => simp
      cases hu : event.UsesEventLoop with
      | false =>
        have h2 : is_emitted used_events event = false := by simp [is_emitted, hu]
        simp only [Bool.not_false, if_true]
        rw [ih, List.filter_cons_of_neg (by simp [h2])]
      | true =>
        have h2 : is_emitted used_events event = true := by simp [is_emitted, hu, h1s]
        simp only [Bool.not_true, Bool.false_eq_true, if_false]
        rw [ih, List.filter_cons_of_pos h2, List.map_cons, string_join_cons,
          write_event_block_append event wto, String.append_assoc]

/-- C1: the blocks emitted inside `ENIGMA_events` are, in catalog order, exactly the blocks
of the catalog descriptors whose base function name is a key of the used index and that
are loop-driven; for the catalog `[Create, Step, Draw, Destroy]` and the used set
`{Step, Destroy}` these are the block of `Step`, then the block of `Destroy`. -/
theorem emission_order_is_filtered_catalog_order :
    (∀ (used_events : UsedEventIndex) (catalog : List EventDescriptor) (wto : String),
      write_event_sequence used_events catalog wto =
        wto ++ String.join ((catalog.filter (fun event =>
          (map_find event.BaseFunctionName used_events.base_methods).isSome
            && event.UsesEventLoop)).map (fun event => write_event_block event "")))
    ∧ (∀ wto : String, write_event_sequence example_used example_catalog wto =
        wto ++ String.join [write_event_block (plain_event 1 "step") "",
          write_event_block (plain_event 3 "destroy") ""]) := by
  refine ⟨fun used_events catalog wto => write_event_sequence_eq used_events catalog wto, ?_⟩
  intro wto
  rw [write_event_sequence_eq]
  have h : (example_catalog.filter (is_emitted example_used)) =
      [plain_event 1 "step", plain_event 3 "destroy"] := by decide
  rw [h]
  rfl

/-! ## The shape of one block -/

theorem write_event_block_instead (event : EventDescriptor)
    (h : event.HasInsteadCode = true) :
    write_event_block event "" =
      "    " ++ event.InsteadCode ++ "\n\n" ++ update_globals_hook := by
  simp [write_event_block, base_indent, update_globals_hook, h, String.append_assoc]

theorem write_event_block_guarded (event : EventDescriptor)
    (h : event.HasInsteadCode = false)
    (hs : (event.HasSuperCheck && !event.IsInstance) = true) :
    write_event_block event "" =
      "    if (" ++ (if event.HasSuperCheckExpression then event.SuperCheckExpression
          else "myevent_" ++ event.BaseFunctionName ++ "_supercheck()") ++ ")\n"
        ++ instance_loop "      " event.BaseFunctionName
            (event.HasSubCheck && !event.IsInstance)
        ++ update_globals_hook := by
  obtain ⟨id, bn, fn, hn, inst, sub, sup, supe, supf, dc, ic, uel, dcode, icode, sce, scf⟩ :=
    event
  simp only at h hs
  subst h
  cases inst <;> cases sup <;> simp at hs
  cases sub <;> cases supe <;>
    (simp [write_event_block, base_indent, update_globals_hook, instance_loop,
       Event.ofDescriptor, String.append_assoc]
     try rfl)

theorem write_event_block_ungated (event : EventDescriptor)
    (h : event.HasInsteadCode = false)
    (hs : (event.HasSuperCheck && !event.IsInstance) = false) :
    write_event_block event "" =
      instance_loop "    " event.BaseFunctionName (event.HasSubCheck && !event.IsInstance)
        ++ update_globals_hook := by
  obtain ⟨id, bn, fn, hn, inst, sub, sup, supe, supf, dc, ic, uel, dcode, icode, sce, scf⟩ :=
    event
  simp only at h hs
  subst h
  cases inst <;> cases sup <;> simp at hs <;> cases sub <;>
    (simp [write_event_block, base_indent, update_globals_hook, instance_loop,
       Event.ofDescriptor, String.append_assoc]
     try rfl)

theorem block_shape_of_write_event_block (event : EventDescriptor) :
    block_shape event (write_event_block event "") := by
  unfold block_shape
  cases h : event.HasInsteadCode with
  | true => exact Or.inl ⟨rfl, write_event_block_instead event h⟩
  | false =>
    cases hs : (event.HasSuperCheck && !event.IsInstance) with
    | true =>
      exact Or.inr (Or.inl ⟨rfl, rfl, _, write_event_block_guarded event h hs⟩)
    | false =>
      exact Or.inr (Or.inr ⟨rfl, rfl, write_event_block_ungated event h hs⟩)

theorem write_event_sequence_append (used_events : UsedEventIndex)
    (before after : List EventDescriptor) (wto : String) :
    write_event_sequence used_events (before ++ after) wto =
      write_event_sequence used_events after
        (write_event_sequence used_events before wto) := by
  induction before generalizing wto with
  | nil => rfl
  | cons event rest ih =>
    simp only [List.cons_append, write_event_sequence]
    split
    · exact ih wto
    · split
      · exact ih wto
      · exact ih _

theorem write_event_sequence_emitted (used_events : UsedEventIndex)
    (event : EventDescriptor) (after : List EventDescriptor) (wto : String)
    (hused : (map_find event.BaseFunctionName used_events.base_methods).isSome = true)
    (hloop : event.UsesEventLoop = true) :
    write_event_sequence used_events (event :: after) wto =
      write_event_sequence used_events after (wto ++ write_event_block event "") := by
  have h1 : ¬ (map_find event.BaseFunctionName used_events.base_methods).isNone = true := by
    cases hf : map_find event.BaseFunctionName used_events.base_methods with
    | none => simp [hf] at hused
    | some v => simp
  rw [write_event_sequence, if_neg h1, hloop, ← write_event_block_append]
  simp

theorem write_after_events_eq (game : GameData) (wto : String) :
    write_after_events game wto =
      wto ++ "    after_events:\n" ++ post_processing game.settings := by
  obtain ⟨objects, timelines, ⟨general, windowing, ⟨esc, f4, f1, f9, f5⟩⟩⟩ := game
  cases esc <;> cases f4 <;> cases f1 <;> cases f9 <;> cases f5 <;>
    (simp [write_after_events, post_processing, String.append_assoc]
     try rfl)

/-- C2: every block of `ENIGMA_events` has exactly one of three shapes, selected by tests
that exclude each other: the literal instead-code and nothing else when `HasInsteadCode()`
holds, whatever the other flags; otherwise the instance loop under an outer `if (...)`
guard; otherwise the same loop with no outer guard. -/
theorem three_exclusive_block_shapes (used_events : UsedEventIndex)
    (catalog : List EventDescriptor) (wto : String) :
    ∃ blocks : List String,
      write_event_sequence used_events catalog wto = wto ++ String.join blocks
      ∧ List.Forall₂ block_shape
          (catalog.filter (fun event =>
            (map_find event.BaseFunctionName used_events.base_methods).isSome
              && event.UsesEventLoop))
          blocks := by
  refine ⟨(catalog.filter (is_emitted used_events)).map
    (fun event => write_event_block event ""), write_event_sequence_eq _ _ _, ?_⟩
  change List.Forall₂ block_shape (catalog.filter (is_emitted used_events)) _
  rw [List.forall₂_map_right_iff, List.forall₂_same]
  intro event _
  exact block_shape_of_write_event_block event

/-- C3, as stated, fails: a used, loop-driven descriptor with a supercheck expression and
instead-code gets the instead-code as its block, which does not begin with the guard
`if (visible)`. -/
theorem literal_guard_absent_with_instead_code :
    guarded_instead_event.HasSuperCheckExpression = true
    ∧ guarded_instead_event.UsesEventLoop = true
    ∧ (map_find guarded_instead_event.BaseFunctionName
        (UsedEventIndex.insert {} guarded_instead_event).base_methods).isSome = true
    ∧ write_event_sequence (UsedEventIndex.insert {} guarded_instead_event)
        [guarded_instead_event] ""
        = "    draw_all();\n\n    \n    enigma::update_globals();\n    \n"
    ∧ ¬ ∃ rest : String,
        write_event_sequence (UsedEventIndex.insert {} guarded_instead_event)
          [guarded_instead_event] ""
          = "    if (" ++ guarded_instead_event.SuperCheckExpression ++ ")\n" ++ rest := by
  refine ⟨rfl, rfl, by decide, by decide, ?_⟩
  rintro ⟨rest, h⟩
  have h0 : write_event_sequence (UsedEventIndex.insert {} guarded_instead_event)
      [guarded_instead_event] ""
      = "    draw_all();\n\n    \n    enigma::update_globals();\n    \n" := by decide
  rw [h0] at h
  have h1 := congrArg String.data h
  simp [guarded_instead_event, String.data_append] at h1

/-- C3, amended: a used, loop-driven descriptor with a supercheck expression that has no
instead-code, has a supercheck and is not per-instance gets, at its place in the catalog
order, a block that begins with `if (<SuperCheckExpression>)` and nests the instance loop
under that guard. -/
theorem literal_guard_of_supercheck_expression (used_events : UsedEventIndex)
    (before after : List EventDescriptor) (event : EventDescriptor) (wto : String)
    (hused : (map_find event.BaseFunctionName used_events.base_methods).isSome = true)
    (hloop : event.UsesEventLoop = true)
    (hexpr : event.HasSuperCheckExpression = true)
    (hinstead : event.HasInsteadCode = false)
    (hsuper : event.HasSuperCheck = true)
    (hinst : event.IsInstance = false) :
    write_event_sequence used_events (before ++ event :: after) wto =
      write_event_sequence used_events after
        (write_event_sequence used_events before wto
          ++ ("    if (" ++ event.SuperCheckExpression ++ ")\n"
            ++ instance_loop "      " event.BaseFunctionName event.HasSubCheck
            ++ update_globals_hook)) := by
  rw [write_event_sequence_append, write_event_sequence_emitted _ _ _ _ hused hloop,
    write_event_block_guarded event hinstead (by simp [hsuper, hinst])]
  simp [hexpr, hinst]

/-- The amended C3 at the descriptor `step` with the supercheck expression
`room_speed > 0`, alone in its catalog. -/
theorem literal_guard_of_supercheck_expression_witness :
    (map_find expression_guarded_event.BaseFunctionName
        (UsedEventIndex.insert {} expression_guarded_event).base_methods).isSome = true
    ∧ expression_guarded_event.UsesEventLoop = true
    ∧ expression_guarded_event.HasSuperCheckExpression = true
    ∧ expression_guarded_event.HasInsteadCode = false
    ∧ expression_guarded_event.HasSuperCheck = true
    ∧ expression_guarded_event.IsInstance = false
    ∧ write_event_sequence (UsedEventIndex.insert {} expression_guarded_event)
        ([] ++ expression_guarded_event :: []) "" =
      "    if (room_speed > 0)\n      for (instance_event_iterator = event_step->next; instance_event_iterator != NULL; instance_event_iterator = instance_event_iterator->next) \x7b\n          ((enigma::event_parent*)(instance_event_iterator->inst))->myevent_step();\n        if (enigma::room_switching_id != -1) goto after_events;\n      \x7d\n    \n    enigma::update_globals();\n    \n" :=
  ⟨by decide, rfl, rfl, rfl, rfl, rfl,
    (literal_guard_of_supercheck_expression
      (UsedEventIndex.insert {} expression_guarded_event) [] [] expression_guarded_event ""
      (by decide) rfl rfl rfl rfl rfl).trans (by rfl)⟩

/-- C4 on the code: for a used, loop-driven descriptor `step` whose supercheck is a
function, the driver artifact defines `supercheck_step()` and guards the loop with a call
to `myevent_step_supercheck()`, which it does not define. -/
theorem supercheck_guard_calls_undefined_function :
    (compile_writeDefraggedEvents supercheck_context supercheck_game
        [⟨0, [⟨3, 0⟩]⟩]).events_h =
      "namespace enigma\n\x7b\n  event_iter *event_step;\n  int event_system_initialize()\n  \x7b\n    events = new event_iter[1]; // Allocated here; not really meant to change.\n    objects = new objectid_base[1]; // Allocated here; not really meant to change.\n    event_step = events + 0;  event_step->name = \"step\";\n    return 0;\n  \x7d\n  int game_settings_initialize()\n  \x7b\n    return 0;\n  \x7d\n  variant ev_perf(int type, int numb)\n  \x7b\n    return ((enigma::event_parent*)(instance_event_iterator->inst))->myevents_perf(type, numb);\n  \x7d\n  static inline bool supercheck_step() \x7b return instance_number > 0; \x7d\n\n  int ENIGMA_events()\n  \x7b\n    if (myevent_step_supercheck())\n      for (instance_event_iterator = event_step->next; instance_event_iterator != NULL; instance_event_iterator = instance_event_iterator->next) \x7b\n          ((enigma::event_parent*)(instance_event_iterator->inst))->myevent_step();\n        if (enigma::room_switching_id != -1) goto after_events;\n      \x7d\n    \n    enigma::update_globals();\n    \n    after_events:\n    enigma::dispose_destroyed_instances();\n    enigma::rooms_switch();\n    enigma::set_room_speed(room_speed);\n    \n    return 0;\n  \x7d // event function\n\x7d // namespace enigma\n" := by
  rfl

theorem write_ENIGMA_events_eq (ctx : Context) (game : GameData)
    (used_events : UsedEventIndex) (wto : String) :
    write_ENIGMA_events ctx game used_events wto =
      wto ++ "  int ENIGMA_events()\n  \x7b\n"
        ++ String.join ((ctx.event_declarations.filter (is_emitted used_events)).map
            (fun event => write_event_block event ""))
        ++ "    after_events:\n"
        ++ post_processing game.settings := by
  unfold write_ENIGMA_events
  simp only [write_after_events_eq, write_event_sequence_eq, String.append_assoc]
  rfl

/-- C5: every block that is a generated loop, guarded or not, with or without subcheck
gating, holds the invocation `myevent_<name>()` and after it, before the closing brace of
the loop, the test `if (enigma::room_switching_id != -1) goto after_events;`; and
`ENIGMA_events` writes the label `after_events:` once, after the blocks of all event kinds
and before the post-processing text. -/
theorem room_switch_test_follows_invocation :
    (∀ event : EventDescriptor, event.HasInsteadCode = true ∨
      ∃ guard_line indent : String,
        write_event_block event "" =
          guard_line
            ++ indent ++ "for (instance_event_iterator = event_" ++ event.BaseFunctionName
            ++ "->next; instance_event_iterator != NULL; instance_event_iterator = instance_event_iterator->next) \x7b\n"
            ++ (if (event.HasSubCheck && !event.IsInstance) then
                  indent ++ "  if (((enigma::event_parent*)(instance_event_iterator->inst))->myevent_"
                    ++ event.BaseFunctionName ++ "_subcheck()) \x7b\n"
                else "")
            ++ indent ++ "    ((enigma::event_parent*)(instance_event_iterator->inst))->myevent_"
            ++ event.BaseFunctionName ++ "();\n"
            ++ (if (event.HasSubCheck && !event.IsInstance) then indent ++ "  \x7d\n" else "")
            ++ indent ++ "  if (enigma::room_switching_id != -1) goto after_events;\n"
            ++ indent ++ "\x7d\n"
            ++ update_globals_hook)
    ∧ (∀ (ctx : Context) (game : GameData) (used_events : UsedEventIndex) (wto : String),
        write_ENIGMA_events ctx game used_events wto =
          wto ++ "  int ENIGMA_events()\n  \x7b\n"
            ++ String.join ((ctx.event_declarations.filter (fun event =>
                (map_find event.BaseFunctionName used_events.base_methods).isSome
                  && event.UsesEventLoop)).map (fun event => write_event_block event ""))
            ++ "    after_events:\n"
            ++ post_processing game.settings) := by
  refine ⟨fun event => ?_, fun ctx game used_events wto =>
    write_ENIGMA_events_eq ctx game used_events wto⟩
  cases h : event.HasInsteadCode with
  | true => exact Or.inl rfl
  | false =>
    right
    cases hs : (event.HasSuperCheck && !event.IsInstance) with
    | true =>
      refine ⟨"    if (" ++ (if event.HasSuperCheckExpression then event.SuperCheckExpression
          else "myevent_" ++ event.BaseFunctionName ++ "_supercheck()") ++ ")\n", "      ", ?_⟩
      rw [write_event_block_guarded event h hs]
      simp only [instance_loop, String.append_assoc]
    | false =>
      refine ⟨"", "    ", ?_⟩
      rw [write_event_block_ungated event h hs]
      simp only [instance_loop, String.append_assoc, String.empty_append]

/-- C6: after the label `after_events:` the driver writes the escape, F4, F1, F9 and F5/F6
shortcut lines, each exactly when its own setting is on and always in that order, then
unconditionally `enigma::dispose_destroyed_instances();`, `enigma::rooms_switch();` and
`enigma::set_room_speed(room_speed);` in that order, then the return of the function. -/
theorem post_processing_fixed_order (ctx : Context) (game : GameData)
    (used_events : UsedEventIndex) (wto : String) :
    write_ENIGMA_events ctx game used_events wto =
      write_event_sequence used_events ctx.event_declarations
          (wto ++ "  int ENIGMA_events()\n  \x7b\n")
        ++ "    after_events:\n"
        ++ (if game.settings.shortcuts.let_escape_end_game then
              "    if (keyboard_check_pressed(vk_escape)) game_end();\n" else "")
        ++ (if game.settings.shortcuts.let_f4_switch_fullscreen then
              "    if (keyboard_check_pressed(vk_f4)) window_set_fullscreen(!window_get_fullscreen());\n"
            else "")
        ++ (if game.settings.shortcuts.let_f1_show_game_info then
              "    if (keyboard_check_pressed(vk_f1)) show_info();\n" else "")
        ++ (if game.settings.shortcuts.let_f9_screenshot then
              "    if (keyboard_check_pressed(vk_f9)) \x7b\x7d\n" else "")
        ++ (if game.settings.shortcuts.let_f5_save_f6_load then
              "    //if (keyboard_check_pressed(vk_f5)) game_save('_save"
                ++ toString game.settings.general.game_id ++ ".sav');\n"
                ++ "    //if (keyboard_check_pressed(vk_f6)) game_load('_save"
                ++ toString game.settings.general.game_id ++ ".sav');\n"
            else "")
        ++ "    enigma::dispose_destroyed_instances();\n"
        ++ "    enigma::rooms_switch();\n"
        ++ "    enigma::set_room_speed(room_speed);\n"
        ++ "    \n    return 0;\n  \x7d // event function\n" := by
  unfold write_ENIGMA_events
  rw [write_after_events_eq]
  simp only [post_processing, String.append_assoc]
  rfl

/-! ## The used-event index -/

theorem string_lt_irrefl (a : String) : ¬ string_lt a a :=
  lt_irrefl a.data

theorem string_lt_asymm {a b : String} (h : string_lt a b) : ¬ string_lt b a :=
  lt_asymm h

theorem string_lt_trans {a b c : String} (h1 : string_lt a b) (h2 : string_lt b c) :
    string_lt a c :=
  lt_trans h1 h2

theorem string_eq_of_not_lt {a b : String} (h1 : ¬ string_lt a b) (h2 : ¬ string_lt b a) :
    a = b := by
  apply String.ext
  rcases lt_trichotomy a.data b.data with h | h | h
  · exact absurd h h1
  · exact h
  · exact absurd h h2

theorem map_insert_idempotent (k : String) (v : EventDescriptor)
    (l : List (String × EventDescriptor)) :
    map_insert k v (map_insert k v l) = map_insert k v l := by
  induction l with
  | nil => simp [map_insert, string_lt_irrefl]
  | cons kv rest ih =>
    obtain ⟨k', v'⟩ := kv
    by_cases h1 : string_lt k k'
    · simp [map_insert, h1, string_lt_irrefl]
    · by_cases h2 : string_lt k' k
      · simp [map_insert, h1, h2, ih]
      · simp [map_insert, h1, h2]

theorem set_insert_idempotent (ev : Event) (l : List Event) :
    set_insert ev (set_insert ev l) = set_insert ev l := by
  have hirr : ¬ Event.lt ev ev := lt_irrefl ev.internal_id
  induction l with
  | nil => simp [set_insert, hirr]
  | cons e rest ih =>
    by_cases h1 : Event.lt ev e
    · simp [set_insert, h1, hirr]
    · by_cases h2 : Event.lt e ev
      · simp [set_insert, h1, h2, ih]
      · simp [set_insert, h1, h2]

theorem map_find_insert (k name : String) (v : EventDescriptor)
    (l : List (String × EventDescriptor)) :
    map_find name (map_insert k v l) =
      match map_find name l with
      | some d => some d
      | none => if k = name then some v else none := by
  induction l with
  | nil =>
    by_cases hk : k = name
    · subst hk
      simp [map_insert, map_find, string_lt_irrefl]
    · by_cases h1 : string_lt name k
      · simp [map_insert, map_find, h1, hk]
      · have h2 : string_lt k name := by
          by_contra h2
          exact hk (string_eq_of_not_lt h2 h1)
        simp [map_insert, map_find, h1, h2, hk]
  | cons kv rest ih =>
    obtain ⟨k', v'⟩ := kv
    by_cases h1 : string_lt k k'
    · -- the pair goes in front
      by_cases h3 : string_lt name k
      · have h4 : string_lt name k' := string_lt_trans h3 h1
        have hk : k ≠ name := fun e => string_lt_irrefl k (e ▸ h3)
        simp [map_insert, map_find, h1, h3, h4, hk]
      · by_cases h4 : string_lt k name
        · have hk : k ≠ name := fun e => string_lt_irrefl k (e ▸ h4)
          simp only [map_insert, h1, if_true, map_find, h3, if_false, h4]
          cases hm : (if string_lt name k' then none
              else if string_lt k' name then map_find name rest else some v')
            <;> simp [hk]
        · have hk : k = name := string_eq_of_not_lt h4 h3
          subst hk
          simp [map_insert, map_find, h1, string_lt_irrefl]
    · by_cases h2 : string_lt k' k
      · -- the walk goes on
        by_cases h3 : string_lt name k'
        · have hk : k ≠ name := fun e => string_lt_asymm h2 (e ▸ h3)
          simp [map_insert, map_find, h1, h2, h3, hk]
        · by_cases h4 : string_lt k' name
          · simp [map_insert, map_find, h1, h2, h3, h4, ih]
          · simp [map_insert, map_find, h1, h2, h3, h4]
      · -- an equivalent key is there
        have hk : k = k' := string_eq_of_not_lt h1 h2
        subst hk
        simp only [map_insert, h1, if_false]
        by_cases h3 : string_lt name k
        · have hk : k ≠ name := fun e => string_lt_irrefl k (e ▸ h3)
          simp [map_find, h3, hk]
        · by_cases h4 : string_lt k name
          · have hk : k ≠ name := fun e => string_lt_irrefl k (e ▸ h4)
            simp only [map_find, h3, h4, if_false, if_true]
            cases hm : map_find name rest <;> simp [hk]
          · simp [map_find, h3, h4]

theorem map_find_foldl_insert (evs : List Event) (used_events : UsedEventIndex)
    (name : String) :
    map_find name (evs.foldl UsedEventIndex.insert used_events).base_methods =
      match map_find name used_events.base_methods with
      | some d => some d
      | none => evs.find? (fun ev => decide (ev.BaseFunctionName = name)) := by
  induction evs generalizing used_events with
  | nil => cases h : map_find name used_events.base_methods <;> simp [h]
  | cons ev rest ih =>
    rw [List.foldl_cons, ih, UsedEventIndex.insert, map_find_insert]
    cases h : map_find name used_events.base_methods with
    | some d => simp
    | none =>
      by_cases hk : ev.BaseFunctionName = name
      · simp [hk]
      · simp [hk]

/-- C8: inserting a legacy pair a second time leaves the used-event index as the first
insertion left it: the same number of base names, the same representative under every
name and the same set `all`. -/
theorem insert_pair_idempotent (ctx : Context) (used_events : UsedEventIndex)
    (mid id : Int) :
    (used_events.insert_pair ctx mid id).insert_pair ctx mid id
        = used_events.insert_pair ctx mid id
    ∧ ((used_events.insert_pair ctx mid id).insert_pair ctx mid id).base_methods.length
        = (used_events.insert_pair ctx mid id).base_methods.length
    ∧ (∀ name : String,
        map_find name ((used_events.insert_pair ctx mid id).insert_pair ctx mid id).base_methods
          = map_find name (used_events.insert_pair ctx mid id).base_methods)
    ∧ ((used_events.insert_pair ctx mid id).insert_pair ctx mid id).all
        = (used_events.insert_pair ctx mid id).all := by
  have h : (used_events.insert_pair ctx mid id).insert_pair ctx mid id
      = used_events.insert_pair ctx mid id := by
    simp only [UsedEventIndex.insert_pair, map_insert_idempotent, set_insert_idempotent]
  exact ⟨h, by rw [h], fun name => by rw [h], by rw [h]⟩

/-- C9: after any sequence of insertions, the descriptor stored in `base_methods` under a
name is the one that was there before the sequence, if there was one, and otherwise the
first inserted event with that base function name; from the empty index it is the first
inserted event with that name. -/
theorem first_inserted_representative_wins :
    (∀ (used_events : UsedEventIndex) (evs : List Event) (name : String),
      map_find name (evs.foldl UsedEventIndex.insert used_events).base_methods =
        match map_find name used_events.base_methods with
        | some d => some d
        | none => evs.find? (fun ev => decide (ev.BaseFunctionName = name)))
    ∧ (∀ (evs : List Event) (name : String),
      map_find name (evs.foldl UsedEventIndex.insert {}).base_methods =
        evs.find? (fun ev => decide (ev.BaseFunctionName = name))) := by
  refine ⟨fun used_events evs name => map_find_foldl_insert evs used_events name, ?_⟩
  intro evs name
  rw [map_find_foldl_insert]
  rfl

/-! ## Default-event injection -/

theorem event_exists_eq_false (ctx : Context) (internal_id : Int) (evs : List parsed_event)
    (h : ∀ e ∈ evs, (ctx.translate_legacy_id_pair e.mainId e.id).internal_id ≠ internal_id) :
    event_exists ctx internal_id evs = false := by
  induction evs with
  | nil => rfl
  | cons e rest ih =>
    have h1 := h e (List.mem_cons_self e rest)
    have h2 := ih (fun e' he' => h e' (List.mem_cons_of_mem e he'))
    simp [event_exists, h1, h2]

theorem shell_out_fst (ctx : Context) (event : EventDescriptor)
    (objs : List parsed_object) (con : Console) :
    (shell_out ctx event objs con).1 =
      objs.map (fun obj =>
        if event_exists ctx event.internal_id obj.events = true then obj
        else { obj with events := obj.events ++
          [parsed_event.mk (ctx.reverse_lookup_legacy_event event).mid
            (ctx.reverse_lookup_legacy_event event).id] }) := by
  induction objs generalizing con with
  | nil => rfl
  | cons obj rest ih =>
    simp only [shell_out, List.map_cons, ih]
    congr 1
    unfold shell_out_object
    cases event_exists ctx event.internal_id obj.events <;> simp

theorem inject_default_events_filter (ctx : Context) (catalog : List EventDescriptor)
    (used_events : UsedEventIndex) (objs : List parsed_object) (con : Console) :
    inject_default_events ctx catalog used_events objs con =
      inject_default_events ctx (catalog.filter (fun event => event.HasDefaultCode))
        used_events objs con := by
  induction catalog generalizing used_events objs con with
  | nil => rfl
  | cons event rest ih =>
    cases h : event.HasDefaultCode with
    | true =>
      rw [List.filter_cons_of_pos (by simpa using h)]
      simp only [inject_default_events, h, if_true]
      exact ih _ _ _
    | false =>
      rw [List.filter_cons_of_neg (by simp [h])]
      simp only [inject_default_events, h, Bool.false_eq_true, if_false]
      exact ih _ _ _

theorem map_find_insert_self (k : String) (v : EventDescriptor)
    (l : List (String × EventDescriptor)) :
    (map_find k (map_insert k v l)).isSome = true := by
  rw [map_find_insert]
  cases map_find k l <;> simp

theorem set_contains_insert_self (ev : Event) (l : List Event) :
    set_contains ev (set_insert ev l) = true := by
  have hirr : ¬ Event.lt ev ev := lt_irrefl ev.internal_id
  induction l with
  | nil => simp [set_insert, set_contains, hirr]
  | cons e rest ih =>
    by_cases h1 : Event.lt ev e
    · simp [set_insert, set_contains, h1, hirr]
    · by_cases h2 : Event.lt e ev
      · have ih' := ih
        simp only [set_contains] at ih'
        simp [set_insert, set_contains, h1, h2, ih']
      · simp [set_insert, set_contains, h1, h2]

theorem count_events_append_one (ctx : Context) (event : EventDescriptor)
    (obj : parsed_object)
    (hback : (ctx.translate_legacy_id_pair (ctx.reverse_lookup_legacy_event event).mid
      (ctx.reverse_lookup_legacy_event event).id).internal_id = event.internal_id)
    (hnone : ∀ e ∈ obj.events,
      (ctx.translate_legacy_id_pair e.mainId e.id).internal_id ≠ event.internal_id) :
    count_events_with_id ctx event.internal_id
      { obj with events := obj.events ++
        [parsed_event.mk (ctx.reverse_lookup_legacy_event event).mid
          (ctx.reverse_lookup_legacy_event event).id] } = 1 := by
  unfold count_events_with_id
  have h0 : obj.events.filter (fun e =>
      decide ((ctx.translate_legacy_id_pair e.mainId e.id).internal_id = event.internal_id))
      = [] := by
    rw [List.filter_eq_nil_iff]
    intro e he
    simpa using hnone e he
  simp [List.filter_append, h0, hback]

/-- C7: when `E` is the one default-coded descriptor of the catalog, its reverse-lookup
pair translates back to its canonical id, and no parsed object has an event translating to
that id, then after `compile_writeDefraggedEvents` the parsed objects are the same objects
with the reverse-lookup pair appended, each holds exactly one event translating to the id
of `E`, the base name of `E` is a key of `base_methods` and `E` is a member of `all`. -/
theorem default_event_injected_once (ctx : Context) (game : GameData)
    (parsed_objects : List parsed_object) (E : EventDescriptor)
    (hone : ctx.event_declarations.filter (fun event => event.HasDefaultCode) = [E])
    (hback : (ctx.translate_legacy_id_pair (ctx.reverse_lookup_legacy_event E).mid
      (ctx.reverse_lookup_legacy_event E).id).internal_id = E.internal_id)
    (hnone : ∀ obj ∈ parsed_objects, ∀ e ∈ obj.events,
      (ctx.translate_legacy_id_pair e.mainId e.id).internal_id ≠ E.internal_id) :
    (compile_writeDefraggedEvents ctx game parsed_objects).parsed_objects =
        parsed_objects.map (fun obj => { obj with events := obj.events ++
          [parsed_event.mk (ctx.reverse_lookup_legacy_event E).mid
            (ctx.reverse_lookup_legacy_event E).id] })
    ∧ (compile_writeDefraggedEvents ctx game parsed_objects).parsed_objects.length =
        parsed_objects.length
    ∧ (∀ obj ∈ (compile_writeDefraggedEvents ctx game parsed_objects).parsed_objects,
        count_events_with_id ctx E.internal_id obj = 1)
    ∧ (map_find E.BaseFunctionName
        (compile_writeDefraggedEvents ctx game parsed_objects).used_events.base_methods).isSome
          = true
    ∧ set_contains (Event.ofDescriptor E)
        (compile_writeDefraggedEvents ctx game parsed_objects).used_events.all = true := by
  have hobjs : (compile_writeDefraggedEvents ctx game parsed_objects).parsed_objects =
      parsed_objects.map (fun obj => { obj with events := obj.events ++
        [parsed_event.mk (ctx.reverse_lookup_legacy_event E).mid
          (ctx.reverse_lookup_legacy_event E).id] }) := by
    simp only [compile_writeDefraggedEvents]
    rw [inject_default_events_filter, hone]
    simp only [inject_default_events, shell_out_fst]
    have hE : E.HasDefaultCode = true := by
      have hmem : E ∈ ctx.event_declarations.filter (fun event => event.HasDefaultCode) := by
        rw [hone]; exact List.mem_singleton_self E
      exact (List.mem_filter.mp hmem).2
    simp only [hE, if_true]
    apply List.map_congr_left
    intro obj hobj
    rw [event_exists_eq_false ctx E.internal_id obj.events (hnone obj hobj)]
    simp
  have hused : (compile_writeDefraggedEvents ctx game parsed_objects).used_events =
      (collect_used_events ctx game.objects {} {}).1.insert (Event.ofDescriptor E) := by
    simp only [compile_writeDefraggedEvents]
    rw [inject_default_events_filter, hone]
    have hE : E.HasDefaultCode = true := by
      have hmem : E ∈ ctx.event_declarations.filter (fun event => event.HasDefaultCode) := by
        rw [hone]; exact List.mem_singleton_self E
      exact (List.mem_filter.mp hmem).2
    simp only [inject_default_events, hE, if_true]
  refine ⟨hobjs, ?_, ?_, ?_, ?_⟩
  · rw [hobjs, List.length_map]
  · intro obj hobj
    rw [hobjs, List.mem_map] at hobj
    obtain ⟨obj0, hobj0, rfl⟩ := hobj
    exact count_events_append_one ctx E obj0 hback (hnone obj0 hobj0)
  · rw [hused]
    exact map_find_insert_self _ _ _
  · rw [hused]
    exact set_contains_insert_self _ _

/-- C7 at the catalog `[create, step]` with two objects, of which neither declares
`create`: both receive the pair `(0, 0)`. -/
theorem default_event_injected_once_witness :
    injection_context.event_declarations.filter (fun event => event.HasDefaultCode)
        = [create_event]
    ∧ (injection_context.translate_legacy_id_pair
        (injection_context.reverse_lookup_legacy_event create_event).mid
        (injection_context.reverse_lookup_legacy_event create_event).id).internal_id
        = create_event.internal_id
    ∧ (∀ obj ∈ injection_objects, ∀ e ∈ obj.events,
        (injection_context.translate_legacy_id_pair e.mainId e.id).internal_id
          ≠ create_event.internal_id)
    ∧ (compile_writeDefraggedEvents injection_context injection_game
        injection_objects).parsed_objects = [⟨0, [⟨3, 0⟩, ⟨0, 0⟩]⟩, ⟨1, [⟨0, 0⟩]⟩]
    ∧ (∀ obj ∈ (compile_writeDefraggedEvents injection_context injection_game
        injection_objects).parsed_objects,
        count_events_with_id injection_context create_event.internal_id obj = 1)
    ∧ (map_find create_event.BaseFunctionName
        (compile_writeDefraggedEvents injection_context injection_game
          injection_objects).used_events.base_methods).isSome = true
    ∧ set_contains (Event.ofDescriptor create_event)
        (compile_writeDefraggedEvents injection_context injection_game
          injection_objects).used_events.all = true :=
  have h := default_event_injected_once injection_context injection_game injection_objects
    create_event (by decide) (by decide) (by decide)
  ⟨by decide, by decide, by decide, h.1, h.2.2.1, h.2.2.2.1, h.2.2.2.2⟩

/-! ## Diagnostics of the collection pass -/

theorem collect_object_events_conflicts (ctx : Context) (events : List ObjectEvent)
    (used_events : UsedEventIndex) (con : Console) :
    (collect_object_events ctx events used_events con).2.cerr.filter Diagnostic.is_conflict
      = con.cerr.filter Diagnostic.is_conflict := by
  induction events generalizing used_events con with
  | nil => rfl
  | cons event rest ih =>
    simp only [collect_object_events]
    rw [ih]
    unfold event_get_number
    cases event.name <;> simp [Diagnostic.is_conflict]

theorem collect_used_events_conflicts (ctx : Context) (objects : List Object)
    (used_events : UsedEventIndex) (con : Console) :
    (collect_used_events ctx objects used_events con).2.cerr.filter Diagnostic.is_conflict
      = con.cerr.filter Diagnostic.is_conflict := by
  induction objects generalizing used_events con with
  | nil => rfl
  | cons obj rest ih =>
    simp only [collect_used_events]
    rw [ih, collect_object_events_conflicts]

/-- C10 on the code: the collection pass never writes a naming-conflict diagnostic; for
the legacy pairs `(3, 0)` and `(3, 1)`, which translate to the canonical ids 1 and 2 under
the one base function name `step`, it writes nothing to `std::cerr` and keeps the first
descriptor, while `EventGroup::operator+=`, which the index does not use, writes exactly
one conflict diagnostic for the same two events. -/
theorem collection_writes_no_conflict_diagnostic :
    (∀ (ctx : Context) (objects : List Object) (used_events : UsedEventIndex)
        (con : Console),
      (collect_used_events ctx objects used_events con).2.cerr.filter Diagnostic.is_conflict
        = con.cerr.filter Diagnostic.is_conflict)
    ∧ (conflict_context.translate_legacy_id_pair 3 0).internal_id = 1
    ∧ (conflict_context.translate_legacy_id_pair 3 1).internal_id = 2
    ∧ (conflict_context.translate_legacy_id_pair 3 0).BaseFunctionName = "step"
    ∧ (conflict_context.translate_legacy_id_pair 3 1).BaseFunctionName = "step"
    ∧ (collect_used_events conflict_context conflict_game.objects {} {}).2.cerr = []
    ∧ (collect_used_events conflict_context conflict_game.objects {} {}).1.base_methods
        = [("step", step_event_a)]
    ∧ (compile_writeDefraggedEvents conflict_context conflict_game []).console.cerr = []
    ∧ (compile_writeDefraggedEvents conflict_context conflict_game []).result = 0
    ∧ (EventGroup.add (EventGroup.add {} ⟨0, step_event_a⟩ []).1 ⟨1, step_event_b⟩ []).2
        = [Diagnostic.name_conflict
            "Two distinct events seem to have the same name (step)! Check IDs 1 (step) and 2 (Begin Step)\n"] := by
  refine ⟨collect_used_events_conflicts, by decide, by decide, by decide, by decide,
    by decide, by decide, by decide, by decide, by decide⟩

/-! ## Diagnostics and the return value -/

theorem collect_object_events_fst (ctx : Context) (events : List ObjectEvent)
    (used_events : UsedEventIndex) (con : Console) :
    (collect_object_events ctx events used_events con).1 =
      events.foldl (fun used event => used.insert_pair ctx event.type event.number)
        used_events := by
  induction events generalizing used_events con with
  | nil => rfl
  | cons event rest ih =>
    simp only [collect_object_events, List.foldl_cons]
    rw [ih]
    rfl

theorem collect_used_events_fst (ctx : Context) (objects : List Object)
    (used_events : UsedEventIndex) (con : Console) :
    (collect_used_events ctx objects used_events con).1 =
      (all_object_events objects).foldl
        (fun used event => used.insert_pair ctx event.type event.number) used_events := by
  induction objects generalizing used_events con with
  | nil => rfl
  | cons obj rest ih =>
    simp only [collect_used_events, all_object_events, List.flatMap_cons, List.foldl_append]
    rw [ih, collect_object_events_fst]
    rfl

theorem collect_object_events_console (ctx : Context) (events : List ObjectEvent)
    (used_events : UsedEventIndex) (con : Console) :
    (collect_object_events ctx events used_events con).2 =
      { cerr := con.cerr ++ (events.filter (fun event => event.name.isSome)).map
          (fun _ => Diagnostic.names_unsupported
            "ERROR! IMPLEMENT ME: Event names not supported in compiler.\n"),
        cout := con.cout } := by
  induction events generalizing used_events con with
  | nil => simp [collect_object_events]
  | cons event rest ih =>
    simp only [collect_object_events]
    rw [ih]
    unfold event_get_number
    cases h : event.name <;> simp [h]

theorem collect_used_events_console (ctx : Context) (objects : List Object)
    (used_events : UsedEventIndex) (con : Console) :
    (collect_used_events ctx objects used_events con).2 =
      { cerr := con.cerr ++ ((all_object_events objects).filter
          (fun event => event.name.isSome)).map
          (fun _ => Diagnostic.names_unsupported
            "ERROR! IMPLEMENT ME: Event names not supported in compiler.\n"),
        cout := con.cout } := by
  induction objects generalizing used_events con with
  | nil => simp [collect_used_events, all_object_events]
  | cons obj rest ih =>
    simp only [collect_used_events]
    rw [ih, collect_object_events_console]
    simp [all_object_events, List.flatMap_cons, List.filter_append]

theorem shell_out_cerr (ctx : Context) (event : EventDescriptor)
    (objs : List parsed_object) (con : Console) :
    (shell_out ctx event objs con).2.cerr = con.cerr := by
  induction objs generalizing con with
  | nil => rfl
  | cons obj rest ih =>
    simp only [shell_out]
    rw [ih]
    unfold shell_out_object
    cases event_exists ctx event.internal_id obj.events <;> simp

theorem inject_default_events_cerr (ctx : Context) (catalog : List EventDescriptor)
    (used_events : UsedEventIndex) (objs : List parsed_object) (con : Console) :
    (inject_default_events ctx catalog used_events objs con).2.2.cerr = con.cerr := by
  induction catalog generalizing used_events objs con with
  | nil => rfl
  | cons event rest ih =>
    simp only [inject_default_events]
    split
    · rw [ih, shell_out_cerr]
    · rw [ih]

/-- C11, as stated, fails: a game whose object declares a named event makes the function
write the unsupported-feature diagnostic and return 0. -/
theorem named_event_diagnostic_returns_zero :
    (compile_writeDefraggedEvents injection_context named_event_game []).console.cerr
        = [Diagnostic.names_unsupported
            "ERROR! IMPLEMENT ME: Event names not supported in compiler.\n"]
    ∧ (compile_writeDefraggedEvents injection_context named_event_game []).result = 0 := by
  constructor <;> rfl

theorem compile_writeDefraggedEvents_cerr (ctx : Context) (game : GameData)
    (parsed_objects : List parsed_object) :
    (compile_writeDefraggedEvents ctx game parsed_objects).console.cerr =
      ((all_object_events game.objects).filter (fun event => event.name.isSome)).map
        (fun _ => Diagnostic.names_unsupported
          "ERROR! IMPLEMENT ME: Event names not supported in compiler.\n") := by
  simp only [compile_writeDefraggedEvents]
  rw [inject_default_events_cerr, collect_used_events_console]
  simp

/-- C11, amended: whenever an object of the game has an event that carries a name, the
function writes the unsupported-feature diagnostic to `std::cerr` and returns 0 all the
same. -/
theorem diagnostics_do_not_change_result (ctx : Context) (game : GameData)
    (parsed_objects : List parsed_object) (event : ObjectEvent)
    (hevent : event ∈ all_object_events game.objects)
    (hname : event.name.isSome = true) :
    Diagnostic.names_unsupported
        "ERROR! IMPLEMENT ME: Event names not supported in compiler.\n"
      ∈ (compile_writeDefraggedEvents ctx game parsed_objects).console.cerr
    ∧ (compile_writeDefraggedEvents ctx game parsed_objects).result = 0 := by
  refine ⟨?_, rfl⟩
  rw [compile_writeDefraggedEvents_cerr]
  exact List.mem_map.mpr ⟨event, List.mem_filter.mpr ⟨hevent, hname⟩, rfl⟩

/-- The statement of C11 as amended, at an object with the one event `(3, 0)` that
carries the name `collision`, in a game that has a second object without events. -/
theorem diagnostics_do_not_change_result_witness :
    (⟨3, 0, some "collision"⟩ : ObjectEvent)
      ∈ all_object_events [⟨[⟨3, 0, some "collision"⟩]⟩, ⟨[]⟩]
    ∧ Diagnostic.names_unsupported
        "ERROR! IMPLEMENT ME: Event names not supported in compiler.\n"
      ∈ (compile_writeDefraggedEvents injection_context
          { named_event_game with objects := [⟨[⟨3, 0, some "collision"⟩]⟩, ⟨[]⟩] }
          []).console.cerr
    ∧ (compile_writeDefraggedEvents injection_context
          { named_event_game with objects := [⟨[⟨3, 0, some "collision"⟩]⟩, ⟨[]⟩] }
          []).result = 0 :=
  ⟨List.mem_cons_self _ _,
    diagnostics_do_not_change_result injection_context
      { named_event_game with objects := [⟨[⟨3, 0, some "collision"⟩]⟩, ⟨[]⟩] } []
      ⟨3, 0, some "collision"⟩ (List.mem_cons_self _ _) rfl⟩

/-- C17, as stated, fails: the legacy pair `(3, 0)` of an event that carries the name
`collision` is translated and inserted into the used-event index, next to the diagnostic. -/
theorem named_event_pair_is_inserted :
    (collect_used_events injection_context named_event_game.objects {} {}).2.cerr
        = [Diagnostic.names_unsupported
            "ERROR! IMPLEMENT ME: Event names not supported in compiler.\n"]
    ∧ (collect_used_events injection_context named_event_game.objects {} {}).1
        = UsedEventIndex.insert_pair injection_context {} 3 0
    ∧ (collect_used_events injection_context named_event_game.objects {} {}).1.base_methods
        = [("step", injection_context.translate_legacy_id_pair 3 0)] := by
  refine ⟨by rfl, by rfl, by decide⟩

/-- C17, amended: for an object event that carries a name the collection pass writes the
unsupported-feature diagnostic and then treats the event like any other: the index after
the pass is the index after inserting the pair `(type, number)` of every object event,
named or not, in order. -/
theorem collection_inserts_every_pair (ctx : Context) (objects : List Object)
    (used_events : UsedEventIndex) (con : Console) :
    (collect_used_events ctx objects used_events con).1 =
        (all_object_events objects).foldl
          (fun used event => used.insert_pair ctx event.type event.number) used_events
    ∧ (collect_used_events ctx objects used_events con).2.cerr =
        con.cerr ++ ((all_object_events objects).filter
          (fun event => event.name.isSome)).map
          (fun _ => Diagnostic.names_unsupported
            "ERROR! IMPLEMENT ME: Event names not supported in compiler.\n") := by
  refine ⟨collect_used_events_fst ctx objects used_events con, ?_⟩
  rw [collect_used_events_console]

/-! ## Folds that only append -/

theorem foldl_append_eq_join {α : Type} (f : α → String) (l : List α) (wto : String) :
    l.foldl (fun wto a => wto ++ f a) wto = wto ++ String.join (l.map f) := by
  induction l generalizing wto with
  | nil =>
    apply String.ext
    simp [String.data_append]
  | cons a rest ih =>
    rw [List.foldl_cons, ih, List.map_cons, string_join_cons, String.append_assoc]

theorem foldl_indexed_eq_join {α : Type} (f : α → Nat → String) (l : List α) (wto : String)
    (k : Nat) :
    (l.foldl (fun (st : String × Nat) a => (st.1 ++ f a st.2, st.2 + 1)) (wto, k)).1 =
      wto ++ String.join ((l.enumFrom k).map (fun ia => f ia.2 ia.1)) := by
  induction l generalizing wto k with
  | nil =>
    apply String.ext
    simp [String.data_append]
  | cons a rest ih =>
    rw [List.foldl_cons, ih, List.enumFrom_cons, List.map_cons, string_join_cons,
      String.append_assoc]

theorem write_event_system_initialize_eq (used_events : UsedEventIndex)
    (parsed_objects : List parsed_object) (wto : String) :
    write_event_system_initialize used_events parsed_objects wto =
      wto ++ (String.join (used_events.base_methods.map
          (fun evfun => "  event_iter *event_" ++ (evfun.1 ++ ";\n")))
        ++ ("  int event_system_initialize()\n  \x7b\n"
        ++ ("    events = new event_iter[" ++ (toString used_events.base_methods.length
        ++ ("]; // Allocated here; not really meant to change.\n"
        ++ ("    objects = new objectid_base["
        ++ (toString (int_wrap (object_high_id parsed_objects + 1))
        ++ ("]; // Allocated here; not really meant to change.\n"
        ++ (String.join ((used_events.base_methods.enumFrom 0).map
          (fun ia => "    event_" ++ (ia.2.1 ++ (" = events + " ++ (toString ia.1
            ++ (";  event_" ++ (ia.2.1 ++ ("->name = \"" ++ (ia.2.2.HumanName
            ++ "\";\n")))))))))
        ++ "    return 0;\n  \x7d\n"))))))))) := by
  unfold write_event_system_initialize
  simp only [String.append_assoc]
  rw [foldl_append_eq_join (fun (evfun : String × EventDescriptor) =>
    "  event_iter *event_" ++ (evfun.1 ++ (";" ++ "\n")))]
  rw [foldl_indexed_eq_join (fun (evfun : String × EventDescriptor) (ind : Nat) =>
    "    event_" ++ (evfun.1 ++ (" = events + " ++ (toString ind
      ++ (";  event_" ++ (evfun.1 ++ ("->name = \"" ++ (evfun.2.HumanName
      ++ "\";\n"))))))))]
  simp only [String.append_assoc]
  rfl

/-! ## The object-id table -/

theorem object_high_id_foldl_ge (objs : List parsed_object) (start : Int) :
    start ≤ objs.foldl (fun obj_high_id obj =>
      if obj.id > obj_high_id then obj.id else obj_high_id) start
    ∧ ∀ obj ∈ objs, obj.id ≤ objs.foldl (fun obj_high_id obj =>
      if obj.id > obj_high_id then obj.id else obj_high_id) start := by
  induction objs generalizing start with
  | nil => simp
  | cons obj rest ih =>
    simp only [List.foldl_cons, List.mem_cons]
    have h := ih (if obj.id > start then obj.id else start)
    refine ⟨?_, ?_⟩
    · have h1 := h.1
      split at h1 <;> omega
    · rintro o (rfl | ho)
      · have h1 := h.1
        split at h1 <;> omega
      · exact h.2 o ho

theorem object_high_id_foldl_attained (objs : List parsed_object) (start : Int) :
    objs.foldl (fun obj_high_id obj =>
      if obj.id > obj_high_id then obj.id else obj_high_id) start = start
    ∨ ∃ obj ∈ objs, obj.id = objs.foldl (fun obj_high_id obj =>
      if obj.id > obj_high_id then obj.id else obj_high_id) start := by
  induction objs generalizing start with
  | nil => simp
  | cons obj rest ih =>
    simp only [List.foldl_cons, List.mem_cons]
    rcases ih (if obj.id > start then obj.id else start) with h | ⟨o, ho, h⟩
    · by_cases hgt : obj.id > start
      · right
        refine ⟨obj, Or.inl rfl, ?_⟩
        rw [h, if_pos hgt]
      · left
        rw [h, if_neg hgt]
    · exact Or.inr ⟨o, Or.inr ho, h⟩

/-- C14, as stated, fails: for one object with the id 2147483647 the addition
`obj_high_id+1` leaves the range of `int`; the size written is -2147483648, which is not
the maximum id plus one, and the id of the object is not below it. -/
theorem object_table_size_overflows :
    object_high_id [⟨2147483647, []⟩] = 2147483647
    ∧ int_wrap (object_high_id [⟨2147483647, []⟩] + 1) = -2147483648
    ∧ write_event_system_initialize {} [⟨2147483647, []⟩] "" =
        "  int event_system_initialize()\n  \x7b\n    events = new event_iter[0]; // Allocated here; not really meant to change.\n    objects = new objectid_base[-2147483648]; // Allocated here; not really meant to change.\n    return 0;\n  \x7d\n"
    ∧ ¬ ((2147483647 : Int) < int_wrap (object_high_id [⟨2147483647, []⟩] + 1)) := by
  refine ⟨by decide, by decide, by rfl, by decide⟩

/-- C14, amended: when every object id is below 2147483647, the size `K` written in
`objects = new objectid_base[K]` is the maximum object id plus one, the maximum taken as 0
when the list is empty or all ids are negative, and every non-negative object id of the
list is below `K`. -/
theorem object_table_size_is_high_id_plus_one (used_events : UsedEventIndex)
    (parsed_objects : List parsed_object) (wto : String)
    (hrange : ∀ obj ∈ parsed_objects, obj.id < 2147483647) :
    (∃ before after : String,
      write_event_system_initialize used_events parsed_objects wto =
        before ++ ("    objects = new objectid_base["
          ++ (toString (object_high_id parsed_objects + 1)
          ++ ("]; // Allocated here; not really meant to change.\n" ++ after))))
    ∧ 0 ≤ object_high_id parsed_objects
    ∧ (∀ obj ∈ parsed_objects, obj.id ≤ object_high_id parsed_objects)
    ∧ (object_high_id parsed_objects = 0
        ∨ ∃ obj ∈ parsed_objects, obj.id = object_high_id parsed_objects)
    ∧ (∀ obj ∈ parsed_objects, 0 ≤ obj.id → obj.id < object_high_id parsed_objects + 1) := by
  have hge : 0 ≤ object_high_id parsed_objects
      ∧ ∀ obj ∈ parsed_objects, obj.id ≤ object_high_id parsed_objects :=
    object_high_id_foldl_ge parsed_objects 0
  have hat : object_high_id parsed_objects = 0
      ∨ ∃ obj ∈ parsed_objects, obj.id = object_high_id parsed_objects :=
    object_high_id_foldl_attained parsed_objects 0
  have hlt : object_high_id parsed_objects < 2147483647 := by
    rcases hat with h | ⟨o, ho, h⟩
    · rw [h]
      decide
    · rw [← h]
      exact hrange o ho
  have hwrap : int_wrap (object_high_id parsed_objects + 1)
      = object_high_id parsed_objects + 1 := by
    have h0 : 0 ≤ object_high_id parsed_objects := hge.1
    unfold int_wrap
    omega
  refine ⟨?_, hge.1, hge.2, hat, ?_⟩
  · rw [write_event_system_initialize_eq, hwrap]
    refine ⟨wto ++ (String.join (used_events.base_methods.map
        (fun evfun => "  event_iter *event_" ++ (evfun.1 ++ ";\n")))
      ++ ("  int event_system_initialize()\n  \x7b\n"
      ++ ("    events = new event_iter[" ++ (toString used_events.base_methods.length
      ++ "]; // Allocated here; not really meant to change.\n")))),
      String.join ((used_events.base_methods.enumFrom 0).map
          (fun ia => "    event_" ++ (ia.2.1 ++ (" = events + " ++ (toString ia.1
            ++ (";  event_" ++ (ia.2.1 ++ ("->name = \"" ++ (ia.2.2.HumanName
            ++ "\";\n")))))))))
        ++ "    return 0;\n  \x7d\n", ?_⟩
    simp only [String.append_assoc]
  · intro obj hobj _
    have := hge.2 obj hobj
    omega

/-- The amended C14 at two objects with the ids 0 and 1: the table has two entries. -/
theorem object_table_size_is_high_id_plus_one_witness :
    (∀ obj ∈ injection_objects, obj.id < 2147483647)
    ∧ object_high_id injection_objects + 1 = 2
    ∧ (∀ obj ∈ injection_objects, 0 ≤ obj.id →
        obj.id < object_high_id injection_objects + 1) :=
  ⟨by decide, by decide,
    (object_table_size_is_high_id_plus_one {} injection_objects "" (by decide)).2.2.2.2⟩

/-! ## The declaration artifact -/

theorem write_base_method_eq (fname : String) (event : EventDescriptor) (wto : String) :
    write_base_method fname event wto =
      wto ++ ((if (event.HasSubCheck && !event.IsInstance) = true then
            "    inline virtual bool myevent_" ++ (fname ++ "_subcheck() \x7b return false; \x7d\n")
          else "")
        ++ ((if event.IsInstance = true then "    virtual void    myevent_"
            else "    virtual variant myevent_")
        ++ (fname ++ ("()"
        ++ (if event.HasDefaultCode = true then
              "\n    \x7b\n  " ++ (event.DefaultCode ++ ("\n"
                ++ ((if event.IsInstance = true then "    \x7d" else "    return 0;\n    \x7d")
                ++ "\n")))
            else
              (if event.IsInstance = true then " \x7b \x7d // No default "
                else " \x7b return 0; \x7d // No default ")
              ++ (event.HumanName ++ " code.\n")))))) := by
  obtain ⟨id, bn, fn, hn, inst, sub, sup, supe, supf, dc, ic, uel, dcode, icode, sce, scf⟩ :=
    event
  cases inst <;> cases sub <;> cases dc <;>
    (simp [write_base_method, String.append_assoc]
     try rfl)

theorem write_base_method_append (fname : String) (event : EventDescriptor) (wto : String) :
    write_base_method fname event wto = wto ++ write_base_method fname event "" := by
  rw [write_base_method_eq fname event wto, write_base_method_eq fname event ""]
  simp

theorem foldl_write_eq_join {α : Type} (g : α → String → String) (l : List α)
    (wto : String) (hg : ∀ a w, g a w = w ++ g a "") :
    l.foldl (fun wto a => g a wto) wto = wto ++ String.join (l.map (fun a => g a "")) := by
  induction l generalizing wto with
  | nil =>
    apply String.ext
    simp [String.data_append]
  | cons a rest ih =>
    rw [List.foldl_cons, ih, List.map_cons, string_join_cons, hg a wto, String.append_assoc]

theorem write_moment_names_eq (timelines : List Timeline) (wto : String) :
    write_moment_names timelines wto =
      wto ++ String.join (timelines.map (fun tl =>
        String.join (tl.moments.map (fun m =>
          "void " ++ (moment_function_name tl m ++ "();\n"))))) := by
  unfold write_moment_names
  simp only [moment_function_name, String.append_assoc]
  have h : ∀ (tl : Timeline) (w : String),
      tl.moments.foldl (fun wto m => wto ++ ("void TLINE_" ++ (tl.name ++ ("_MOMENT_"
        ++ (toString m.step ++ "();\n"))))) w =
      w ++ String.join (tl.moments.map (fun m =>
        "void " ++ ("TLINE_" ++ (tl.name ++ ("_MOMENT_"
          ++ (toString m.step ++ "();\n")))))) := by
    intro tl w
    rw [foldl_append_eq_join]
    rfl
  simp only [h]
  rw [foldl_append_eq_join]

theorem write_moment_cases_eq (tl : Timeline) (wto : String) :
    write_moment_cases tl wto =
      wto ++ String.join ((tl.moments.enumFrom 0).map (fun jm =>
        "            case " ++ (toString jm.1 ++ (": \x7b\n"
          ++ ("              ::" ++ (moment_function_name tl jm.2 ++ ("();\n"
          ++ ("              break;\n" ++ "            \x7d\n")))))))) := by
  unfold write_moment_cases
  simp only [moment_function_name, String.append_assoc]
  rw [foldl_indexed_eq_join (fun (m : Moment) (j : Nat) =>
    "            case " ++ (toString j ++ (": \x7b\n"
      ++ ("              ::TLINE_" ++ (tl.name ++ ("_MOMENT_" ++ (toString m.step ++ ("();\n"
      ++ ("              break;\n" ++ "            \x7d\n")))))))))]
  rfl

theorem write_timeline_call_moment_script_eq (timelines : List Timeline) (wto : String) :
    write_timeline_call_moment_script timelines wto =
      wto ++ ("    virtual void timeline_call_moment_script(int timeline_index, int moment_index) \x7b\n"
        ++ ("      switch (timeline_index) \x7b\n"
        ++ (String.join (timelines.map (fun tl =>
              "        case " ++ (toString tl.id ++ (": \x7b\n"
                ++ ("          switch (moment_index) \x7b\n"
                ++ (String.join ((tl.moments.enumFrom 0).map (fun jm =>
                      "            case " ++ (toString jm.1 ++ (": \x7b\n"
                        ++ ("              ::" ++ (moment_function_name tl jm.2 ++ ("();\n"
                        ++ ("              break;\n" ++ "            \x7d\n"))))))))
                ++ ("          \x7d\n" ++ ("        \x7d\n" ++ "        break;\n"))))))))
        ++ ("      \x7d\n" ++ "    \x7d\n")))) := by
  unfold write_timeline_call_moment_script
  simp only [write_moment_cases_eq, String.append_assoc]
  rw [foldl_append_eq_join]
  simp only [String.append_assoc]

theorem write_event_parent_eq (ctx : Context) (game : GameData)
    (used_events : UsedEventIndex) (wto : String) :
    write_event_parent ctx game used_events wto =
      wto ++ ("namespace enigma\n\x7b\n  struct event_parent: "
        ++ (ctx.system_get_uppermost_tier ++ ("\n  \x7b\n"
        ++ (String.join (used_events.base_methods.map
              (fun str_ev => write_base_method str_ev.1 str_ev.2 ""))
        ++ (write_timeline_call_moment_script game.timelines ""
        ++ event_parent_tail ctx))))) := by
  unfold write_event_parent
  simp only []
  rw [foldl_write_eq_join (fun (str_ev : String × EventDescriptor) w =>
      write_base_method str_ev.1 str_ev.2 w) _ _
    (fun a w => write_base_method_append a.1 a.2 w)]
  rw [write_timeline_call_moment_script_eq _ (_ ++ _),
    write_timeline_call_moment_script_eq _ ""]
  simp only [event_parent_tail, String.append_assoc, String.empty_append]
  rfl

/-! ## The order of the used-event index -/

theorem map_insert_mem (k : String) (v : EventDescriptor)
    (l : List (String × EventDescriptor)) (x : String × EventDescriptor)
    (hx : x ∈ map_insert k v l) : x = (k, v) ∨ x ∈ l := by
  induction l with
  | nil =>
    simp only [map_insert, List.mem_singleton] at hx
    exact Or.inl hx
  | cons kv rest ih =>
    obtain ⟨k', v'⟩ := kv
    by_cases h1 : string_lt k k'
    · simp only [map_insert, h1, if_true, List.mem_cons] at hx
      rcases hx with hx | hx | hx
      · exact Or.inl hx
      · exact Or.inr (List.mem_cons.mpr (Or.inl hx))
      · exact Or.inr (List.mem_cons.mpr (Or.inr hx))
    · by_cases h2 : string_lt k' k
      · simp only [map_insert, h1, h2, if_true, if_false, List.mem_cons] at hx
        rcases hx with hx | hx
        · exact Or.inr (List.mem_cons.mpr (Or.inl hx))
        · rcases ih hx with h | h
          · exact Or.inl h
          · exact Or.inr (List.mem_cons.mpr (Or.inr h))
      · simp only [map_insert, h1, h2, if_false] at hx
        exact Or.inr hx

theorem map_insert_ascending (k : String) (v : EventDescriptor)
    (l : List (String × EventDescriptor))
    (hl : l.Pairwise (fun a b => string_lt a.1 b.1)) :
    (map_insert k v l).Pairwise (fun a b => string_lt a.1 b.1) := by
  induction l with
  | nil => simp [map_insert]
  | cons kv rest ih =>
    obtain ⟨k', v'⟩ := kv
    rw [List.pairwise_cons] at hl
    by_cases h1 : string_lt k k'
    · simp only [map_insert, h1, if_true]
      refine List.pairwise_cons.mpr ⟨?_, List.pairwise_cons.mpr hl⟩
      intro x hx
      rcases List.mem_cons.mp hx with hx | hx
      · rw [hx]; exact h1
      · exact string_lt_trans h1 (hl.1 x hx)
    · by_cases h2 : string_lt k' k
      · simp only [map_insert, h1, h2, if_true, if_false]
        refine List.pairwise_cons.mpr ⟨?_, ih hl.2⟩
        intro x hx
        rcases map_insert_mem k v rest x hx with hx | hx
        · rw [hx]; exact h2
        · exact hl.1 x hx
      · simp only [map_insert, h1, h2, if_false]
        exact List.pairwise_cons.mpr hl

theorem map_insert_keys (k name : String) (v : EventDescriptor)
    (l : List (String × EventDescriptor)) :
    name ∈ (map_insert k v l).map Prod.fst ↔ name = k ∨ name ∈ l.map Prod.fst := by
  induction l with
  | nil => simp [map_insert]
  | cons kv rest ih =>
    obtain ⟨k', v'⟩ := kv
    by_cases h1 : string_lt k k'
    · simp [map_insert, h1]
    · by_cases h2 : string_lt k' k
      · simp only [map_insert, h1, h2, if_true, if_false, List.map_cons, List.mem_cons, ih]
        tauto
      · have hk : k = k' := string_eq_of_not_lt h1 h2
        subst hk
        simp only [map_insert, h1, if_false, List.map_cons, List.mem_cons]
        tauto

theorem foldl_insert_ascending (evs : List Event) (used_events : UsedEventIndex)
    (hl : used_events.base_methods.Pairwise (fun a b => string_lt a.1 b.1)) :
    (evs.foldl UsedEventIndex.insert used_events).base_methods.Pairwise
      (fun a b => string_lt a.1 b.1) := by
  induction evs generalizing used_events with
  | nil => exact hl
  | cons ev rest ih =>
    rw [List.foldl_cons]
    exact ih _ (map_insert_ascending _ _ _ hl)

theorem foldl_insert_keys (evs : List Event) (used_events : UsedEventIndex)
    (name : String) :
    name ∈ (evs.foldl UsedEventIndex.insert used_events).base_methods.map Prod.fst ↔
      name ∈ used_events.base_methods.map Prod.fst
        ∨ ∃ ev ∈ evs, ev.BaseFunctionName = name := by
  induction evs generalizing used_events with
  | nil => simp
  | cons ev rest ih =>
    rw [List.foldl_cons, ih]
    simp only [UsedEventIndex.insert, map_insert_keys, List.mem_cons, exists_eq_or_imp]
    constructor
    · rintro ((h | h) | h)
      · exact Or.inr (Or.inl h.symm)
      · exact Or.inl h
      · exact Or.inr (Or.inr h)
    · rintro (h | h | h)
      · exact Or.inl (Or.inr h)
      · exact Or.inl (Or.inl h.symm)
      · exact Or.inr h

theorem foldl_insert_keys_nodup (evs : List Event) :
    ((evs.foldl UsedEventIndex.insert {}).base_methods.map Prod.fst).Nodup := by
  have h := foldl_insert_ascending evs {} List.Pairwise.nil
  rw [List.Nodup, List.pairwise_map]
  refine h.imp ?_
  intro a b hab heq
  rw [heq] at hab
  exact string_lt_irrefl _ hab

theorem inject_default_events_fst (ctx : Context) (catalog : List EventDescriptor)
    (used_events : UsedEventIndex) (objs : List parsed_object) (con : Console) :
    (inject_default_events ctx catalog used_events objs con).1 =
      (catalog.filter (fun event => event.HasDefaultCode)).foldl
        UsedEventIndex.insert used_events := by
  induction catalog generalizing used_events objs con with
  | nil => rfl
  | cons event rest ih =>
    cases h : event.HasDefaultCode with
    | true =>
      rw [List.filter_cons_of_pos (by simpa using h)]
      simp only [inject_default_events, h, if_true, List.foldl_cons]
      rw [ih]
      rfl
    | false =>
      rw [List.filter_cons_of_neg (by simp [h])]
      simp only [inject_default_events, h, Bool.false_eq_true, if_false]
      rw [ih]

theorem compile_used_events_eq (ctx : Context) (game : GameData)
    (parsed_objects : List parsed_object) :
    (compile_writeDefraggedEvents ctx game parsed_objects).used_events =
      ((all_object_events game.objects).map
          (fun event => ctx.translate_legacy_id_pair event.type event.number)
        ++ ctx.event_declarations.filter (fun event => event.HasDefaultCode)).foldl
        UsedEventIndex.insert {} := by
  simp only [compile_writeDefraggedEvents]
  rw [inject_default_events_fst, collect_used_events_fst, List.foldl_append, List.foldl_map]
  rfl

theorem evparent_h_eq (ctx : Context) (game : GameData)
    (parsed_objects : List parsed_object) :
    (compile_writeDefraggedEvents ctx game parsed_objects).evparent_h =
      ctx.license ++ (String.join (game.timelines.map (fun tl =>
          String.join (tl.moments.map (fun m =>
            "void " ++ (moment_function_name tl m ++ "();\n")))))
        ++ ("\n" ++ ("namespace enigma\n\x7b\n  struct event_parent: "
        ++ (ctx.system_get_uppermost_tier ++ ("\n  \x7b\n"
        ++ (String.join ((compile_writeDefraggedEvents ctx game
              parsed_objects).used_events.base_methods.map
              (fun str_ev => write_base_method str_ev.1 str_ev.2 ""))
        ++ (write_timeline_call_moment_script game.timelines ""
        ++ event_parent_tail ctx))))))) := by
  have h : (compile_writeDefraggedEvents ctx game parsed_objects).evparent_h =
      write_event_parent ctx game
        (compile_writeDefraggedEvents ctx game parsed_objects).used_events
        (write_moment_names game.timelines ctx.license ++ "\n") := rfl
  rw [h, write_event_parent_eq, write_moment_names_eq]
  simp only [String.append_assoc]

/-- C12, as stated, fails: the collection pass inserts `step` and the injection then
inserts `create`, yet the anchors are declared and assigned with `create` first. -/
theorem generated_order_is_not_insertion_order :
    (compile_writeDefraggedEvents injection_context injection_game
        injection_objects).used_events
      = [step_event, create_event].foldl UsedEventIndex.insert {}
    ∧ ([step_event, create_event].foldl UsedEventIndex.insert {}).base_methods.map Prod.fst
      = ["create", "step"]
    ∧ write_event_system_initialize
        ([step_event, create_event].foldl UsedEventIndex.insert {}) [] ""
      = "  event_iter *event_create;\n  event_iter *event_step;\n  int event_system_initialize()\n  \x7b\n    events = new event_iter[2]; // Allocated here; not really meant to change.\n    objects = new objectid_base[1]; // Allocated here; not really meant to change.\n    event_create = events + 0;  event_create->name = \"create\";\n    event_step = events + 1;  event_step->name = \"step\";\n    return 0;\n  \x7d\n"
    ∧ ([step_event, create_event].foldl UsedEventIndex.insert {}).base_methods.map
        (fun str_ev => write_base_method str_ev.1 str_ev.2 "")
      = ["    virtual void    myevent_create()\n    \x7b\n  x=0;\n    \x7d\n",
         "    inline virtual bool myevent_step_subcheck() \x7b return false; \x7d\n    virtual variant myevent_step() \x7b return 0; \x7d // No default step code.\n"] := by
  refine ⟨by decide, by decide, by rfl, by rfl⟩

/-- C12, amended: the used-event index the function works with is the result of inserting
the translated object events and then the default-coded catalog entries; its base function
names are in strictly ascending order of `std::string`, whatever the order of insertion,
and they are exactly the names inserted; the dispatch methods of `event_parent`, the
anchor declarations and the anchor assignments are written in that ascending order. -/
theorem generated_order_is_key_order :
    (∀ (ctx : Context) (game : GameData) (parsed_objects : List parsed_object),
      (compile_writeDefraggedEvents ctx game parsed_objects).used_events =
        ((all_object_events game.objects).map
            (fun event => ctx.translate_legacy_id_pair event.type event.number)
          ++ ctx.event_declarations.filter (fun event => event.HasDefaultCode)).foldl
          UsedEventIndex.insert {})
    ∧ (∀ evs : List Event,
      (evs.foldl UsedEventIndex.insert {}).base_methods.Pairwise
        (fun a b => string_lt a.1 b.1))
    ∧ (∀ (evs : List Event) (name : String),
      name ∈ (evs.foldl UsedEventIndex.insert {}).base_methods.map Prod.fst
        ↔ ∃ ev ∈ evs, ev.BaseFunctionName = name)
    ∧ (∀ (ctx : Context) (game : GameData) (used_events : UsedEventIndex) (wto : String),
      write_event_parent ctx game used_events wto =
        wto ++ ("namespace enigma\n\x7b\n  struct event_parent: "
          ++ (ctx.system_get_uppermost_tier ++ ("\n  \x7b\n"
          ++ (String.join (used_events.base_methods.map
                (fun str_ev => write_base_method str_ev.1 str_ev.2 ""))
          ++ (write_timeline_call_moment_script game.timelines ""
          ++ event_parent_tail ctx))))))
    ∧ (∀ (used_events : UsedEventIndex) (parsed_objects : List parsed_object)
        (wto : String),
      write_event_system_initialize used_events parsed_objects wto =
        wto ++ (String.join (used_events.base_methods.map
            (fun evfun => "  event_iter *event_" ++ (evfun.1 ++ ";\n")))
          ++ ("  int event_system_initialize()\n  \x7b\n"
          ++ ("    events = new event_iter[" ++ (toString used_events.base_methods.length
          ++ ("]; // Allocated here; not really meant to change.\n"
          ++ ("    objects = new objectid_base["
          ++ (toString (int_wrap (object_high_id parsed_objects + 1))
          ++ ("]; // Allocated here; not really meant to change.\n"
          ++ (String.join ((used_events.base_methods.enumFrom 0).map
            (fun ia => "    event_" ++ (ia.2.1 ++ (" = events + " ++ (toString ia.1
              ++ (";  event_" ++ (ia.2.1 ++ ("->name = \"" ++ (ia.2.2.HumanName
              ++ "\";\n")))))))))
          ++ "    return 0;\n  \x7d\n")))))))))) := by
  refine ⟨compile_used_events_eq, fun evs => foldl_insert_ascending evs {} List.Pairwise.nil,
    ?_, write_event_parent_eq, write_event_system_initialize_eq⟩
  intro evs name
  rw [foldl_insert_keys]
  simp

/-- C13: for every used base function name `n` with representative `e`, the declaration
artifact holds, in the struct `event_parent`, the line of `myevent_<n>_subcheck()`
exactly when `e` has a subcheck and is not per-instance, and then one method
`myevent_<n>()`, `virtual void` when `e` is per-instance and `virtual variant` otherwise,
whose body is the default code (followed by `return 0;` when not per-instance) when `e`
has default code and otherwise the stub with the comment
`// No default <HumanName> code.`. -/
theorem event_parent_dispatch_methods (ctx : Context) (game : GameData)
    (parsed_objects : List parsed_object) :
    (compile_writeDefraggedEvents ctx game parsed_objects).evparent_h =
      ctx.license ++ (String.join (game.timelines.map (fun tl =>
          String.join (tl.moments.map (fun m =>
            "void " ++ (moment_function_name tl m ++ "();\n")))))
        ++ ("\n" ++ ("namespace enigma\n\x7b\n  struct event_parent: "
        ++ (ctx.system_get_uppermost_tier ++ ("\n  \x7b\n"
        ++ (String.join ((compile_writeDefraggedEvents ctx game
              parsed_objects).used_events.base_methods.map (fun ne =>
            (if (ne.2.HasSubCheck && !ne.2.IsInstance) = true then
                "    inline virtual bool myevent_"
                  ++ (ne.1 ++ "_subcheck() \x7b return false; \x7d\n")
              else "")
            ++ ((if ne.2.IsInstance = true then "    virtual void    myevent_"
                else "    virtual variant myevent_")
            ++ (ne.1 ++ ("()"
            ++ (if ne.2.HasDefaultCode = true then
                  "\n    \x7b\n  " ++ (ne.2.DefaultCode ++ ("\n"
                    ++ ((if ne.2.IsInstance = true then "    \x7d" else "    return 0;\n    \x7d")
                    ++ "\n")))
                else
                  (if ne.2.IsInstance = true then " \x7b \x7d // No default "
                    else " \x7b return 0; \x7d // No default ")
                  ++ (ne.2.HumanName ++ " code.\n")))))))
        ++ (write_timeline_call_moment_script game.timelines ""
        ++ event_parent_tail ctx))))))) := by
  rw [evparent_h_eq]
  have h : (fun (str_ev : String × EventDescriptor) =>
      write_base_method str_ev.1 str_ev.2 "") = _ :=
    funext (fun str_ev => (write_base_method_eq str_ev.1 str_ev.2 "").trans
      (String.empty_append _))
  rw [h]

/-! ## The driver artifact as a whole -/

theorem write_game_settings_initialize_append (game : GameData) (wto : String) :
    write_game_settings_initialize game wto =
      wto ++ write_game_settings_initialize game "" := by
  obtain ⟨objects, timelines, ⟨⟨cursor, gid⟩, ⟨top⟩, shortcuts⟩⟩ := game
  cases cursor <;> cases top <;>
    simp [ write_game_settings_initialize, String.append_assoc]

theorem write_supercheck_functions_append (used_events : UsedEventIndex) (wto : String) :
    write_supercheck_functions used_events wto =
      wto ++ write_supercheck_functions used_events "" := by
  unfold write_supercheck_functions
  have hg : ∀ (event : Event) (w : String),
      (if event.HasSuperCheckFunction = true then
        w ++ "  static inline bool supercheck_" ++ event.FunctionName
          ++ "() " ++ event.SuperCheckFunction ++ "\n\n"
      else w) =
      w ++ (if event.HasSuperCheckFunction = true then
        "" ++ "  static inline bool supercheck_" ++ event.FunctionName
          ++ "() " ++ event.SuperCheckFunction ++ "\n\n"
      else "") := by
    intro event w
    cases event.HasSuperCheckFunction <;> simp [String.append_assoc]
  rw [foldl_write_eq_join (fun (event : Event) w =>
      if event.HasSuperCheckFunction = true then
        w ++ "  static inline bool supercheck_" ++ event.FunctionName
          ++ "() " ++ event.SuperCheckFunction ++ "\n\n"
      else w) _ wto hg,
    foldl_write_eq_join (fun (event : Event) w =>
      if event.HasSuperCheckFunction = true then
        w ++ "  static inline bool supercheck_" ++ event.FunctionName
          ++ "() " ++ event.SuperCheckFunction ++ "\n\n"
      else w) _ "" hg]
  simp

theorem events_h_eq (ctx : Context) (game : GameData)
    (parsed_objects : List parsed_object) :
    (compile_writeDefraggedEvents ctx game parsed_objects).events_h =
      ctx.license ++ ("namespace enigma\n\x7b\n"
        ++ ( write_event_system_initialize
              (compile_writeDefraggedEvents ctx game parsed_objects).used_events
              (compile_writeDefraggedEvents ctx game parsed_objects).parsed_objects ""
        ++ ( write_game_settings_initialize game ""
        ++ ("  variant ev_perf(int type, int numb)\n  \x7b\n    return ((enigma::event_parent*)(instance_event_iterator->inst))->myevents_perf(type, numb);\n  \x7d\n"
        ++ (write_supercheck_functions
              (compile_writeDefraggedEvents ctx game parsed_objects).used_events ""
        ++ (write_ENIGMA_events ctx game
              (compile_writeDefraggedEvents ctx game parsed_objects).used_events ""
        ++ "\x7d // namespace enigma\n")))))) := by
  have h : (compile_writeDefraggedEvents ctx game parsed_objects).events_h =
      write_events_file ctx game
        (compile_writeDefraggedEvents ctx game parsed_objects).used_events
        (compile_writeDefraggedEvents ctx game parsed_objects).parsed_objects := rfl
  rw [h]
  unfold write_events_file
  simp only []
  rw [write_ENIGMA_events_eq, write_ENIGMA_events_eq _ _ _ "",
    write_supercheck_functions_append,
    write_game_settings_initialize_append,
    write_event_system_initialize_eq, write_event_system_initialize_eq _ _ ""]
  simp only [String.append_assoc, String.empty_append]
  rfl

/-- C15: the driver artifact declares one anchor `event_iter *event_<name>;` for each
entry of `base_methods`, allocates `new event_iter[n]` for their number `n`, and
`event_system_initialize` assigns the anchors, in the same order, the offsets
0, 1, ..., n-1; the names of an index built by insertions are pairwise distinct. -/
theorem anchors_get_distinct_offsets :
    (∀ (ctx : Context) (game : GameData) (parsed_objects : List parsed_object),
      ∃ rest : String,
        (compile_writeDefraggedEvents ctx game parsed_objects).events_h =
          ctx.license ++ ("namespace enigma\n\x7b\n"
            ++ ( write_event_system_initialize
                  (compile_writeDefraggedEvents ctx game parsed_objects).used_events
                  (compile_writeDefraggedEvents ctx game parsed_objects).parsed_objects ""
            ++ rest)))
    ∧ (∀ (used_events : UsedEventIndex) (parsed_objects : List parsed_object)
        (wto : String),
      write_event_system_initialize used_events parsed_objects wto =
        wto ++ (String.join (used_events.base_methods.map
            (fun evfun => "  event_iter *event_" ++ (evfun.1 ++ ";\n")))
          ++ ("  int event_system_initialize()\n  \x7b\n"
          ++ ("    events = new event_iter[" ++ (toString used_events.base_methods.length
          ++ ("]; // Allocated here; not really meant to change.\n"
          ++ ("    objects = new objectid_base["
          ++ (toString (int_wrap (object_high_id parsed_objects + 1))
          ++ ("]; // Allocated here; not really meant to change.\n"
          ++ (String.join ((used_events.base_methods.enumFrom 0).map
            (fun ia => "    event_" ++ (ia.2.1 ++ (" = events + " ++ (toString ia.1
              ++ (";  event_" ++ (ia.2.1 ++ ("->name = \"" ++ (ia.2.2.HumanName
              ++ "\";\n")))))))))
          ++ "    return 0;\n  \x7d\n"))))))))))
    ∧ (∀ used_events : UsedEventIndex,
      (used_events.base_methods.enumFrom 0).map Prod.fst
        = List.range used_events.base_methods.length
      ∧ (used_events.base_methods.enumFrom 0).map (fun ia => ia.2.1)
        = used_events.base_methods.map Prod.fst)
    ∧ (∀ evs : List Event,
      ((evs.foldl UsedEventIndex.insert {}).base_methods.map Prod.fst).Nodup) := by
  refine ⟨fun ctx game parsed_objects => ⟨_, events_h_eq ctx game parsed_objects⟩,
    write_event_system_initialize_eq, ?_, foldl_insert_keys_nodup⟩
  intro used_events
  constructor
  · rw [List.enumFrom_map_fst, List.range_eq_range']
  · have h := List.enumFrom_map_snd 0 used_events.base_methods
    have h2 : (used_events.base_methods.enumFrom 0).map (fun ia => ia.2.1)
        = ((used_events.base_methods.enumFrom 0).map Prod.snd).map Prod.fst := by
      rw [List.map_map]
      rfl
    rw [h2, h]

/-- C16: the declaration artifact forward-declares `void TLINE_<name>_MOMENT_<step>();`
for every moment of every timeline, and `timeline_call_moment_script` is a switch with one
`case <timeline id>` per timeline holding a switch with one `case j` per moment position
`j`, counted from 0 in moment order, that calls the script of that same moment. -/
theorem timeline_moments_declared_and_dispatched (ctx : Context) (game : GameData)
    (parsed_objects : List parsed_object) :
    (compile_writeDefraggedEvents ctx game parsed_objects).evparent_h =
      ctx.license ++ (String.join (game.timelines.map (fun tl =>
          String.join (tl.moments.map (fun m =>
            "void " ++ (moment_function_name tl m ++ "();\n")))))
        ++ ("\n" ++ ("namespace enigma\n\x7b\n  struct event_parent: "
        ++ (ctx.system_get_uppermost_tier ++ ("\n  \x7b\n"
        ++ (String.join ((compile_writeDefraggedEvents ctx game
              parsed_objects).used_events.base_methods.map
              (fun str_ev => write_base_method str_ev.1 str_ev.2 ""))
        ++ (("    virtual void timeline_call_moment_script(int timeline_index, int moment_index) \x7b\n"
          ++ ("      switch (timeline_index) \x7b\n"
          ++ (String.join (game.timelines.map (fun tl =>
                "        case " ++ (toString tl.id ++ (": \x7b\n"
                  ++ ("          switch (moment_index) \x7b\n"
                  ++ (String.join ((tl.moments.enumFrom 0).map (fun jm =>
                        "            case " ++ (toString jm.1 ++ (": \x7b\n"
                          ++ ("              ::" ++ (moment_function_name tl jm.2 ++ ("();\n"
                          ++ ("              break;\n" ++ "            \x7d\n"))))))))
                  ++ ("          \x7d\n" ++ ("        \x7d\n" ++ "        break;\n"))))))))
          ++ ("      \x7d\n" ++ "    \x7d\n"))))
        ++ event_parent_tail ctx))))))) := by
  rw [evparent_h_eq, write_timeline_call_moment_script_eq]
  simp only [String.empty_append]

/-! ## The end-to-end scenario -/

theorem scenario_driver_text :
    write_ENIGMA_events scenario_context injection_game
        (compile_writeDefraggedEvents scenario_context injection_game
          injection_objects).used_events ""
      = "  int ENIGMA_events()\n  \x7b\n    for (instance_event_iterator = event_step->next; instance_event_iterator != NULL; instance_event_iterator = instance_event_iterator->next) \x7b\n      if (((enigma::event_parent*)(instance_event_iterator->inst))->myevent_step_subcheck()) \x7b\n        ((enigma::event_parent*)(instance_event_iterator->inst))->myevent_step();\n      \x7d\n      if (enigma::room_switching_id != -1) goto after_events;\n    \x7d\n    \n    enigma::update_globals();\n    \n    for (instance_event_iterator = event_create->next; instance_event_iterator != NULL; instance_event_iterator = instance_event_iterator->next) \x7b\n        ((enigma::event_parent*)(instance_event_iterator->inst))->myevent_create();\n      if (enigma::room_switching_id != -1) goto after_events;\n    \x7d\n    \n    enigma::update_globals();\n    \n    after_events:\n    enigma::dispose_destroyed_instances();\n    enigma::rooms_switch();\n    enigma::set_room_speed(room_speed);\n    \n    return 0;\n  \x7d // event function\n" := by
  rfl

/-- C18, as stated, fails: in the end-to-end scenario the body of `ENIGMA_events` holds a
`create` loop after the `step` loop, so it is not the `step` loop followed by the
post-processing sequence, with or without the `update_globals` hook in between. -/
theorem scenario_driver_is_not_step_loop_alone :
    write_ENIGMA_events scenario_context injection_game
        (compile_writeDefraggedEvents scenario_context injection_game
          injection_objects).used_events ""
      = "  int ENIGMA_events()\n  \x7b\n    for (instance_event_iterator = event_step->next; instance_event_iterator != NULL; instance_event_iterator = instance_event_iterator->next) \x7b\n      if (((enigma::event_parent*)(instance_event_iterator->inst))->myevent_step_subcheck()) \x7b\n        ((enigma::event_parent*)(instance_event_iterator->inst))->myevent_step();\n      \x7d\n      if (enigma::room_switching_id != -1) goto after_events;\n    \x7d\n    \n    enigma::update_globals();\n    \n    for (instance_event_iterator = event_create->next; instance_event_iterator != NULL; instance_event_iterator = instance_event_iterator->next) \x7b\n        ((enigma::event_parent*)(instance_event_iterator->inst))->myevent_create();\n      if (enigma::room_switching_id != -1) goto after_events;\n    \x7d\n    \n    enigma::update_globals();\n    \n    after_events:\n    enigma::dispose_destroyed_instances();\n    enigma::rooms_switch();\n    enigma::set_room_speed(room_speed);\n    \n    return 0;\n  \x7d // event function\n"
    ∧ write_ENIGMA_events scenario_context injection_game
        (compile_writeDefraggedEvents scenario_context injection_game
          injection_objects).used_events ""
      ≠ "  int ENIGMA_events()\n  \x7b\n" ++ (instance_loop "    " "step" true
          ++ ("    after_events:\n" ++ post_processing injection_game.settings))
    ∧ write_ENIGMA_events scenario_context injection_game
        (compile_writeDefraggedEvents scenario_context injection_game
          injection_objects).used_events ""
      ≠ "  int ENIGMA_events()\n  \x7b\n" ++ (instance_loop "    " "step" true
          ++ (update_globals_hook
          ++ ("    after_events:\n" ++ post_processing injection_game.settings))) := by
  refine ⟨scenario_driver_text, ?_, ?_⟩
  · rw [scenario_driver_text]
    intro h
    exact absurd (congrArg String.length h) (by decide)
  · rw [scenario_driver_text]
    intro h
    exact absurd (congrArg String.length h) (by decide)

/-- C18, amended: in the end-to-end scenario the body of `ENIGMA_events` is the ungated
`step` loop with inner subcheck gating, then the ungated `create` loop without subcheck
gating, each followed by the `update_globals` hook, then the label `after_events:` and the
post-processing sequence. -/
theorem scenario_driver_has_step_and_create_loops :
    (compile_writeDefraggedEvents scenario_context injection_game
        injection_objects).used_events.base_methods.map Prod.fst = ["create", "step"]
    ∧ write_ENIGMA_events scenario_context injection_game
        (compile_writeDefraggedEvents scenario_context injection_game
          injection_objects).used_events ""
      = "  int ENIGMA_events()\n  \x7b\n"
          ++ (instance_loop "    " "step" true ++ (update_globals_hook
          ++ (instance_loop "    " "create" false ++ (update_globals_hook
          ++ ("    after_events:\n" ++ post_processing injection_game.settings))))) := by
  refine ⟨by decide, ?_⟩
  rw [scenario_driver_text]
  rfl

/-! ## Loops in the pretty printer -/

theorem Visitor.print_print (v : Visitor) (a b : String) :
    (v.print a).print b = v.print (a ++ b) := by
  simp [Visitor.print, String.append_assoc]

theorem VISIT_AND_CHECK_assoc (visited : Bool × Visitor) (f : Visitor → Visitor)
    (rest : Visitor → Bool × Visitor) :
    VISIT_AND_CHECK (VISIT_AND_CHECK visited (fun v => (true, f v))) rest =
      VISIT_AND_CHECK visited (fun v => rest (f v)) := by
  obtain ⟨ok, v⟩ := visited
  cases ok <;> simp [VISIT_AND_CHECK]

theorem VisitWhileLoop_until_bare {Node : Type} (base : VisitorBase Node) (c b : Node)
    (v : Visitor) (hbare : base.type c ≠ NodeType.PARENTHETICAL) :
    VisitWhileLoop base ⟨WhileLoopKind.UNTIL, c, b⟩ v =
      VISIT_AND_CHECK (base.Visit c (v.print "while(!(")) (fun sc =>
        VISIT_AND_CHECK (base.Visit b (sc.print ")) ")) (fun sb =>
          (true, base.PrintSemiColon b sb))) := by
  simp [VisitWhileLoop, hbare, Visitor.print_print]

theorem VisitWhileLoop_until_wrapped {Node : Type} (base : VisitorBase Node) (c p b : Node)
    (v : Visitor) (hwrapped : base.type p = NodeType.PARENTHETICAL)
    (hp : ∀ s, base.Visit p s = VisitParenthetical base ⟨some c⟩ s) :
    VisitWhileLoop base ⟨WhileLoopKind.UNTIL, p, b⟩ v =
      VISIT_AND_CHECK (base.Visit c (v.print "while(!(")) (fun sc =>
        VISIT_AND_CHECK (base.Visit b (sc.print ")) ")) (fun sb =>
          (true, base.PrintSemiColon b sb))) := by
  simp [VisitWhileLoop, hwrapped, hp, VisitParenthetical, VISIT_AND_CHECK_assoc,
    Visitor.print_print]

theorem VisitDoLoop_until_bare {Node : Type} (base : VisitorBase Node) (c b : Node)
    (v : Visitor) (hbare : base.type c ≠ NodeType.PARENTHETICAL) :
    VisitDoLoop base ⟨b, c, true⟩ v =
      VISIT_AND_CHECK (base.Visit b
          (if base.type b ≠ NodeType.BLOCK then v.print "do\x7b" else v.print "do")) (fun sb =>
        VISIT_AND_CHECK (base.Visit c
            ((if base.type b ≠ NodeType.BLOCK then (base.PrintSemiColon b sb).print "\x7d"
              else base.PrintSemiColon b sb).print "while(!(")) (fun sc =>
          (true, sc.print "));"))) := by
  by_cases hb : base.type b = NodeType.BLOCK <;>
    simp [VisitDoLoop, hbare, hb, Visitor.print_print]

theorem VisitDoLoop_until_wrapped {Node : Type} (base : VisitorBase Node) (c p b : Node)
    (v : Visitor) (hwrapped : base.type p = NodeType.PARENTHETICAL)
    (hp : ∀ s, base.Visit p s = VisitParenthetical base ⟨some c⟩ s) :
    VisitDoLoop base ⟨b, p, true⟩ v =
      VISIT_AND_CHECK (base.Visit b
          (if base.type b ≠ NodeType.BLOCK then v.print "do\x7b" else v.print "do")) (fun sb =>
        VISIT_AND_CHECK (base.Visit c
            ((if base.type b ≠ NodeType.BLOCK then (base.PrintSemiColon b sb).print "\x7d"
              else base.PrintSemiColon b sb).print "while(!(")) (fun sc =>
          (true, sc.print "));"))) := by
  by_cases hb : base.type b = NodeType.BLOCK <;>
    simp [VisitDoLoop, hwrapped, hp, hb, VisitParenthetical, VISIT_AND_CHECK_assoc,
      Visitor.print_print]

/-- C19: an until-kind loop prints the negation of its condition.  `VisitWhileLoop` prints
`while(!(`, visits the condition `c`, prints `)) ` and visits the body; `VisitDoLoop`
prints `while(!(` after the body, visits `c` and prints `));`.  Both do exactly the same
when the condition is the Parenthetical node `p` around `c` instead of `c` itself. -/
theorem until_loop_prints_negated_condition {Node : Type} (base : VisitorBase Node)
    (c p b : Node) (v : Visitor)
    (hbare : base.type c ≠ NodeType.PARENTHETICAL)
    (hwrapped : base.type p = NodeType.PARENTHETICAL)
    (hp : ∀ s, base.Visit p s = VisitParenthetical base ⟨some c⟩ s) :
    VisitWhileLoop base ⟨WhileLoopKind.UNTIL, c, b⟩ v =
        VISIT_AND_CHECK (base.Visit c (v.print "while(!(")) (fun sc =>
          VISIT_AND_CHECK (base.Visit b (sc.print ")) ")) (fun sb =>
            (true, base.PrintSemiColon b sb)))
    ∧ VisitWhileLoop base ⟨WhileLoopKind.UNTIL, p, b⟩ v =
        VisitWhileLoop base ⟨WhileLoopKind.UNTIL, c, b⟩ v
    ∧ VisitDoLoop base ⟨b, c, true⟩ v =
        VISIT_AND_CHECK (base.Visit b
            (if base.type b ≠ NodeType.BLOCK then v.print "do\x7b" else v.print "do"))
          (fun sb =>
            VISIT_AND_CHECK (base.Visit c
                ((if base.type b ≠ NodeType.BLOCK then (base.PrintSemiColon b sb).print "\x7d"
                  else base.PrintSemiColon b sb).print "while(!(")) (fun sc =>
              (true, sc.print "));")))
    ∧ VisitDoLoop base ⟨b, p, true⟩ v = VisitDoLoop base ⟨b, c, true⟩ v := by
  refine ⟨VisitWhileLoop_until_bare base c b v hbare, ?_,
    VisitDoLoop_until_bare base c b v hbare, ?_⟩
  · rw [VisitWhileLoop_until_wrapped base c p b v hwrapped hp,
      VisitWhileLoop_until_bare base c b v hbare]
  · rw [VisitDoLoop_until_wrapped base c p b v hwrapped hp,
      VisitDoLoop_until_bare base c b v hbare]

/-- C19 at the condition `done`, bare and in parentheses, with an empty block as body:
both loops print `while(!(done))`. -/
theorem until_loop_prints_negated_condition_witness :
    sample_base.type (SampleNode.identifier "done") ≠ NodeType.PARENTHETICAL
    ∧ sample_base.type (SampleNode.parenthetical (SampleNode.identifier "done"))
        = NodeType.PARENTHETICAL
    ∧ (∀ s, sample_base.Visit (SampleNode.parenthetical (SampleNode.identifier "done")) s
        = VisitParenthetical sample_base ⟨some (SampleNode.identifier "done")⟩ s)
    ∧ VisitWhileLoop sample_base
        ⟨WhileLoopKind.UNTIL, SampleNode.identifier "done", SampleNode.block⟩ ⟨"", false⟩
        = (true, ⟨"while(!(done)) \x7b\x7d", false⟩)
    ∧ VisitWhileLoop sample_base
        ⟨WhileLoopKind.UNTIL, SampleNode.parenthetical (SampleNode.identifier "done"),
          SampleNode.block⟩ ⟨"", false⟩
        = (true, ⟨"while(!(done)) \x7b\x7d", false⟩)
    ∧ VisitDoLoop sample_base
        ⟨SampleNode.block, SampleNode.identifier "done", true⟩ ⟨"", false⟩
        = (true, ⟨"do\x7b\x7dwhile(!(done));", false⟩)
    ∧ VisitDoLoop sample_base
        ⟨SampleNode.block, SampleNode.parenthetical (SampleNode.identifier "done"), true⟩
          ⟨"", false⟩
        = (true, ⟨"do\x7b\x7dwhile(!(done));", false⟩) :=
  have h := until_loop_prints_negated_condition sample_base (SampleNode.identifier "done")
    (SampleNode.parenthetical (SampleNode.identifier "done")) SampleNode.block ⟨"", false⟩
    (by decide) rfl (fun _ => rfl)
  ⟨by decide, rfl, fun _ => rfl, h.1.trans (by rfl), (h.2.1.trans h.1).trans (by rfl),
    h.2.2.1.trans (by rfl), (h.2.2.2.trans h.2.2.1).trans (by rfl)⟩

/-- C20: for a repeat-kind loop `VisitWhileLoop` prints `int strange_name = `, visits the
count expression, prints `; while(strange_name--) `, visits the body and lets
`PrintSemiColon` end it; neither text it prints holds the word `repeat`.  For the count
`n` and an empty block it prints `int strange_name = n; while(strange_name--) {}`. -/
theorem repeat_loop_is_rewritten {Node : Type} (base : VisitorBase Node) (n b : Node)
    (v : Visitor) :
    VisitWhileLoop base ⟨WhileLoopKind.REPEAT, n, b⟩ v =
        VISIT_AND_CHECK (base.Visit n (v.print "int strange_name = ")) (fun sn =>
          VISIT_AND_CHECK (base.Visit b (sn.print "; while(strange_name--) ")) (fun sb =>
            (true, base.PrintSemiColon b sb)))
    ∧ ¬ ("repeat".data <:+: "int strange_name = ".data)
    ∧ ¬ ("repeat".data <:+: "; while(strange_name--) ".data)
    ∧ VisitWhileLoop sample_base
        ⟨WhileLoopKind.REPEAT, SampleNode.identifier "n", SampleNode.block⟩ ⟨"", false⟩
        = (true, ⟨"int strange_name = n; while(strange_name--) \x7b\x7d", false⟩) := by
  refine ⟨?_, by decide, by decide, by rfl⟩
  simp [VisitWhileLoop, Visitor.print_print]

/-! ## Finding a value in a JSON text -/

theorem string_find_first (pattern pre tail : List Char)
    (hfirst : ∀ i, i < pre.length → ¬ pattern <+: (pre ++ (pattern ++ tail)).drop i) :
    string_find pattern (pre ++ (pattern ++ tail)) = some pre.length := by
  induction pre with
  | nil =>
    simp only [List.nil_append, List.length_nil]
    cases h : pattern ++ tail with
    | nil =>
      have hp : pattern = [] := (List.append_eq_nil.mp h).1
      simp [string_find, hp]
    | cons c cs =>
      have hpre : pattern.isPrefixOf (c :: cs) = true := by
        rw [← h]
        exact List.isPrefixOf_iff_prefix.mpr (List.prefix_append pattern tail)
      simp [string_find, hpre]
  | cons p ps ih =>
    have h0 : ¬ pattern <+: (p :: ps ++ (pattern ++ tail)) := by
      simpa using hfirst 0 (by simp)
    have h0' : pattern.isPrefixOf (p :: (ps ++ (pattern ++ tail))) = false := by
      cases hb : pattern.isPrefixOf (p :: (ps ++ (pattern ++ tail))) with
      | false => rfl
      | true => exact absurd (List.isPrefixOf_iff_prefix.mp hb) h0
    have ih' := ih (fun i hi => by
      have := hfirst (i + 1) (by simp; omega)
      simpa using this)
    simp [string_find, h0', ih']

theorem string_find_none (pattern s : List Char)
    (hnone : ∀ i, ¬ pattern <+: s.drop i) :
    string_find pattern s = none := by
  induction s with
  | nil =>
    have h0 := hnone 0
    simp only [List.drop_nil] at h0
    have hp : pattern ≠ [] := by
      intro hp
      exact h0 (hp ▸ List.prefix_refl _)
    simp [string_find, hp]
  | cons c cs ih =>
    have h0 : ¬ pattern <+: (c :: cs) := by simpa using hnone 0
    have h0' : pattern.isPrefixOf (c :: cs) = false := by
      cases hb : pattern.isPrefixOf (c :: cs) with
      | false => rfl
      | true => exact absurd (List.isPrefixOf_iff_prefix.mp hb) h0
    have ih' := ih (fun i => by simpa using hnone (i + 1))
    simp [string_find, h0', ih']

theorem first_of_stop (chars v : List Char) (d : Char) (rest : List Char)
    (hv : ∀ c ∈ v, c ∉ chars) (hd : d ∈ chars) :
    first_of chars (v ++ d :: rest) = some v.length := by
  induction v with
  | nil => simp [first_of, hd]
  | cons c cs ih =>
    have hc := hv c (List.mem_cons_self c cs)
    have ih' := ih (fun c' hc' => hv c' (List.mem_cons_of_mem c hc'))
    simp [first_of, hc, ih']

theorem first_of_none (chars v : List Char)
    (hv : ∀ c ∈ v, c ∉ chars) :
    first_of chars v = none := by
  induction v with
  | nil => rfl
  | cons c cs ih =>
    have hc := hv c (List.mem_cons_self c cs)
    have ih' := ih (fun c' hc' => hv c' (List.mem_cons_of_mem c hc'))
    simp [first_of, hc, ih']

theorem json_key_pattern_length (key : String) :
    (("\"" ++ key ++ "\":").data).length = key.length + 3 := by
  rw [String.data_append, String.data_append, List.length_append, List.length_append]
  show 1 + key.data.length + 2 = key.data.length + 3
  omega

theorem json_find_value_found (pre key v rest : String) (d : Char)
    (hfirst : ∀ i, i < pre.length →
      ¬ ("\"" ++ key ++ "\":").data <+:
        (pre ++ ("\"" ++ key ++ "\":") ++ v ++ String.singleton d ++ rest).data.drop i)
    (hv : ',' ∉ v.data ∧ '}' ∉ v.data) (hd : d = ',' ∨ d = '}') :
    json_find_value (pre ++ ("\"" ++ key ++ "\":") ++ v ++ String.singleton d ++ rest) key
      = v := by
  have hdata : (pre ++ ("\"" ++ key ++ "\":") ++ v ++ String.singleton d ++ rest).data
      = pre.data ++ (("\"" ++ key ++ "\":").data ++ (v.data ++ d :: rest.data)) := by
    simp [String.data_append, String.singleton]
  have hfind := string_find_first ("\"" ++ key ++ "\":").data pre.data
    (v.data ++ d :: rest.data) (fun i hi => by
      have := hfirst i hi
      rwa [hdata] at this)
  have hdrop : (pre.data ++ (("\"" ++ key ++ "\":").data ++ (v.data ++ d :: rest.data))).drop
      (pre.data.length + (key.length + 3)) = v.data ++ d :: rest.data := by
    rw [← json_key_pattern_length key, ← List.append_assoc, ← List.length_append]
    exact List.drop_left _ _
  have hstop : first_of [',', '}'] (v.data ++ d :: rest.data) = some v.data.length := by
    apply first_of_stop
    · intro c hc hmem
      simp only [List.mem_cons, List.mem_singleton, List.not_mem_nil, or_false] at hmem
      rcases hmem with h | h
      · exact hv.1 (h ▸ hc)
      · exact hv.2 (h ▸ hc)
    · rcases hd with h | h <;> simp [h]
  unfold json_find_value
  rw [hdata, hfind]
  simp only [string_find_first_of, string_substr, hdrop, hstop, Option.map_some']
  apply String.ext
  simp

theorem json_find_value_absent (json key : String)
    (habsent : ∀ i, ¬ ("\"" ++ key ++ "\":").data <+: json.data.drop i) :
    json_find_value json key = "" := by
  unfold json_find_value
  rw [string_find_none _ _ habsent]

theorem json_find_value_unterminated (pre key tail : String)
    (hfirst : ∀ i, i < pre.length →
      ¬ ("\"" ++ key ++ "\":").data <+:
        (pre ++ ("\"" ++ key ++ "\":") ++ tail).data.drop i)
    (htail : ',' ∉ tail.data ∧ '}' ∉ tail.data) :
    json_find_value (pre ++ ("\"" ++ key ++ "\":") ++ tail) key = "" := by
  have hdata : (pre ++ ("\"" ++ key ++ "\":") ++ tail).data
      = pre.data ++ (("\"" ++ key ++ "\":").data ++ tail.data) := by
    simp [String.data_append]
  have hfind := string_find_first ("\"" ++ key ++ "\":").data pre.data tail.data
    (fun i hi => by
      have := hfirst i hi
      rwa [hdata] at this)
  have hdrop : (pre.data ++ (("\"" ++ key ++ "\":").data ++ tail.data)).drop
      (pre.data.length + (key.length + 3)) = tail.data := by
    rw [← json_key_pattern_length key, ← List.append_assoc, ← List.length_append]
    exact List.drop_left _ _
  have hnone : first_of [',', '}'] tail.data = none := by
    apply first_of_none
    intro c hc hmem
    simp only [List.mem_cons, List.mem_singleton, List.not_mem_nil, or_false] at hmem
    rcases hmem with h | h
    · exact htail.1 (h ▸ hc)
    · exact htail.2 (h ▸ hc)
  unfold json_find_value
  rw [hdata, hfind]
  simp only [string_find_first_of, hdrop, hnone, Option.map_none']

/-- C30: with `"<key>":` first occurring right after `pre`, followed by a text `v` without
`,` and `}` and then by `,` or `}`, `json_find_value` returns exactly `v`; when the text
holds no `"<key>":`, or no `,` and no `}` comes after its first occurrence, the result is
the empty string. -/
theorem json_find_value_finds_first_value :
    (∀ (pre key v rest : String) (d : Char),
      (∀ i, i < pre.length →
        ¬ ("\"" ++ key ++ "\":").data <+:
          (pre ++ ("\"" ++ key ++ "\":") ++ v ++ String.singleton d ++ rest).data.drop i) →
      (',' ∉ v.data ∧ '}' ∉ v.data) → (d = ',' ∨ d = '}') →
      json_find_value
        (pre ++ ("\"" ++ key ++ "\":") ++ v ++ String.singleton d ++ rest) key = v)
    ∧ (∀ json key : String,
      (∀ i, ¬ ("\"" ++ key ++ "\":").data <+: json.data.drop i) →
      json_find_value json key = "")
    ∧ (∀ pre key tail : String,
      (∀ i, i < pre.length →
        ¬ ("\"" ++ key ++ "\":").data <+:
          (pre ++ ("\"" ++ key ++ "\":") ++ tail).data.drop i) →
      (',' ∉ tail.data ∧ '}' ∉ tail.data) →
      json_find_value (pre ++ ("\"" ++ key ++ "\":") ++ tail) key = "") :=
  ⟨json_find_value_found, json_find_value_absent, json_find_value_unterminated⟩

/-- C30 at the text `{"id":5,"name":"x"}`: the value of `id` is `5`, and the value of
`name` in the unterminated text `{"name":"x"` is empty. -/
theorem json_find_value_finds_first_value_witness :
    json_find_value ("\x7b" ++ ("\"" ++ "id" ++ "\":") ++ "5" ++ String.singleton ','
        ++ "\"name\":\"x\"\x7d") "id" = "5"
    ∧ json_find_value ("\x7b" ++ ("\"" ++ "name" ++ "\":") ++ "\"x\"") "name" = "" :=
  ⟨json_find_value_finds_first_value.1 "\x7b" "id" "5" "\"name\":\"x\"\x7d" ','
      (by decide) (by decide) (Or.inl rfl),
    json_find_value_finds_first_value.2.2 "\x7b" "name" "\"x\""
      (by decide) (by decide)⟩

/-! ## Types: flags, declarators and casts -/

theorem Visitor.print_empty (v : Visitor) : v.print "" = v := by
  cases v
  simp [Visitor.print]

theorem foldl_print_filter {α : Type} (P : α → Bool) (w : α → String) (l : List α)
    (v : Visitor) :
    l.foldl (fun v e => if P e then v.print (w e) else v) v
      = v.print (String.join ((l.filter P).map w)) := by
  induction l generalizing v with
  | nil => simp [String.join, Visitor.print_empty]
  | cons a l ih =>
    rw [List.foldl_cons, ih]
    by_cases h : P a = true
    · simp [h, List.filter_cons, string_join_cons, Visitor.print_print]
    · simp [h, List.filter_cons]

theorem print_type_flags_eq (ft : FullType) (table : List (builtin_flag × String))
    (v : Visitor) :
    print_type_flags ft (table.map (fun f => f.1.value)) (table.map (fun f => f.1.mask))
        (table.map (fun f => f.2)) v
      = v.print (String.join ((table.filter (fun f =>
          decide ((ft.flags &&& f.1.mask) = f.1.value ∧
            (f.2 = "signed" → ft.def_name = "char")))).map (fun f => f.2 ++ " "))) := by
  rw [← foldl_print_filter]
  unfold print_type_flags
  induction table generalizing v with
  | nil => rfl
  | cons f table ih =>
    simp only [List.map_cons, List.zip_cons_cons, List.foldl_cons]
    rw [ih]
    congr 1
    by_cases h1 : (ft.flags &&& f.1.mask) = f.1.value
    · by_cases h2 : f.2 = "signed"
      · by_cases h3 : ft.def_name = "char" <;> simp [h1, h2, h3]
      · simp [h1, h2]
    · simp [h1]

theorem VisitFullType_with_type (jdi : jdi_builtins) (ft : FullType) (v : Visitor) :
    VisitFullType jdi ft true v
      = VisitFullType jdi ft false
          (v.print (String.join (((flag_table jdi).filter (fun f =>
              decide ((ft.flags &&& f.1.mask) = f.1.value ∧
                (f.2 = "signed" → ft.def_name = "char")))).map (fun f => f.2 ++ " "))
            ++ (ft.def_name ++ " "))) := by
  have h := print_type_flags_eq ft (flag_table jdi) v
  simp only [flag_table, List.map_cons, List.map_nil] at h
  rw [← Visitor.print_print]
  simp only [flag_table]
  rw [← h]
  simp [VisitFullType]


/-- Claim C22. A type printed with its type shows, before the name of the base type and
in the order of the flag table, the word of every flag that is set in it
(`flags & mask == value`), except that `signed` is shown only when the base type is named
`char`; the declarator follows. With the example flags, where `signed` is the bit of
`unsigned` being clear, a constant `int` prints `const int ` and a constant `char` prints
`const signed char `. -/
theorem signed_flag_is_printed_for_char_only :
    (∀ (jdi : jdi_builtins) (ft : FullType) (v : Visitor),
      VisitFullType jdi ft true v
        = VisitFullType jdi ft false
            (v.print (String.join (((flag_table jdi).filter (fun f =>
                decide ((ft.flags &&& f.1.mask) = f.1.value ∧
                  (f.2 = "signed" → ft.def_name = "char")))).map (fun f => f.2 ++ " "))
              ++ (ft.def_name ++ " ")))) ∧
    flag_table example_builtins
      = [(⟨1, 1⟩, "const"), (⟨2, 2⟩, "static"), (⟨4, 4⟩, "volatile"), (⟨8, 8⟩, "mutable"),
         (⟨16, 16⟩, "register"), (⟨32, 32⟩, "inline"), (⟨64, 64⟩, "complex"),
         (⟨128, 128⟩, "unsigned"), (⟨0, 128⟩, "signed"), (⟨256, 256⟩, "short"),
         (⟨512, 1536⟩, "long"), (⟨1536, 1536⟩, "long long"), (⟨2048, 2048⟩, "restrict"),
         (⟨4096, 4096⟩, "override"), (⟨8192, 8192⟩, "final")] ∧
    VisitFullType example_builtins
        { flags := 1, def_name := "int", decl_name := "", components_size := 0,
          ref_stack := [] } true ⟨"", false⟩
      = (true, ⟨"const int ", false⟩) ∧
    VisitFullType example_builtins
        { flags := 1, def_name := "char", decl_name := "", components_size := 0,
          ref_stack := [] } true ⟨"", false⟩
      = (true, ⟨"const signed char ", false⟩) :=
  ⟨VisitFullType_with_type, rfl, by decide, by decide⟩


theorem ref_walk_append (name : String) (pre post : List ref_node) (st : RefWalk) :
    ref_walk name (pre ++ post) st = ref_walk name post (ref_walk name pre st) := by
  simp [ref_walk, List.foldl_append]

theorem ref_walk_step_print_name (name : String) (st : RefWalk) (it : ref_node) :
    (ref_walk_step name st it).print_name = false := by
  unfold ref_walk_step
  by_cases h1 : it.type = ref_type.RT_POINTERTO
  · by_cases hp : st.print_name = true <;> simp [h1, hp]
  · by_cases h2 : it.type = ref_type.RT_REFERENCE
    · by_cases hp : st.print_name = true <;> simp [h1, h2, hp]
    · by_cases h3 : it.type = ref_type.RT_ARRAYBOUND
      · by_cases hp : st.print_name = true <;> by_cases hf : st.flag = true <;>
          by_cases hn : it.arraysize = 0 <;> simp [h1, h2, h3, hp, hf, hn]
      · by_cases hp : st.print_name = true <;> simp [h1, h2, h3, hp]

theorem ref_walk_step_flag (name : String) (st : RefWalk) (it : ref_node) :
    (ref_walk_step name st it).flag
      = decide (it.type = ref_type.RT_POINTERTO ∨ it.type = ref_type.RT_REFERENCE) := by
  unfold ref_walk_step
  by_cases h1 : it.type = ref_type.RT_POINTERTO
  · by_cases hp : st.print_name = true <;> by_cases hn : name = "" <;> simp [h1, hp, hn]
  · by_cases h2 : it.type = ref_type.RT_REFERENCE
    · by_cases hp : st.print_name = true <;> by_cases hn : name = "" <;>
        simp [h1, h2, hp, hn]
    · by_cases h3 : it.type = ref_type.RT_ARRAYBOUND
      · by_cases hp : st.print_name = true <;> by_cases hf : st.flag = true <;>
          by_cases hn : it.arraysize = 0 <;> by_cases hm : name = "" <;>
          simp [h1, h2, h3, hp, hf, hn, hm]
      · by_cases hp : st.print_name = true <;> by_cases hn : name = "" <;>
          simp [h1, h2, h3, hp, hn]

theorem ref_walk_print_name (name : String) (stack : List ref_node) (st : RefWalk)
    (h : st.print_name = false) : (ref_walk name stack st).print_name = false := by
  induction stack generalizing st with
  | nil => simpa [ref_walk] using h
  | cons it stack ih =>
    have := ih (ref_walk_step name st it) (ref_walk_step_print_name name st it)
    simpa [ref_walk] using this

theorem ref_walk_flag_last (name : String) (pre : List ref_node) (prev : ref_node)
    (st : RefWalk) :
    (ref_walk name (pre ++ [prev]) st).flag
      = decide (prev.type = ref_type.RT_POINTERTO ∨ prev.type = ref_type.RT_REFERENCE) := by
  rw [ref_walk_append]
  simp only [ref_walk, List.foldl_cons, List.foldl_nil]
  exact ref_walk_step_flag name _ prev

theorem ref_walk_step_bound (name : String) (st : RefWalk) (n : Nat)
    (h : st.print_name = false) :
    (ref_walk_step name st ⟨ref_type.RT_ARRAYBOUND, n⟩).ref
      = (if st.flag then "(" ++ st.ref ++ ")" else st.ref)
          ++ (if n ≠ 0 then "[" ++ toString n ++ "]" else "[]") := by
  unfold ref_walk_step
  by_cases hf : st.flag = true <;> by_cases hn : n = 0 <;> simp [h, hf, hn]

theorem ref_walk_step_prefix (name : String) (st : RefWalk) (it : ref_node)
    (h : st.print_name = false)
    (hit : it.type = ref_type.RT_POINTERTO ∨ it.type = ref_type.RT_REFERENCE) :
    (ref_walk_step name st it).ref
      = (if it.type = ref_type.RT_POINTERTO then "*" else "&") ++ st.ref := by
  unfold ref_walk_step
  rcases hit with hit | hit <;> simp [h, hit]


/-- Claim C23. In the walk of `VisitFullType` over a ref-stack, an array bound that comes
directly after a layer `prev` puts the text accumulated so far in one pair of parentheses
exactly when `prev` is a pointer or a reference, and then appends its bound, `[]` for the
size 0; an array bound that comes first appends its bound to the name without
parentheses, and a pointer or a reference only puts `*` or `&` in front. For the name
`x`, the stack pointer, array 3 prints `(*x)[3]`, the stack array 3, pointer prints
`*x[3]`, the stack array 2, array 3 prints `x[2][3]` and an array of size 0 `x[]`. -/
theorem array_bound_after_pointer_is_parenthesized :
    (∀ (name : String) (pre : List ref_node) (prev : ref_node) (n : Nat) (st : RefWalk),
      (ref_walk name (pre ++ [prev, ⟨ref_type.RT_ARRAYBOUND, n⟩]) st).ref
        = (if prev.type = ref_type.RT_POINTERTO ∨ prev.type = ref_type.RT_REFERENCE then
            "(" ++ (ref_walk name (pre ++ [prev]) st).ref ++ ")"
          else (ref_walk name (pre ++ [prev]) st).ref)
          ++ (if n ≠ 0 then "[" ++ toString n ++ "]" else "[]")) ∧
    (∀ (name : String) (n : Nat) (v : Visitor),
      (ref_walk name [⟨ref_type.RT_ARRAYBOUND, n⟩]
          { ref := "", flag := false, print_name := true, visitor := v }).ref
        = name ++ (if n ≠ 0 then "[" ++ toString n ++ "]" else "[]")) ∧
    (∀ (name : String) (pre : List ref_node) (prev it : ref_node) (st : RefWalk),
      it.type = ref_type.RT_POINTERTO ∨ it.type = ref_type.RT_REFERENCE →
      (ref_walk name (pre ++ [prev, it]) st).ref
        = (if it.type = ref_type.RT_POINTERTO then "*" else "&")
            ++ (ref_walk name (pre ++ [prev]) st).ref) ∧
    VisitFullType example_builtins
        { flags := 0, def_name := "int", decl_name := "x", components_size := 2,
          ref_stack := [⟨ref_type.RT_POINTERTO, 0⟩, ⟨ref_type.RT_ARRAYBOUND, 3⟩] }
        false ⟨"", false⟩
      = (true, ⟨"(*x)[3]", false⟩) ∧
    VisitFullType example_builtins
        { flags := 0, def_name := "int", decl_name := "x", components_size := 2,
          ref_stack := [⟨ref_type.RT_ARRAYBOUND, 3⟩, ⟨ref_type.RT_POINTERTO, 0⟩] }
        false ⟨"", false⟩
      = (true, ⟨"*x[3]", false⟩) ∧
    VisitFullType example_builtins
        { flags := 0, def_name := "int", decl_name := "x", components_size := 2,
          ref_stack := [⟨ref_type.RT_ARRAYBOUND, 2⟩, ⟨ref_type.RT_ARRAYBOUND, 3⟩] }
        false ⟨"", false⟩
      = (true, ⟨"x[2][3]", false⟩) ∧
    VisitFullType example_builtins
        { flags := 0, def_name := "int", decl_name := "x", components_size := 1,
          ref_stack := [⟨ref_type.RT_ARRAYBOUND, 0⟩] }
        false ⟨"", false⟩
      = (true, ⟨"x[]", false⟩) := by
  refine ⟨?_, ?_, ?_, by rfl, by rfl, by rfl, by rfl⟩
  · intro name pre prev n st
    have happ : pre ++ [prev, ⟨ref_type.RT_ARRAYBOUND, n⟩]
        = (pre ++ [prev]) ++ [⟨ref_type.RT_ARRAYBOUND, n⟩] := by simp
    have hstep : ref_walk name [(⟨ref_type.RT_ARRAYBOUND, n⟩ : ref_node)]
        (ref_walk name (pre ++ [prev]) st)
        = ref_walk_step name (ref_walk name (pre ++ [prev]) st)
            ⟨ref_type.RT_ARRAYBOUND, n⟩ := rfl
    have hpn : (ref_walk name (pre ++ [prev]) st).print_name = false := by
      rw [ref_walk_append]
      exact ref_walk_step_print_name name _ prev
    rw [happ, ref_walk_append, hstep, ref_walk_step_bound name _ n hpn,
      ref_walk_flag_last]
    by_cases h : prev.type = ref_type.RT_POINTERTO ∨ prev.type = ref_type.RT_REFERENCE <;>
      simp [h]
  · intro name n v
    by_cases hn : n = 0 <;> by_cases hm : name = "" <;>
      simp [ref_walk, ref_walk_step, hn, hm]
  · intro name pre prev it st hit
    have happ : pre ++ [prev, it] = (pre ++ [prev]) ++ [it] := by simp
    have hstep : ref_walk name [it] (ref_walk name (pre ++ [prev]) st)
        = ref_walk_step name (ref_walk name (pre ++ [prev]) st) it := rfl
    have hpn : (ref_walk name (pre ++ [prev]) st).print_name = false := by
      rw [ref_walk_append]
      exact ref_walk_step_print_name name _ prev
    rw [happ, ref_walk_append, hstep, ref_walk_step_prefix name _ it hpn hit]


theorem ref_walk_name_irrelevant (name other : String) (stack : List ref_node)
    (st : RefWalk) (h : st.print_name = false) :
    ref_walk name stack st = ref_walk other stack st := by
  induction stack generalizing st with
  | nil => rfl
  | cons it stack ih =>
    have hstep : ref_walk_step name st it = ref_walk_step other st it := by
      unfold ref_walk_step
      by_cases h1 : it.type = ref_type.RT_POINTERTO
      · simp [h1, h]
      · by_cases h2 : it.type = ref_type.RT_REFERENCE
        · simp [h1, h2, h]
        · by_cases h3 : it.type = ref_type.RT_ARRAYBOUND
          · by_cases hf : st.flag = true <;> by_cases hn : it.arraysize = 0 <;>
              simp [h1, h2, h3, h, hf, hn]
          · simp [h1, h2, h3, h]
    have := ih (ref_walk_step name st it) (ref_walk_step_print_name name st it)
    simp only [ref_walk, List.foldl_cons] at this ⊢
    rw [this, hstep]

/-- The declared name under the assumption that the declarator has components exactly
when its ref-stack has layers, a relation that `to_jdi_refstack` decides. Without layers
the name is printed followed by a space. With layers nothing is printed before the walk,
the name is spliced in at the first layer, in front of the bound of an array bound and
after the `*` or `&` of a pointer or a reference, and the later layers are walked as they
are for a type without a name. -/
theorem name_spliced_at_first_layer_of_matching_stack (jdi : jdi_builtins) (ft : FullType) (v : Visitor)
    (hname : ft.decl_name ≠ "")
    (hshape : ft.components_size = 0 ↔ ft.ref_stack = []) :
    (ft.ref_stack = [] →
      VisitFullType jdi ft false v = (true, v.print (ft.decl_name ++ " "))) ∧
    (∀ (first : ref_node) (rest : List ref_node), ft.ref_stack = first :: rest →
      (ref_walk_step ft.decl_name
          { ref := "", flag := false, print_name := true, visitor := v } first).ref
        = (if first.type = ref_type.RT_ARRAYBOUND then
            ft.decl_name ++ (if first.arraysize ≠ 0 then
              "[" ++ toString first.arraysize ++ "]" else "[]")
          else if first.type = ref_type.RT_POINTERTO then "*" ++ ft.decl_name
          else if first.type = ref_type.RT_REFERENCE then "&" ++ ft.decl_name
          else ft.decl_name) ∧
      VisitFullType jdi ft false v
        = (true,
            (ref_walk "" rest (ref_walk_step ft.decl_name
              { ref := "", flag := false, print_name := true, visitor := v }
              first)).visitor.print
            (ref_walk "" rest (ref_walk_step ft.decl_name
              { ref := "", flag := false, print_name := true, visitor := v }
              first)).ref)) := by
  constructor
  · intro hnil
    have hc : ft.components_size = 0 := hshape.mpr hnil
    simp [VisitFullType, hname, hc, hnil, ref_walk, Visitor.print_print]
  · intro first rest hcons
    have hc : ft.components_size ≠ 0 := by
      intro h0
      rw [hshape.mp h0] at hcons
      exact List.noConfusion hcons
    constructor
    · unfold ref_walk_step
      by_cases h3 : first.type = ref_type.RT_ARRAYBOUND
      · by_cases hn : first.arraysize = 0 <;> simp [h3, hn, hname]
      · by_cases h1 : first.type = ref_type.RT_POINTERTO
        · simp [h1, hname]
        · by_cases h2 : first.type = ref_type.RT_REFERENCE
          · simp [h2, hname]
          · simp [h1, h2, h3, hname]
    · have hirr := ref_walk_name_irrelevant ft.decl_name "" rest
        (ref_walk_step ft.decl_name
          { ref := "", flag := false, print_name := true, visitor := v } first)
        (ref_walk_step_print_name _ _ _)
      rw [← hirr]
      simp [VisitFullType, hc, hcons, ref_walk]

/-- The declarator `*x` and the plain name `x`. -/
theorem name_spliced_at_first_layer_example :
    VisitFullType example_builtins
        { flags := 0, def_name := "int", decl_name := "x", components_size := 0,
          ref_stack := [] } false ⟨"", false⟩
      = (true, ⟨"x ", false⟩) ∧
    VisitFullType example_builtins
        { flags := 0, def_name := "int", decl_name := "x", components_size := 1,
          ref_stack := [⟨ref_type.RT_POINTERTO, 0⟩] } false ⟨"", false⟩
      = (true, ⟨"*x", false⟩) := by
  constructor
  · exact (name_spliced_at_first_layer_of_matching_stack example_builtins
      { flags := 0, def_name := "int", decl_name := "x", components_size := 0,
        ref_stack := [] } ⟨"", false⟩ (by decide) (by decide)).1 rfl
  · exact ((name_spliced_at_first_layer_of_matching_stack example_builtins
      { flags := 0, def_name := "int", decl_name := "x", components_size := 1,
        ref_stack := [⟨ref_type.RT_POINTERTO, 0⟩] } ⟨"", false⟩ (by decide) (by decide)).2
      ⟨ref_type.RT_POINTERTO, 0⟩ [] rfl).2

/-- Claim C27. The function `VisitFullType` returns true for every type, and for a layer
that is neither a pointer, a reference nor an array bound it prints the placeholder
`RT_MEMBER_POINTER`: the member pointer `x` prints `RT_MEMBER_POINTERx`. -/
theorem member_pointer_prints_placeholder :
    (∀ (jdi : jdi_builtins) (ft : FullType) (print_type : Bool) (v : Visitor),
      (VisitFullType jdi ft print_type v).1 = true) ∧
    VisitFullType example_builtins
        { flags := 0, def_name := "int", decl_name := "x", components_size := 1,
          ref_stack := [⟨ref_type.RT_MEMBER_POINTER, 0⟩] } false ⟨"", false⟩
      = (true, ⟨"RT_MEMBER_POINTERx", false⟩) :=
  ⟨fun _ _ _ _ => rfl, by rfl⟩


theorem VisitFullType_fst (jdi : jdi_builtins) (ft : FullType) (print_type : Bool)
    (v : Visitor) : (VisitFullType jdi ft print_type v).1 = true := rfl

theorem VISIT_AND_CHECK_VisitFullType (jdi : jdi_builtins) (ft : FullType)
    (print_type : Bool) (v : Visitor) (rest : Visitor → Bool × Visitor) :
    VISIT_AND_CHECK (VisitFullType jdi ft print_type v) rest
      = rest (VisitFullType jdi ft print_type v).2 := by
  simp [VISIT_AND_CHECK, VisitFullType_fst]

/-- Claim C21. A cast of the type `ft` on the operand `e` prints, by its kind: the type
text, `(`, the operand, `)` for a functional cast; `(`, the type text, `)`, the operand
for a C-style cast; and `static_cast<`, `dynamic_cast<`, `const_cast<` or
`reinterpret_cast<`, the type text, `>(`, the operand, `)` for the four named kinds; the
type text is what `VisitFullType` prints for `ft` with its type. A functional cast to
`int` of the identifier `x` prints `int (x)`, the type text being `int ` with its
space. -/
theorem cast_prints_type_and_operand_by_kind :
    (∀ {Node : Type} (jdi : jdi_builtins) (base : VisitorBase Node) (ft : FullType)
        (e : Node) (v : Visitor),
      VisitCastExpression jdi base ⟨CastKind.FUNCTIONAL, ft, some e⟩ v
        = VISIT_AND_CHECK (base.Visit e ((VisitFullType jdi ft true v).2.print "("))
            (fun v => (true, v.print ")")) ∧
      VisitCastExpression jdi base ⟨CastKind.C_STYLE, ft, some e⟩ v
        = VISIT_AND_CHECK
            (base.Visit e ((VisitFullType jdi ft true (v.print "(")).2.print ")"))
            (fun v => (true, v)) ∧
      VisitCastExpression jdi base ⟨CastKind.STATIC, ft, some e⟩ v
        = VISIT_AND_CHECK
            (base.Visit e ((VisitFullType jdi ft true (v.print "static_cast<")).2.print ">("))
            (fun v => (true, v.print ")")) ∧
      VisitCastExpression jdi base ⟨CastKind.DYNAMIC, ft, some e⟩ v
        = VISIT_AND_CHECK
            (base.Visit e ((VisitFullType jdi ft true (v.print "dynamic_cast<")).2.print ">("))
            (fun v => (true, v.print ")")) ∧
      VisitCastExpression jdi base ⟨CastKind.CONST, ft, some e⟩ v
        = VISIT_AND_CHECK
            (base.Visit e ((VisitFullType jdi ft true (v.print "const_cast<")).2.print ">("))
            (fun v => (true, v.print ")")) ∧
      VisitCastExpression jdi base ⟨CastKind.REINTERPRET, ft, some e⟩ v
        = VISIT_AND_CHECK
            (base.Visit e
              ((VisitFullType jdi ft true (v.print "reinterpret_cast<")).2.print ">("))
            (fun v => (true, v.print ")"))) ∧
    VisitCastExpression example_builtins sample_base
        ⟨CastKind.FUNCTIONAL,
          { flags := 128, def_name := "int", decl_name := "", components_size := 0,
            ref_stack := [] },
          some (SampleNode.identifier "x")⟩ ⟨"", false⟩
      = (true, ⟨"unsigned int (x)", false⟩) ∧
    VisitCastExpression example_builtins sample_base
        ⟨CastKind.STATIC,
          { flags := 128, def_name := "int", decl_name := "", components_size := 0,
            ref_stack := [] },
          some (SampleNode.identifier "x")⟩ ⟨"", false⟩
      = (true, ⟨"static_cast<unsigned int >(x)", false⟩) := by
  refine ⟨?_, by rfl, by rfl⟩
  intro Node jdi base ft e v
  refine ⟨?_, ?_, ?_, ?_, ?_, ?_⟩ <;>
    simp [VisitCastExpression, cast_operand_and_close, VisitFullType_default_print_type,
      VISIT_AND_CHECK_VisitFullType]


/-! ## Literals -/

/-- Claim C28. The function `VisitLiteral` prints the delimiter quote of a literal as it
is, and an octal escape with as few digits as the number has: the string `a"b` prints
as `"a"b"`, whose body ends at its second character for a reader, and the two strings
of the characters 1, `6` and of the character 14 both print as `"\16"`, so that no
reading of the printed text gives back both of them. -/
theorem literal_text_does_not_determine_value :
    VisitLiteral ⟨"a\"b", TokenType.TT_STRINGLIT⟩ ⟨"", false⟩
      = (true, ⟨"\"a\"b\"", false⟩) ∧
    VisitLiteral ⟨String.mk [Char.ofNat 1, '6'], TokenType.TT_STRINGLIT⟩ ⟨"", false⟩
      = (true, ⟨"\"\\16\"", false⟩) ∧
    VisitLiteral ⟨String.mk [Char.ofNat 14], TokenType.TT_STRINGLIT⟩ ⟨"", false⟩
      = (true, ⟨"\"\\16\"", false⟩) ∧
    String.mk [Char.ofNat 1, '6'] ≠ String.mk [Char.ofNat 14] ∧
    (∀ read : String → String,
      ¬ (read (VisitLiteral ⟨String.mk [Char.ofNat 1, '6'], TokenType.TT_STRINGLIT⟩
            ⟨"", false⟩).2.printed = String.mk [Char.ofNat 1, '6'] ∧
         read (VisitLiteral ⟨String.mk [Char.ofNat 14], TokenType.TT_STRINGLIT⟩
            ⟨"", false⟩).2.printed = String.mk [Char.ofNat 14])) := by
  have h1 : VisitLiteral ⟨String.mk [Char.ofNat 1, '6'], TokenType.TT_STRINGLIT⟩ ⟨"", false⟩
      = (true, ⟨"\"\\16\"", false⟩) := by decide
  have h2 : VisitLiteral ⟨String.mk [Char.ofNat 14], TokenType.TT_STRINGLIT⟩ ⟨"", false⟩
      = (true, ⟨"\"\\16\"", false⟩) := by decide
  have hne : String.mk [Char.ofNat 1, '6'] ≠ String.mk [Char.ofNat 14] := by decide
  refine ⟨by decide, h1, h2, hne, ?_⟩
  intro read h
  rw [h1, h2] at h
  exact hne (h.1.symm.trans h.2)


/-! ## Failure of a visit -/

theorem VISIT_AND_CHECK_bind (visited : Bool × Visitor) (f g : Visitor → Bool × Visitor) :
    VISIT_AND_CHECK (VISIT_AND_CHECK visited f) g
      = VISIT_AND_CHECK visited (fun v => VISIT_AND_CHECK (f v) g) := by
  obtain ⟨ok, v⟩ := visited
  cases ok <;> simp [VISIT_AND_CHECK]

theorem render_steps_append {Node : Type} (jdi : jdi_builtins) (base : VisitorBase Node)
    (a b : List (RenderStep Node)) (v : Visitor) :
    render_steps jdi base (a ++ b) v
      = VISIT_AND_CHECK (render_steps jdi base a v) (fun v => render_steps jdi base b v) := by
  induction a generalizing v with
  | nil => simp [render_steps, VISIT_AND_CHECK]
  | cons step a ih =>
    cases step with
    | print text => simp [render_steps, ih]
    | set_print_type value => simp [render_steps, ih]
    | semicolon node => simp [render_steps, ih]
    | full_type ft print_type =>
      simp only [List.cons_append, render_steps, VISIT_AND_CHECK_VisitFullType]
      exact ih _
    | child node =>
      simp only [List.cons_append, render_steps, VISIT_AND_CHECK_bind]
      congr 1
      funext w
      exact ih w

theorem render_steps_reached_failure {Node : Type} (jdi : jdi_builtins)
    (base : VisitorBase Node) (pre post : List (RenderStep Node)) (node : Node)
    (v w : Visitor) (hpre : render_steps jdi base pre v = (true, w))
    (hfail : (base.Visit node w).1 = false) :
    render_steps jdi base (pre ++ RenderStep.child node :: post) v
      = (false, (base.Visit node w).2) := by
  rw [render_steps_append, hpre]
  simp [VISIT_AND_CHECK, render_steps, hfail]

theorem render_steps_failure_origin {Node : Type} (jdi : jdi_builtins)
    (base : VisitorBase Node) (steps : List (RenderStep Node)) (v : Visitor)
    (hfail : (render_steps jdi base steps v).1 = false) :
    ∃ (pre post : List (RenderStep Node)) (node : Node) (w : Visitor),
      steps = pre ++ RenderStep.child node :: post ∧
      render_steps jdi base pre v = (true, w) ∧
      (base.Visit node w).1 = false ∧
      render_steps jdi base steps v = (false, (base.Visit node w).2) := by
  induction steps generalizing v with
  | nil => simp [render_steps] at hfail
  | cons step steps ih =>
    cases step with
    | print text =>
      obtain ⟨pre, post, node, w, h1, h2, h3, h4⟩ := ih (v.print text)
        (by simpa [render_steps] using hfail)
      exact ⟨RenderStep.print text :: pre, post, node, w, by simp [h1],
        by simpa [render_steps] using h2, h3, by simpa [render_steps] using h4⟩
    | set_print_type value =>
      obtain ⟨pre, post, node, w, h1, h2, h3, h4⟩ := ih { v with print_type := value }
        (by simpa [render_steps] using hfail)
      exact ⟨RenderStep.set_print_type value :: pre, post, node, w, by simp [h1],
        by simpa [render_steps] using h2, h3, by simpa [render_steps] using h4⟩
    | semicolon n =>
      obtain ⟨pre, post, node, w, h1, h2, h3, h4⟩ := ih (base.PrintSemiColon n v)
        (by simpa [render_steps] using hfail)
      exact ⟨RenderStep.semicolon n :: pre, post, node, w, by simp [h1],
        by simpa [render_steps] using h2, h3, by simpa [render_steps] using h4⟩
    | full_type ft print_type =>
      obtain ⟨pre, post, node, w, h1, h2, h3, h4⟩ :=
        ih (VisitFullType jdi ft print_type v).2
          (by simpa [render_steps, VISIT_AND_CHECK_VisitFullType] using hfail)
      exact ⟨RenderStep.full_type ft print_type :: pre, post, node, w, by simp [h1],
        by simpa [render_steps, VISIT_AND_CHECK_VisitFullType] using h2, h3,
        by simpa [render_steps, VISIT_AND_CHECK_VisitFullType] using h4⟩
    | child n =>
      cases hn : (base.Visit n v).1 with
      | false =>
        exact ⟨[], steps, n, v, by simp, by simp [render_steps], hn,
          by simp [render_steps, VISIT_AND_CHECK, hn]⟩
      | true =>
        obtain ⟨pre, post, node, w, h1, h2, h3, h4⟩ := ih (base.Visit n v).2
          (by simpa [render_steps, VISIT_AND_CHECK, hn] using hfail)
        exact ⟨RenderStep.child n :: pre, post, node, w, by simp [h1],
          by simpa [render_steps, VISIT_AND_CHECK, hn] using h2, h3,
          by simpa [render_steps, VISIT_AND_CHECK, hn] using h4⟩

theorem render_steps_success {Node : Type} (jdi : jdi_builtins)
    (base : VisitorBase Node) (steps : List (RenderStep Node)) (v : Visitor)
    (hall : ∀ (pre post : List (RenderStep Node)) (node : Node) (w : Visitor),
      steps = pre ++ RenderStep.child node :: post →
      render_steps jdi base pre v = (true, w) → (base.Visit node w).1 = true) :
    (render_steps jdi base steps v).1 = true := by
  cases h : (render_steps jdi base steps v).1 with
  | true => rfl
  | false =>
    obtain ⟨pre, post, node, w, h1, h2, h3, _⟩ :=
      render_steps_failure_origin jdi base steps v h
    have := hall pre post node w h1 h2
    rw [h3] at this
    exact absurd this (by decide)


theorem VisitParenthetical_eq_steps {Node : Type} (jdi : jdi_builtins)
    (base : VisitorBase Node) (node : Parenthetical Node) (v : Visitor) :
    VisitParenthetical base node v
      = render_steps jdi base (VisitParenthetical_steps node) v := by
  cases h : node.expression <;>
    simp [VisitParenthetical, VisitParenthetical_steps, optional_child, render_steps, h]

theorem VisitUnaryPostfixExpression_eq_steps {Node : Type} (jdi : jdi_builtins)
    (base : VisitorBase Node) (node : UnaryPostfixExpression Node) (v : Visitor) :
    VisitUnaryPostfixExpression base node v
      = render_steps jdi base (VisitUnaryPostfixExpression_steps node) v := by
  simp [VisitUnaryPostfixExpression, VisitUnaryPostfixExpression_steps, render_steps]

theorem VisitUnaryPrefixExpression_eq_steps {Node : Type} (jdi : jdi_builtins)
    (base : VisitorBase Node) (node : UnaryPrefixExpression Node) (v : Visitor) :
    VisitUnaryPrefixExpression base node v
      = render_steps jdi base (VisitUnaryPrefixExpression_steps base node) v := by
  by_cases h1 : node.operation.type = TokenType.TT_STAR <;>
    by_cases h2 : base.type node.operand = NodeType.PARENTHETICAL <;>
    simp [VisitUnaryPrefixExpression, VisitUnaryPrefixExpression_steps, render_steps,
      h1, h2]

theorem VisitDeleteExpression_eq_steps {Node : Type} (jdi : jdi_builtins)
    (base : VisitorBase Node) (node : DeleteExpression Node) (v : Visitor) :
    VisitDeleteExpression base node v
      = render_steps jdi base (VisitDeleteExpression_steps node) v := by
  cases hg : node.is_global <;> cases ha : node.is_array <;>
    simp [VisitDeleteExpression, VisitDeleteExpression_steps, render_steps, hg, ha]

theorem VisitBreakStatement_eq_steps {Node : Type} (jdi : jdi_builtins)
    (base : VisitorBase Node) (node : BreakStatement Node) (v : Visitor) :
    VisitBreakStatement base node v
      = render_steps jdi base (VisitBreakStatement_steps node) v := by
  cases h : node.count <;>
    simp [VisitBreakStatement, VisitBreakStatement_steps, render_steps, h]

theorem VisitContinueStatement_eq_steps {Node : Type} (jdi : jdi_builtins)
    (base : VisitorBase Node) (node : ContinueStatement Node) (v : Visitor) :
    VisitContinueStatement base node v
      = render_steps jdi base (VisitContinueStatement_steps node) v := by
  cases h : node.count <;>
    simp [VisitContinueStatement, VisitContinueStatement_steps, render_steps, h]

theorem VisitWithStatement_eq_steps {Node : Type} (jdi : jdi_builtins)
    (base : VisitorBase Node) (node : WithStatement Node) (v : Visitor) :
    VisitWithStatement base node v
      = render_steps jdi base (VisitWithStatement_steps base node) v := by
  by_cases h : base.type node.object = NodeType.PARENTHETICAL <;>
    simp [VisitWithStatement, VisitWithStatement_steps, render_steps, h]

theorem VisitBinaryExpression_eq_steps {Node : Type} (jdi : jdi_builtins)
    (base : VisitorBase Node) (node : BinaryExpression Node) (v : Visitor) :
    VisitBinaryExpression base node v
      = render_steps jdi base (VisitBinaryExpression_steps node) v := by
  by_cases h : node.operation.type = TokenType.TT_BEGINBRACKET <;>
    simp [VisitBinaryExpression, VisitBinaryExpression_steps, render_steps, h]

theorem visit_arguments_eq_steps {Node : Type} (jdi : jdi_builtins)
    (base : VisitorBase Node) (arguments : List Node) (v : Visitor) :
    visit_arguments base arguments v
      = render_steps jdi base (visit_arguments_steps arguments) v := by
  induction arguments generalizing v with
  | nil => rfl
  | cons arg rest ih =>
    cases hr : rest.isEmpty <;>
      simp [visit_arguments, visit_arguments_steps, render_steps, hr, ih]

theorem VisitFunctionCallExpression_eq_steps {Node : Type} (jdi : jdi_builtins)
    (base : VisitorBase Node) (node : FunctionCallExpression Node) (v : Visitor) :
    VisitFunctionCallExpression base node v
      = render_steps jdi base (VisitFunctionCallExpression_steps node) v := by
  simp [VisitFunctionCallExpression, VisitFunctionCallExpression_steps, render_steps,
    render_steps_append, visit_arguments_eq_steps jdi]

theorem VisitTernaryExpression_eq_steps {Node : Type} (jdi : jdi_builtins)
    (base : VisitorBase Node) (node : TernaryExpression Node) (v : Visitor) :
    VisitTernaryExpression base node v
      = render_steps jdi base (VisitTernaryExpression_steps node) v := by
  simp [VisitTernaryExpression, VisitTernaryExpression_steps, render_steps]

theorem VisitLambdaExpression_eq_steps {Node : Type} (jdi : jdi_builtins)
    (base : VisitorBase Node) (node : LambdaExpression Node) (v : Visitor) :
    VisitLambdaExpression base node v
      = render_steps jdi base (VisitLambdaExpression_steps base node) v := by
  by_cases h : base.type node.parameters = NodeType.IDENTIFIER <;>
    by_cases hb : base.type node.body = NodeType.BLOCK <;>
    simp [VisitLambdaExpression, VisitLambdaExpression_steps, render_steps, h, hb]

theorem VisitReturnStatement_eq_steps {Node : Type} (jdi : jdi_builtins)
    (base : VisitorBase Node) (node : ReturnStatement Node) (v : Visitor) :
    VisitReturnStatement base node v
      = render_steps jdi base (VisitReturnStatement_steps node) v := by
  cases h : node.expression <;>
    simp [VisitReturnStatement, VisitReturnStatement_steps, optional_child, render_steps,
      h, VISIT_AND_CHECK]

theorem VisitSizeofExpression_eq_steps {Node : Type} (jdi : jdi_builtins)
    (base : VisitorBase Node) (node : SizeofExpression Node) (v : Visitor) :
    VisitSizeofExpression jdi base node v
      = render_steps jdi base (VisitSizeofExpression_steps node) v := by
  cases node <;>
    simp [VisitSizeofExpression, VisitSizeofExpression_steps, render_steps]

theorem VisitAlignofExpression_eq_steps {Node : Type} (jdi : jdi_builtins)
    (base : VisitorBase Node) (node : AlignofExpression) (v : Visitor) :
    VisitAlignofExpression jdi node v
      = render_steps jdi base (VisitAlignofExpression_steps node) v := by
  simp [VisitAlignofExpression, VisitAlignofExpression_steps, render_steps]

theorem VisitCastExpression_eq_steps {Node : Type} (jdi : jdi_builtins)
    (base : VisitorBase Node) (node : CastExpression Node) (v : Visitor) :
    VisitCastExpression jdi base node v
      = render_steps jdi base (VisitCastExpression_steps node) v := by
  cases hk : node.kind <;> cases he : node.expr <;>
    simp [VisitCastExpression, VisitCastExpression_steps, cast_operand_and_close,
      optional_child, render_steps, hk, he, VISIT_AND_CHECK_VisitFullType]

theorem VisitArray_eq_steps {Node : Type} (jdi : jdi_builtins)
    (base : VisitorBase Node) (node : Array Node) (v : Visitor) :
    VisitArray base node v = render_steps jdi base (VisitArray_steps node) v := by
  cases h : node.elements <;>
    simp [VisitArray, VisitArray_steps, render_steps, h]


theorem VISIT_AND_CHECK_true (v : Visitor) (rest : Visitor → Bool × Visitor) :
    VISIT_AND_CHECK (true, v) rest = rest v := by
  simp [VISIT_AND_CHECK]

theorem VISIT_AND_CHECK_pure (visited : Bool × Visitor) :
    VISIT_AND_CHECK visited (fun v => (true, v)) = visited := by
  obtain ⟨ok, v⟩ := visited
  cases ok <;> simp [VISIT_AND_CHECK]

mutual
theorem VisitInitializer_eq_steps {Node : Type} (jdi : jdi_builtins)
    (base : VisitorBase Node) : ∀ (node : Initializer Node) (v : Visitor),
    VisitInitializer base node v = render_steps jdi base (VisitInitializer_steps node) v
  | .BRACE_INIT init is_variadic, v => by
    have ih := VisitBraceOrParenInitializer_eq_steps jdi base init
    cases is_variadic <;>
      simp [VisitInitializer, VisitInitializer_steps, render_steps_append, render_steps, ih,
        VISIT_AND_CHECK_pure]
  | .PLACEMENT_NEW init is_variadic, v => by
    have ih := VisitBraceOrParenInitializer_eq_steps jdi base init
    cases is_variadic <;>
      simp [VisitInitializer, VisitInitializer_steps, render_steps_append, render_steps, ih,
        VISIT_AND_CHECK_pure]
  | .ASSIGN_EXPR init is_variadic, v => by
    have ih := VisitAssignmentInitializer_eq_steps jdi base init
    cases is_variadic <;>
      simp [VisitInitializer, VisitInitializer_steps, render_steps_append, render_steps, ih,
        VISIT_AND_CHECK_pure]
  | .other is_variadic, v => by
    cases is_variadic <;> simp [VisitInitializer, VisitInitializer_steps, render_steps]
theorem VisitBraceOrParenInitializer_eq_steps {Node : Type} (jdi : jdi_builtins)
    (base : VisitorBase Node) : ∀ (node : BraceOrParenInitializer Node) (v : Visitor),
    VisitBraceOrParenInitializer base node v
      = render_steps jdi base (VisitBraceOrParenInitializer_steps node) v
  | .mk kind values, v => by
    have ih := visit_initializer_values_eq_steps jdi base kind values
    cases kind <;>
      simp [VisitBraceOrParenInitializer, VisitBraceOrParenInitializer_steps,
        render_steps_append, render_steps, ih, VISIT_AND_CHECK_bind]
theorem visit_initializer_values_eq_steps {Node : Type} (jdi : jdi_builtins)
    (base : VisitorBase Node) (kind : BraceOrParenInitializerKind) :
    ∀ (values : InitializerValues Node) (v : Visitor),
    visit_initializer_values base kind values v
      = render_steps jdi base (visit_initializer_values_steps kind values) v
  | .nil, v => by simp [visit_initializer_values, visit_initializer_values_steps, render_steps]
  | .cons first second rest, v => by
    have ih1 := VisitInitializer_eq_steps jdi base second
    have ih2 := visit_initializer_values_eq_steps jdi base kind rest
    cases kind <;> by_cases hf : first = "" <;> cases hr : rest.isEmpty <;>
      simp [visit_initializer_values, visit_initializer_values_steps, render_steps_append,
        render_steps, ih1, ih2, hf, hr, VISIT_AND_CHECK_bind]
theorem VisitAssignmentInitializer_eq_steps {Node : Type} (jdi : jdi_builtins)
    (base : VisitorBase Node) : ∀ (node : AssignmentInitializer Node) (v : Visitor),
    VisitAssignmentInitializer base node v
      = render_steps jdi base (VisitAssignmentInitializer_steps node) v
  | .BRACE_INIT init, v => by
    have ih := VisitBraceOrParenInitializer_eq_steps jdi base init
    simp [VisitAssignmentInitializer, VisitAssignmentInitializer_steps, ih,
      VISIT_AND_CHECK_pure]
  | .EXPR expr, v => by
    simp [VisitAssignmentInitializer, VisitAssignmentInitializer_steps, render_steps]
end


theorem VisitNewExpression_eq_steps {Node : Type} (jdi : jdi_builtins)
    (base : VisitorBase Node) (node : NewExpression Node) (v : Visitor) :
    VisitNewExpression jdi base node v
      = render_steps jdi base (VisitNewExpression_steps node) v := by
  cases hg : node.is_global <;> cases hp : node.placement <;>
    cases hi : node.initializer <;>
    simp [VisitNewExpression, VisitNewExpression_steps, new_type_and_initializer,
      optional_initializer, render_steps_append, render_steps, hg, hp, hi,
      VisitInitializer_eq_steps jdi, VISIT_AND_CHECK_bind, VISIT_AND_CHECK_pure,
      VISIT_AND_CHECK_VisitFullType]

theorem visit_declarations_eq_steps {Node : Type} (jdi : jdi_builtins)
    (base : VisitorBase Node) (first : Bool) (declarations : List (Declaration Node))
    (v : Visitor) :
    visit_declarations jdi base first declarations v
      = render_steps jdi base (visit_declarations_steps first declarations) v := by
  induction declarations generalizing first v with
  | nil => simp [visit_declarations, visit_declarations_steps, render_steps]
  | cons declaration rest ih =>
    cases hi : declaration.init <;> cases hr : rest.isEmpty <;>
      simp [visit_declarations, visit_declarations_steps, optional_initializer,
        render_steps_append, render_steps, hi, hr, ih, VisitInitializer_eq_steps jdi,
        VISIT_AND_CHECK_bind, VISIT_AND_CHECK_VisitFullType]

theorem VisitDeclarationStatement_eq_steps {Node : Type} (jdi : jdi_builtins)
    (base : VisitorBase Node) (node : DeclarationStatement Node) (v : Visitor) :
    VisitDeclarationStatement jdi base node v
      = render_steps jdi base (VisitDeclarationStatement_steps node) v :=
  visit_declarations_eq_steps jdi base true node.declarations v

theorem visit_statements_eq_steps {Node : Type} (jdi : jdi_builtins)
    (base : VisitorBase Node) (statements : List Node) (v : Visitor) :
    visit_statements base statements v
      = render_steps jdi base (visit_statements_steps statements) v := by
  induction statements generalizing v with
  | nil => rfl
  | cons stmt rest ih =>
    simp [visit_statements, visit_statements_steps, render_steps, ih]

theorem VisitCode_eq_steps {Node : Type} (jdi : jdi_builtins)
    (base : VisitorBase Node) (node : CodeBlock Node) (v : Visitor) :
    VisitCode base node v = render_steps jdi base (VisitCode_steps node) v :=
  visit_statements_eq_steps jdi base node.statements v

theorem VisitCodeBlock_eq_steps {Node : Type} (jdi : jdi_builtins)
    (base : VisitorBase Node) (node : CodeBlock Node) (v : Visitor) :
    VisitCodeBlock base node v = render_steps jdi base (VisitCodeBlock_steps node) v := by
  simp [VisitCodeBlock, VisitCodeBlock_steps, render_steps_append, render_steps,
    VisitCode_eq_steps jdi, VISIT_AND_CHECK_bind]

theorem VisitIfStatement_eq_steps {Node : Type} (jdi : jdi_builtins)
    (base : VisitorBase Node) (node : IfStatement Node) (v : Visitor) :
    VisitIfStatement base node v
      = render_steps jdi base (VisitIfStatement_steps base node) v := by
  by_cases h : base.type node.condition = NodeType.PARENTHETICAL <;>
    cases ht : node.true_branch <;> cases hf : node.false_branch <;>
    simp [VisitIfStatement, VisitIfStatement_steps, if_false_branch, render_steps,
      h, ht, hf]

theorem VisitForLoop_eq_steps {Node : Type} (jdi : jdi_builtins)
    (base : VisitorBase Node) (node : ForLoop Node) (v : Visitor) :
    VisitForLoop base node v = render_steps jdi base (VisitForLoop_steps node) v := by
  simp [VisitForLoop, VisitForLoop_steps, render_steps]

theorem VisitCaseStatement_eq_steps {Node : Type} (jdi : jdi_builtins)
    (base : VisitorBase Node) (node : CaseStatement Node) (v : Visitor) :
    VisitCaseStatement base node v
      = render_steps jdi base (VisitCaseStatement_steps node) v := by
  simp [VisitCaseStatement, VisitCaseStatement_steps, render_steps_append, render_steps,
    VisitCodeBlock_eq_steps jdi, VISIT_AND_CHECK_bind, VISIT_AND_CHECK_true]

theorem VisitDefaultStatement_eq_steps {Node : Type} (jdi : jdi_builtins)
    (base : VisitorBase Node) (node : DefaultStatement Node) (v : Visitor) :
    VisitDefaultStatement base node v
      = render_steps jdi base (VisitDefaultStatement_steps node) v := by
  simp [VisitDefaultStatement, VisitDefaultStatement_steps, render_steps_append,
    render_steps, VisitCodeBlock_eq_steps jdi, VISIT_AND_CHECK_bind, VISIT_AND_CHECK_true]

theorem VisitSwitchStatement_eq_steps {Node : Type} (jdi : jdi_builtins)
    (base : VisitorBase Node) (node : SwitchStatement Node) (v : Visitor) :
    VisitSwitchStatement base node v
      = render_steps jdi base (VisitSwitchStatement_steps base node) v := by
  by_cases h : base.type node.expression = NodeType.PARENTHETICAL <;>
    simp [VisitSwitchStatement, VisitSwitchStatement_steps, render_steps_append,
      render_steps, h, VisitCodeBlock_eq_steps jdi, VISIT_AND_CHECK_bind,
      VISIT_AND_CHECK_true]

theorem VisitWhileLoop_eq_steps {Node : Type} (jdi : jdi_builtins)
    (base : VisitorBase Node) (node : WhileLoop Node) (v : Visitor) :
    VisitWhileLoop base node v
      = render_steps jdi base (VisitWhileLoop_steps base node) v := by
  by_cases h : base.type node.condition = NodeType.PARENTHETICAL <;>
    cases hk : node.kind <;>
    simp [VisitWhileLoop, VisitWhileLoop_steps, render_steps, h, hk]

theorem VisitDoLoop_eq_steps {Node : Type} (jdi : jdi_builtins)
    (base : VisitorBase Node) (node : DoLoop Node) (v : Visitor) :
    VisitDoLoop base node v = render_steps jdi base (VisitDoLoop_steps base node) v := by
  by_cases h : base.type node.condition = NodeType.PARENTHETICAL <;>
    by_cases hb : base.type node.body = NodeType.BLOCK <;>
    cases hu : node.is_until <;>
    simp [VisitDoLoop, VisitDoLoop_steps, render_steps, h, hb, hu]


/-- Claim C25. Every visitor of pretty_printer.cpp that reaches children runs its body as
a sequence of steps, the checked visits of its children among prints. In such a run a
reached child whose visit fails makes the run return failure in the state that the
failing visit left, so that nothing is printed after it; a run that fails has failed at
a reached child; and a run all of whose reached children succeed returns success. The
visitors of identifiers, of literals and of types have no child and return success. An
if statement whose branch cannot be rendered fails after `if(c) `, and with a branch
that can be rendered it succeeds. -/
theorem visit_failure_propagates {Node : Type} (jdi : jdi_builtins)
    (base : VisitorBase Node) :
    ((∀ node v, VisitParenthetical base node v
        = render_steps jdi base (VisitParenthetical_steps node) v) ∧
     (∀ node v, VisitUnaryPostfixExpression base node v
        = render_steps jdi base (VisitUnaryPostfixExpression_steps node) v) ∧
     (∀ node v, VisitUnaryPrefixExpression base node v
        = render_steps jdi base (VisitUnaryPrefixExpression_steps base node) v) ∧
     (∀ node v, VisitDeleteExpression base node v
        = render_steps jdi base (VisitDeleteExpression_steps node) v) ∧
     (∀ node v, VisitBreakStatement base node v
        = render_steps jdi base (VisitBreakStatement_steps node) v) ∧
     (∀ node v, VisitContinueStatement base node v
        = render_steps jdi base (VisitContinueStatement_steps node) v) ∧
     (∀ node v, VisitWithStatement base node v
        = render_steps jdi base (VisitWithStatement_steps base node) v) ∧
     (∀ node v, VisitBinaryExpression base node v
        = render_steps jdi base (VisitBinaryExpression_steps node) v) ∧
     (∀ node v, VisitFunctionCallExpression base node v
        = render_steps jdi base (VisitFunctionCallExpression_steps node) v) ∧
     (∀ node v, VisitTernaryExpression base node v
        = render_steps jdi base (VisitTernaryExpression_steps node) v) ∧
     (∀ node v, VisitLambdaExpression base node v
        = render_steps jdi base (VisitLambdaExpression_steps base node) v) ∧
     (∀ node v, VisitReturnStatement base node v
        = render_steps jdi base (VisitReturnStatement_steps node) v) ∧
     (∀ node v, VisitSizeofExpression jdi base node v
        = render_steps jdi base (VisitSizeofExpression_steps node) v) ∧
     (∀ node v, VisitAlignofExpression jdi node v
        = render_steps jdi base (VisitAlignofExpression_steps node) v) ∧
     (∀ node v, VisitCastExpression jdi base node v
        = render_steps jdi base (VisitCastExpression_steps node) v) ∧
     (∀ node v, VisitArray base node v
        = render_steps jdi base (VisitArray_steps node) v) ∧
     (∀ node v, VisitBraceOrParenInitializer base node v
        = render_steps jdi base (VisitBraceOrParenInitializer_steps node) v) ∧
     (∀ node v, VisitAssignmentInitializer base node v
        = render_steps jdi base (VisitAssignmentInitializer_steps node) v) ∧
     (∀ node v, VisitInitializer base node v
        = render_steps jdi base (VisitInitializer_steps node) v) ∧
     (∀ node v, VisitNewExpression jdi base node v
        = render_steps jdi base (VisitNewExpression_steps node) v) ∧
     (∀ node v, VisitDeclarationStatement jdi base node v
        = render_steps jdi base (VisitDeclarationStatement_steps node) v) ∧
     (∀ node v, VisitCode base node v
        = render_steps jdi base (VisitCode_steps node) v) ∧
     (∀ node v, VisitCodeBlock base node v
        = render_steps jdi base (VisitCodeBlock_steps node) v) ∧
     (∀ node v, VisitIfStatement base node v
        = render_steps jdi base (VisitIfStatement_steps base node) v) ∧
     (∀ node v, VisitForLoop base node v
        = render_steps jdi base (VisitForLoop_steps node) v) ∧
     (∀ node v, VisitCaseStatement base node v
        = render_steps jdi base (VisitCaseStatement_steps node) v) ∧
     (∀ node v, VisitDefaultStatement base node v
        = render_steps jdi base (VisitDefaultStatement_steps node) v) ∧
     (∀ node v, VisitSwitchStatement base node v
        = render_steps jdi base (VisitSwitchStatement_steps base node) v) ∧
     (∀ node v, VisitWhileLoop base node v
        = render_steps jdi base (VisitWhileLoop_steps base node) v) ∧
     (∀ node v, VisitDoLoop base node v
        = render_steps jdi base (VisitDoLoop_steps base node) v)) ∧
    (∀ (pre post : List (RenderStep Node)) (node : Node) (v w : Visitor),
      render_steps jdi base pre v = (true, w) → (base.Visit node w).1 = false →
      render_steps jdi base (pre ++ RenderStep.child node :: post) v
        = (false, (base.Visit node w).2)) ∧
    (∀ (steps : List (RenderStep Node)) (v : Visitor),
      (render_steps jdi base steps v).1 = false →
      ∃ (pre post : List (RenderStep Node)) (node : Node) (w : Visitor),
        steps = pre ++ RenderStep.child node :: post ∧
        render_steps jdi base pre v = (true, w) ∧
        (base.Visit node w).1 = false ∧
        render_steps jdi base steps v = (false, (base.Visit node w).2)) ∧
    (∀ (steps : List (RenderStep Node)) (v : Visitor),
      (∀ (pre post : List (RenderStep Node)) (node : Node) (w : Visitor),
        steps = pre ++ RenderStep.child node :: post →
        render_steps jdi base pre v = (true, w) → (base.Visit node w).1 = true) →
      (render_steps jdi base steps v).1 = true) ∧
    ((∀ node v, (VisitIdentifierAccess node v).1 = true) ∧
     (∀ node v, (VisitLiteral node v).1 = true) ∧
     (∀ ft print_type v, (VisitFullType jdi ft print_type v).1 = true)) ∧
    VisitIfStatement failing_base
        ⟨SampleNode.identifier "c", some SampleNode.block, none⟩ ⟨"", false⟩
      = (false, ⟨"if(c) ", false⟩) ∧
    VisitIfStatement sample_base
        ⟨SampleNode.identifier "c", some SampleNode.block, none⟩ ⟨"", false⟩
      = (true, ⟨"if(c) \x7b\x7d ", false⟩) := by
  refine ⟨⟨?_, ?_, ?_, ?_, ?_, ?_, ?_, ?_, ?_, ?_, ?_, ?_, ?_, ?_, ?_, ?_, ?_, ?_, ?_, ?_,
    ?_, ?_, ?_, ?_, ?_, ?_, ?_, ?_, ?_, ?_⟩, ?_, ?_, ?_, ⟨?_, ?_, ?_⟩, by rfl, by rfl⟩
  · exact VisitParenthetical_eq_steps jdi base
  · exact VisitUnaryPostfixExpression_eq_steps jdi base
  · exact VisitUnaryPrefixExpression_eq_steps jdi base
  · exact VisitDeleteExpression_eq_steps jdi base
  · exact VisitBreakStatement_eq_steps jdi base
  · exact VisitContinueStatement_eq_steps jdi base
  · exact VisitWithStatement_eq_steps jdi base
  · exact VisitBinaryExpression_eq_steps jdi base
  · exact VisitFunctionCallExpression_eq_steps jdi base
  · exact VisitTernaryExpression_eq_steps jdi base
  · exact VisitLambdaExpression_eq_steps jdi base
  · exact VisitReturnStatement_eq_steps jdi base
  · exact VisitSizeofExpression_eq_steps jdi base
  · exact VisitAlignofExpression_eq_steps jdi base
  · exact VisitCastExpression_eq_steps jdi base
  · exact VisitArray_eq_steps jdi base
  · exact VisitBraceOrParenInitializer_eq_steps jdi base
  · exact VisitAssignmentInitializer_eq_steps jdi base
  · exact VisitInitializer_eq_steps jdi base
  · exact VisitNewExpression_eq_steps jdi base
  · exact VisitDeclarationStatement_eq_steps jdi base
  · exact VisitCode_eq_steps jdi base
  · exact VisitCodeBlock_eq_steps jdi base
  · exact VisitIfStatement_eq_steps jdi base
  · exact VisitForLoop_eq_steps jdi base
  · exact VisitCaseStatement_eq_steps jdi base
  · exact VisitDefaultStatement_eq_steps jdi base
  · exact VisitSwitchStatement_eq_steps jdi base
  · exact VisitWhileLoop_eq_steps jdi base
  · exact VisitDoLoop_eq_steps jdi base
  · intro pre post node v w hpre hfail
    exact render_steps_reached_failure jdi base pre post node v w hpre hfail
  · exact render_steps_failure_origin jdi base
  · exact render_steps_success jdi base
  · intro node v
    rfl
  · intro node v
    unfold VisitLiteral
    split <;> rfl
  · intro ft print_type v
    rfl

/-! ## Precedence in the expression parser -/

/-- Claim C29. With a table in which `*` has a higher precedence than `+` and `=` is
right-associative, and a bound of at least six calls, `TryParseExpression` at a
precedence that admits the operators reads the tokens of `a + b * c` entirely as the
binary `+` of `a` and of the binary `*` of `b` and `c`, and the tokens of `a = b = c` as
the assignment of the assignment `b = c` to `a`. -/
theorem parser_nests_by_precedence_and_associativity (table : OperatorTable)
    (fuel precedence plus star equals : Nat)
    (hfuel : 6 ≤ fuel)
    (hplus : table.GetPrecedence TokenType.TT_PLUS = some plus)
    (hstar : table.GetPrecedence TokenType.TT_STAR = some star)
    (htighter : plus < star)
    (hequals : table.GetPrecedence TokenType.TT_EQUALS = some equals)
    (hright : table.right_associative TokenType.TT_EQUALS = true)
    (hprec : precedence ≤ plus ∧ precedence ≤ equals) :
    TryParseExpression table fuel precedence
        [⟨TokenType.TT_IDENTIFIER, "a"⟩, ⟨TokenType.TT_PLUS, "+"⟩,
         ⟨TokenType.TT_IDENTIFIER, "b"⟩, ⟨TokenType.TT_STAR, "*"⟩,
         ⟨TokenType.TT_IDENTIFIER, "c"⟩]
      = some (ParsedNode.binary ⟨TokenType.TT_PLUS, "+"⟩ (ParsedNode.identifier "a")
          (ParsedNode.binary ⟨TokenType.TT_STAR, "*"⟩ (ParsedNode.identifier "b")
            (ParsedNode.identifier "c")), []) ∧
    TryParseExpression table fuel precedence
        [⟨TokenType.TT_IDENTIFIER, "a"⟩, ⟨TokenType.TT_EQUALS, "="⟩,
         ⟨TokenType.TT_IDENTIFIER, "b"⟩, ⟨TokenType.TT_EQUALS, "="⟩,
         ⟨TokenType.TT_IDENTIFIER, "c"⟩]
      = some (ParsedNode.binary ⟨TokenType.TT_EQUALS, "="⟩ (ParsedNode.identifier "a")
          (ParsedNode.binary ⟨TokenType.TT_EQUALS, "="⟩ (ParsedNode.identifier "b")
            (ParsedNode.identifier "c")), []) := by
  obtain ⟨k, rfl⟩ : ∃ k, fuel = k + 6 := ⟨fuel - 6, by omega⟩
  obtain ⟨hp, he⟩ := hprec
  constructor
  · have h1 : star ≥ (if table.right_associative TokenType.TT_PLUS = true then plus
        else plus + 1) := by
      split <;> omega
    simp [TryParseExpression, parse_operators, TryParseOperand, hplus, hstar, hp, h1]
  · simp [TryParseExpression, parse_operators, TryParseOperand, hequals, hright, he]

/-- The statement of claim C29 at the example table, with a bound of eight calls and the
precedence 0. -/
theorem parser_nests_by_precedence_and_associativity_witness :
    TryParseExpression example_operators 8 0
        [⟨TokenType.TT_IDENTIFIER, "a"⟩, ⟨TokenType.TT_PLUS, "+"⟩,
         ⟨TokenType.TT_IDENTIFIER, "b"⟩, ⟨TokenType.TT_STAR, "*"⟩,
         ⟨TokenType.TT_IDENTIFIER, "c"⟩]
      = some (ParsedNode.binary ⟨TokenType.TT_PLUS, "+"⟩ (ParsedNode.identifier "a")
          (ParsedNode.binary ⟨TokenType.TT_STAR, "*"⟩ (ParsedNode.identifier "b")
            (ParsedNode.identifier "c")), []) ∧
    TryParseExpression example_operators 8 0
        [⟨TokenType.TT_IDENTIFIER, "a"⟩, ⟨TokenType.TT_EQUALS, "="⟩,
         ⟨TokenType.TT_IDENTIFIER, "b"⟩, ⟨TokenType.TT_EQUALS, "="⟩,
         ⟨TokenType.TT_IDENTIFIER, "c"⟩]
      = some (ParsedNode.binary ⟨TokenType.TT_EQUALS, "="⟩ (ParsedNode.identifier "a")
          (ParsedNode.binary ⟨TokenType.TT_EQUALS, "="⟩ (ParsedNode.identifier "b")
            (ParsedNode.identifier "c")), []) :=
  parser_nests_by_precedence_and_associativity example_operators 8 0 4 5 1
    (by decide) (by rfl) (by rfl) (by decide) (by rfl) (by rfl) (by decide)


/-! ## The hook after every block -/

theorem write_event_block_body (event : EventDescriptor) :
    write_event_block event "" = block_body event ++ update_globals_hook := by
  unfold block_body
  cases h : event.HasInsteadCode with
  | true => simpa using write_event_block_instead event h
  | false =>
    cases hs : (event.HasSuperCheck && !event.IsInstance) with
    | true => simpa using write_event_block_guarded event h hs
    | false => simpa using write_event_block_ungated event h hs

/-- Claim C32. The event sequence of `ENIGMA_events` is, for each emitted event kind in
catalog order, the body of its block (instead-code, guarded loop or unguarded loop)
followed by the hook, which is the line `enigma::update_globals();` between two blank
lines: there are as many hooks as emitted blocks, the last block is followed by one, and
when no event kind is emitted nothing is written. For the catalog
`[Create, Step, Draw, Destroy]` with `Step` and `Destroy` used, the text is the loop of
`step`, the hook, the loop of `destroy`, the hook. -/
theorem every_block_is_followed_by_hook :
    (∀ (used_events : UsedEventIndex) (catalog : List EventDescriptor) (wto : String),
      write_event_sequence used_events catalog wto
        = wto ++ String.join ((catalog.filter (fun event =>
            (map_find event.BaseFunctionName used_events.base_methods).isSome
              && event.UsesEventLoop)).map
            (fun event => block_body event ++ update_globals_hook))) ∧
    (∀ (used_events : UsedEventIndex) (catalog : List EventDescriptor) (wto : String),
      catalog.filter (fun event =>
        (map_find event.BaseFunctionName used_events.base_methods).isSome
          && event.UsesEventLoop) = [] →
      write_event_sequence used_events catalog wto = wto) ∧
    update_globals_hook = "    \n" ++ "    enigma::update_globals();\n" ++ "    \n" ∧
    write_event_sequence example_used example_catalog ""
      = instance_loop "    " "step" false ++ update_globals_hook
        ++ (instance_loop "    " "destroy" false ++ update_globals_hook) := by
  have hseq : ∀ (used_events : UsedEventIndex) (catalog : List EventDescriptor)
      (wto : String),
      write_event_sequence used_events catalog wto
        = wto ++ String.join ((catalog.filter (fun event =>
            (map_find event.BaseFunctionName used_events.base_methods).isSome
              && event.UsesEventLoop)).map
            (fun event => block_body event ++ update_globals_hook)) := by
    intro used_events catalog wto
    rw [write_event_sequence_eq]
    congr 2
    apply List.map_congr_left
    intro event _
    exact write_event_block_body event
  refine ⟨hseq, ?_, by rfl, by rfl⟩
  intro used_events catalog wto hnone
  rw [hseq, hnone]
  apply String.ext
  simp [String.data_append, String.join]


/-! ## The default-event injection only appends -/

theorem event_exists_append (ctx : Context) (internal_id : Int)
    (evs more : List parsed_event) (h : event_exists ctx internal_id evs = true) :
    event_exists ctx internal_id (evs ++ more) = true := by
  induction evs with
  | nil => simp [event_exists] at h
  | cons e rest ih =>
    by_cases he : (ctx.translate_legacy_id_pair e.mainId e.id).internal_id = internal_id
    · simp [event_exists, he]
    · simp only [event_exists, he, if_false] at h
      simp [event_exists, he, ih h]

theorem event_exists_append_pair (ctx : Context) (internal_id : Int)
    (evs : List parsed_event) (e : parsed_event)
    (h : (ctx.translate_legacy_id_pair e.mainId e.id).internal_id = internal_id) :
    event_exists ctx internal_id (evs ++ [e]) = true := by
  induction evs with
  | nil => simp [event_exists, h]
  | cons e0 rest ih =>
    by_cases he : (ctx.translate_legacy_id_pair e0.mainId e0.id).internal_id = internal_id
    · simp [event_exists, he]
    · simp [event_exists, he, ih]

/-- An object grows into another one: the same id, and the same events followed by
further ones. -/
theorem shell_out_grows (ctx : Context) (event : EventDescriptor)
    (objs : List parsed_object) (con : Console) :
    List.Forall₂ (fun obj obj' => obj'.id = obj.id ∧ ∃ added, obj'.events = obj.events ++ added)
      objs (shell_out ctx event objs con).1 := by
  rw [shell_out_fst]
  induction objs with
  | nil => exact List.Forall₂.nil
  | cons obj rest ih =>
    refine List.Forall₂.cons ?_ ih
    beta_reduce
    by_cases h : event_exists ctx event.internal_id obj.events = true
    · rw [if_pos h]
      exact ⟨rfl, [], (List.append_nil _).symm⟩
    · rw [if_neg h]
      exact ⟨rfl, _, rfl⟩

theorem grows_trans (l1 l2 l3 : List parsed_object)
    (h12 : List.Forall₂
      (fun obj obj' => obj'.id = obj.id ∧ ∃ added, obj'.events = obj.events ++ added) l1 l2)
    (h23 : List.Forall₂
      (fun obj obj' => obj'.id = obj.id ∧ ∃ added, obj'.events = obj.events ++ added) l2 l3) :
    List.Forall₂
      (fun obj obj' => obj'.id = obj.id ∧ ∃ added, obj'.events = obj.events ++ added)
      l1 l3 := by
  induction h12 generalizing l3 with
  | nil =>
    cases h23
    exact List.Forall₂.nil
  | cons hab _ ih =>
    cases h23 with
    | cons hbc htail =>
      obtain ⟨hid1, add1, he1⟩ := hab
      obtain ⟨hid2, add2, he2⟩ := hbc
      exact List.Forall₂.cons
        ⟨hid2.trans hid1, add1 ++ add2, by rw [he2, he1, List.append_assoc]⟩
        (ih _ htail)

theorem inject_default_events_grows (ctx : Context) (catalog : List EventDescriptor)
    (used_events : UsedEventIndex) (objs : List parsed_object) (con : Console) :
    List.Forall₂ (fun obj obj' => obj'.id = obj.id ∧ ∃ added, obj'.events = obj.events ++ added)
      objs (inject_default_events ctx catalog used_events objs con).2.1 := by
  induction catalog generalizing used_events objs con with
  | nil =>
    simp only [inject_default_events]
    exact List.forall₂_same.mpr (fun obj _ => ⟨rfl, [], by simp⟩)
  | cons event rest ih =>
    simp only [inject_default_events]
    split
    · exact grows_trans _ _ _ (shell_out_grows ctx event objs con)
        (ih (used_events.insert (Event.ofDescriptor event))
          (shell_out ctx event objs con).1 (shell_out ctx event objs con).2)
    · exact ih used_events objs con

theorem shell_out_fixed (ctx : Context) (event : EventDescriptor)
    (objs : List parsed_object) (con : Console)
    (h : ∀ obj ∈ objs, event_exists ctx event.internal_id obj.events = true) :
    (shell_out ctx event objs con).1 = objs := by
  rw [shell_out_fst]
  conv_rhs => rw [← List.map_id objs]
  apply List.map_congr_left
  intro obj hobj
  simp [h obj hobj]

theorem inject_default_events_fixed (ctx : Context) (catalog : List EventDescriptor)
    (used_events : UsedEventIndex) (objs : List parsed_object) (con : Console)
    (h : ∀ event ∈ catalog, event.HasDefaultCode = true →
      ∀ obj ∈ objs, event_exists ctx event.internal_id obj.events = true) :
    (inject_default_events ctx catalog used_events objs con).2.1 = objs := by
  induction catalog generalizing used_events con with
  | nil => rfl
  | cons event rest ih =>
    simp only [inject_default_events]
    split
    · rename_i hd
      have hfix := shell_out_fixed ctx event objs con
        (h event (List.mem_cons_self event rest) hd)
      have := ih (used_events.insert (Event.ofDescriptor event))
        (shell_out ctx event objs con).2
        (fun e he hde => h e (List.mem_cons_of_mem event he) hde)
      rw [hfix]
      exact this
    · exact ih used_events con (fun e he hde => h e (List.mem_cons_of_mem event he) hde)

theorem shell_out_exists (ctx : Context) (event : EventDescriptor)
    (objs : List parsed_object) (con : Console)
    (hback : (ctx.translate_legacy_id_pair (ctx.reverse_lookup_legacy_event event).mid
      (ctx.reverse_lookup_legacy_event event).id).internal_id = event.internal_id) :
    ∀ obj ∈ (shell_out ctx event objs con).1,
      event_exists ctx event.internal_id obj.events = true := by
  rw [shell_out_fst]
  intro obj hobj
  rw [List.mem_map] at hobj
  obtain ⟨obj0, _, rfl⟩ := hobj
  by_cases h : event_exists ctx event.internal_id obj0.events = true
  · rw [if_pos h]
    exact h
  · rw [if_neg h]
    exact event_exists_append_pair ctx event.internal_id obj0.events _ hback

theorem exists_preserved_of_grows (ctx : Context) (internal_id : Int)
    (objs objs' : List parsed_object)
    (hgrow : List.Forall₂
      (fun obj obj' => obj'.id = obj.id ∧ ∃ added, obj'.events = obj.events ++ added)
      objs objs')
    (h : ∀ obj ∈ objs, event_exists ctx internal_id obj.events = true) :
    ∀ obj ∈ objs', event_exists ctx internal_id obj.events = true := by
  induction hgrow with
  | nil => intro obj hobj; simp at hobj
  | @cons a b l1 l2 hab _ ih =>
    intro obj hobj
    rcases List.mem_cons.mp hobj with rfl | hmem
    · obtain ⟨_, added, he⟩ := hab
      rw [he]
      exact event_exists_append ctx internal_id a.events added
        (h a (List.mem_cons_self a l1))
    · exact ih (fun o ho => h o (List.mem_cons_of_mem a ho)) obj hmem

theorem inject_default_events_exists (ctx : Context) (catalog : List EventDescriptor)
    (used_events : UsedEventIndex) (objs : List parsed_object) (con : Console)
    (hback : ∀ event ∈ catalog, event.HasDefaultCode = true →
      (ctx.translate_legacy_id_pair (ctx.reverse_lookup_legacy_event event).mid
        (ctx.reverse_lookup_legacy_event event).id).internal_id = event.internal_id) :
    ∀ event ∈ catalog, event.HasDefaultCode = true →
      ∀ obj ∈ (inject_default_events ctx catalog used_events objs con).2.1,
        event_exists ctx event.internal_id obj.events = true := by
  induction catalog generalizing used_events objs con with
  | nil => intro event he; simp at he
  | cons first rest ih =>
    intro event he hd
    simp only [inject_default_events]
    split
    · rename_i hfirst
      rcases List.mem_cons.mp he with rfl | hmem
      · exact exists_preserved_of_grows ctx event.internal_id _ _
          (inject_default_events_grows ctx rest _ _ _)
          (shell_out_exists ctx event objs con
            (hback event (List.mem_cons_self event rest) hd))
      · exact ih _ _ _ (fun e h1 h2 => hback e (List.mem_cons_of_mem first h1) h2)
          event hmem hd
    · rename_i hfirst
      rcases List.mem_cons.mp he with rfl | hmem
      · exact absurd hd hfirst
      · exact ih _ _ _ (fun e h1 h2 => hback e (List.mem_cons_of_mem first h1) h2)
          event hmem hd


/-- Claim C38. The default-event injection only appends: every parsed object keeps its id
and its events, in order, and gains events at the end; a defaulted event that an object
already has an event for leaves the object as it is. When the reverse-lookup pair of
every default-coded descriptor of the catalog translates back to the id of the
descriptor, a second run of the injection on the objects of the first run changes
nothing. -/
theorem default_injection_is_idempotent (ctx : Context) (catalog : List EventDescriptor)
    (used_events used_again : UsedEventIndex) (parsed_objects : List parsed_object)
    (con con_again : Console)
    (hback : ∀ event ∈ catalog, event.HasDefaultCode = true →
      (ctx.translate_legacy_id_pair (ctx.reverse_lookup_legacy_event event).mid
        (ctx.reverse_lookup_legacy_event event).id).internal_id = event.internal_id) :
    List.Forall₂
        (fun obj obj' => obj'.id = obj.id ∧ ∃ added, obj'.events = obj.events ++ added)
        parsed_objects
        (inject_default_events ctx catalog used_events parsed_objects con).2.1 ∧
    (∀ (event : EventDescriptor) (obj : parsed_object) (c : Console),
      event_exists ctx event.internal_id obj.events = true →
      (shell_out_object ctx event obj c).1 = obj) ∧
    (inject_default_events ctx catalog used_again
        (inject_default_events ctx catalog used_events parsed_objects con).2.1
        con_again).2.1
      = (inject_default_events ctx catalog used_events parsed_objects con).2.1 := by
  refine ⟨inject_default_events_grows ctx catalog used_events parsed_objects con, ?_, ?_⟩
  · intro event obj c h
    simp [shell_out_object, h]
  · exact inject_default_events_fixed ctx catalog used_again _ con_again
      (inject_default_events_exists ctx catalog used_events parsed_objects con hback)

/-- The statement of claim C38 at the catalog `[create, step]` with two objects, of which
neither declares `create`: both receive the pair `(0, 0)` once, and a second run leaves
them as they are. -/
theorem default_injection_is_idempotent_witness :
    (inject_default_events injection_context injection_context.event_declarations {}
        injection_objects {}).2.1 = [⟨0, [⟨3, 0⟩, ⟨0, 0⟩]⟩, ⟨1, [⟨0, 0⟩]⟩] ∧
    (inject_default_events injection_context injection_context.event_declarations {}
        (inject_default_events injection_context injection_context.event_declarations {}
          injection_objects {}).2.1 {}).2.1
      = (inject_default_events injection_context injection_context.event_declarations {}
          injection_objects {}).2.1 :=
  ⟨by decide,
    (default_injection_is_idempotent injection_context
      injection_context.event_declarations {} {} injection_objects {} {}
      (by decide)).2.2⟩


/-! ## Binary expressions and arrays -/

theorem expression_visit_eq_text (node : ExpressionNode) (v : Visitor)
    (hv : v.print_type = false) :
    expression_visit node v = (true, v.print (expression_text node)) := by
  induction node generalizing v with
  | identifier name => simp [expression_visit, VisitIdentifierAccess, expression_text, hv]
  | binary left operation right ihl ihr =>
    have h1 := ihl v hv
    have h2 := ihr ((v.print (expression_text left)).print (" " ++ operation.token ++ " "))
      (by simpa [Visitor.print] using hv)
    rw [expression_visit, h1, VISIT_AND_CHECK_true]
    dsimp only
    rw [h2, VISIT_AND_CHECK_true]
    by_cases hb : operation.type = TokenType.TT_BEGINBRACKET <;>
      simp [expression_text, hb, Visitor.print_print, String.append_assoc]

/-- Claim C39. When every child prints a text of its own, a binary expression prints the
text of its left operand, the operator between blanks and the text of its right operand,
followed by `]` for a subscript, and never a parenthesis of its own; so the two trees
`(a + b) * c` and `a + (b * c)`, built without parentheticals, both print
`a + b * c`. -/
theorem binary_expression_adds_no_parentheses {Node : Type} (base : VisitorBase Node)
    (text : Node → String) (node : BinaryExpression Node) (v : Visitor)
    (htext : ∀ (child : Node) (w : Visitor), w.print_type = false →
      base.Visit child w = (true, w.print (text child)))
    (hv : v.print_type = false) :
    VisitBinaryExpression base node v
        = (true, v.print (text node.left ++ (" " ++ node.operation.token ++ " ")
            ++ text node.right
            ++ (if node.operation.type = TokenType.TT_BEGINBRACKET then "]" else ""))) ∧
    VisitBinaryExpression expression_base
        ⟨ExpressionNode.binary (ExpressionNode.identifier "a") ⟨TokenType.TT_PLUS, "+"⟩
            (ExpressionNode.identifier "b"),
          ⟨TokenType.TT_STAR, "*"⟩, ExpressionNode.identifier "c"⟩ ⟨"", false⟩
      = (true, ⟨"a + b * c", false⟩) ∧
    VisitBinaryExpression expression_base
        ⟨ExpressionNode.identifier "a", ⟨TokenType.TT_PLUS, "+"⟩,
          ExpressionNode.binary (ExpressionNode.identifier "b") ⟨TokenType.TT_STAR, "*"⟩
            (ExpressionNode.identifier "c")⟩ ⟨"", false⟩
      = (true, ⟨"a + b * c", false⟩) := by
  refine ⟨?_, by rfl, by rfl⟩
  have h1 := htext node.left v hv
  have h2 := htext node.right
    ((v.print (text node.left)).print (" " ++ node.operation.token ++ " "))
    (by simpa [Visitor.print] using hv)
  rw [VisitBinaryExpression, h1, VISIT_AND_CHECK_true]
  dsimp only
  rw [h2, VISIT_AND_CHECK_true]
  by_cases hb : node.operation.type = TokenType.TT_BEGINBRACKET <;>
    simp [hb, Visitor.print_print, String.append_assoc]

/-- The statement of claim C39 at the subscript `a [ b` over expression trees. -/
theorem binary_expression_adds_no_parentheses_witness :
    VisitBinaryExpression expression_base
        ⟨ExpressionNode.identifier "a", ⟨TokenType.TT_BEGINBRACKET, "["⟩,
          ExpressionNode.identifier "b"⟩ ⟨"", false⟩
      = (true, Visitor.print ⟨"", false⟩ ("a" ++ (" " ++ "[" ++ " ") ++ "b"
          ++ (if TokenType.TT_BEGINBRACKET = TokenType.TT_BEGINBRACKET then "]" else ""))) :=
  (binary_expression_adds_no_parentheses expression_base expression_text
    ⟨ExpressionNode.identifier "a", ⟨TokenType.TT_BEGINBRACKET, "["⟩,
      ExpressionNode.identifier "b"⟩ ⟨"", false⟩
    (fun child w hw => expression_visit_eq_text child w hw) rfl).1

/-- Claim C40. An array with at least one element prints `[`, its first element and `]`,
whatever elements follow the first, which are not visited; an empty array prints `[]`.
The array of `a` and `b` prints `[a]`. -/
theorem array_prints_first_element_only {Node : Type} (base : VisitorBase Node) :
    (∀ (first : Node) (rest : List Node) (v : Visitor),
      VisitArray base ⟨first :: rest⟩ v
        = VISIT_AND_CHECK (base.Visit first (v.print "[")) (fun v => (true, v.print "]"))) ∧
    (∀ (first : Node) (rest : List Node) (v : Visitor),
      VisitArray base ⟨first :: rest⟩ v = VisitArray base ⟨[first]⟩ v) ∧
    (∀ v : Visitor, VisitArray base ⟨[]⟩ v = (true, v.print "[]")) ∧
    VisitArray sample_base ⟨[SampleNode.identifier "a", SampleNode.identifier "b"]⟩
        ⟨"", false⟩
      = (true, ⟨"[a]", false⟩) := by
  refine ⟨?_, ?_, ?_, by rfl⟩
  · intro first rest v
    rfl
  · intro first rest v
    rfl
  · intro v
    simp [VisitArray, Visitor.print_print]


/-! ## Splitting a JSON text -/

/-- Claim C33. The function `json_split` keeps one flag for arrays, which the first `]`
clears, so a delimiter after an inner array of a nested array is a split point:
`[[1],2],3` is split on `,` into `[[1]`, `2]` and `3`, not into `[[1],2]` and `3`; a
nested object `{"a":{"b":1},"c":2},3` is split into two parts. -/
theorem json_split_splits_inside_nested_array :
    json_split "[[1],2],3" ',' = ["[[1]", "2]", "3"] ∧
    json_split "[[1],2],3" ',' ≠ ["[[1],2]", "3"] ∧
    json_split "[1,2],3" ',' = ["[1,2]", "3"] ∧
    json_split "\x7b\"a\":\x7b\"b\":1\x7d,\"c\":2\x7d,3" ','
      = ["\x7b\"a\":\x7b\"b\":1\x7d,\"c\":2\x7d", "3"] := by
  refine ⟨by decide, by decide, by decide, by decide⟩


theorem getElem?_middle (pre cur rest : List Char) (c : Char) :
    (pre ++ (cur ++ c :: rest))[pre.length + cur.length]? = some c := by
  have h : pre.length + cur.length - pre.length = cur.length := by omega
  rw [List.getElem?_append_right (Nat.le_add_right _ _), h,
    List.getElem?_append_right (le_refl _)]
  simp

theorem json_split_body_plain (pre cur rest : List Char) (c delimiter : Char)
    (parts : List String)
    (h1 : c ≠ '"') (h2 : c ≠ '[') (h3 : c ≠ ']') (h4 : c ≠ '{') (h5 : c ≠ '}') :
    json_split_body (pre ++ (cur ++ c :: rest)) delimiter
        { parts := parts, start := pre.length, end_pos := pre.length + cur.length,
          within_quotes := false, within_array := false, num_open_braces := 0 }
      = if c = delimiter then
          { parts := if cur ≠ [] then parts ++ [String.mk cur] else parts,
            start := pre.length + cur.length + 1, end_pos := pre.length + cur.length + 1,
            within_quotes := false, within_array := false, num_open_braces := 0 }
        else
          { parts := parts, start := pre.length, end_pos := pre.length + cur.length + 1,
            within_quotes := false, within_array := false, num_open_braces := 0 } := by
  have hget := getElem?_middle pre cur rest c
  have hsub : string_substr (pre ++ (cur ++ c :: rest)) pre.length cur.length = cur := by
    simp [string_substr]
  unfold json_split_body
  simp only [hget, Option.some.injEq, h1, h2, h3, h4, h5, false_and, if_false, and_true,
    and_self]
  by_cases hd : c = delimiter
  · subst hd
    by_cases hc : cur = []
    · simp [hc]
    · have hlen : pre.length + cur.length ≠ pre.length := by
        have := List.length_pos.mpr hc
        omega
      simp [hc, hlen, hsub]
  · simp [hd]


theorem json_split_loop_done (s : List Char) (delimiter : Char) (fuel : Nat)
    (st : SplitState) (h : ¬ st.end_pos < s.length) :
    json_split_loop s delimiter fuel st = st := by
  cases fuel <;> simp [json_split_loop, h]

theorem splitOn_single (delimiter : Char) (cur : List Char)
    (hcur : ∀ c ∈ cur, c ≠ delimiter) : cur.splitOn delimiter = [cur] := by
  unfold List.splitOn
  apply List.splitOnP_eq_single
  intro x hx
  simpa using hcur x hx

theorem splitOn_first (delimiter : Char) (cur rest : List Char)
    (hcur : ∀ c ∈ cur, c ≠ delimiter) :
    (cur ++ delimiter :: rest).splitOn delimiter = cur :: rest.splitOn delimiter := by
  unfold List.splitOn
  apply List.splitOnP_first
  · intro x hx
    simpa using hcur x hx
  · simp

theorem json_split_loop_plain (delimiter : Char) (rest : List Char) :
    ∀ (pre cur : List Char) (parts : List String) (fuel : Nat),
      rest.length ≤ fuel → (∀ c ∈ cur, c ≠ delimiter) →
      (∀ c ∈ rest, c ≠ '"' ∧ c ≠ '[' ∧ c ≠ ']' ∧ c ≠ '{' ∧ c ≠ '}') →
      (if (json_split_loop (pre ++ (cur ++ rest)) delimiter fuel
            { parts := parts, start := pre.length, end_pos := pre.length + cur.length,
              within_quotes := false, within_array := false,
              num_open_braces := 0 }).start ≠ (pre ++ (cur ++ rest)).length then
          (json_split_loop (pre ++ (cur ++ rest)) delimiter fuel
            { parts := parts, start := pre.length, end_pos := pre.length + cur.length,
              within_quotes := false, within_array := false,
              num_open_braces := 0 }).parts
            ++ [String.mk ((pre ++ (cur ++ rest)).drop
              (json_split_loop (pre ++ (cur ++ rest)) delimiter fuel
                { parts := parts, start := pre.length, end_pos := pre.length + cur.length,
                  within_quotes := false, within_array := false,
                  num_open_braces := 0 }).start)]
        else
          (json_split_loop (pre ++ (cur ++ rest)) delimiter fuel
            { parts := parts, start := pre.length, end_pos := pre.length + cur.length,
              within_quotes := false, within_array := false,
              num_open_braces := 0 }).parts)
        = parts ++ (((cur ++ rest).splitOn delimiter).filter
            (fun field => field ≠ [])).map String.mk := by
  induction rest with
  | nil =>
    intro pre cur parts fuel _ hcur _
    rw [json_split_loop_done _ _ _ _ (by simp)]
    simp only [List.append_nil]
    rw [splitOn_single delimiter cur hcur]
    by_cases hc : cur = []
    · simp [hc]
    · have hlen : pre.length ≠ pre.length + cur.length := by
        have := List.length_pos.mpr hc
        omega
      simp [hc, hlen]
  | cons c rest ih =>
    intro pre cur parts fuel hfuel hcur hplain
    obtain ⟨f, rfl⟩ : ∃ f, fuel = f + 1 := ⟨fuel - 1, by simp at hfuel; omega⟩
    have hf : rest.length ≤ f := by simp at hfuel; omega
    obtain ⟨h1, h2, h3, h4, h5⟩ := hplain c (List.mem_cons_self c rest)
    have hrest : ∀ x ∈ rest, x ≠ '"' ∧ x ≠ '[' ∧ x ≠ ']' ∧ x ≠ '{' ∧ x ≠ '}' :=
      fun x hx => hplain x (List.mem_cons_of_mem c hx)
    have hstep : ∀ st : SplitState, st.end_pos < (pre ++ (cur ++ c :: rest)).length →
        json_split_loop (pre ++ (cur ++ c :: rest)) delimiter (f + 1) st
          = json_split_loop (pre ++ (cur ++ c :: rest)) delimiter f
              (json_split_body (pre ++ (cur ++ c :: rest)) delimiter st) := by
      intro st hlt
      rw [json_split_loop, if_pos hlt]
    rw [hstep _ (by simp), json_split_body_plain pre cur rest c delimiter parts h1 h2 h3 h4 h5]
    by_cases hd : c = delimiter
    · subst hd
      rw [if_pos rfl, splitOn_first c cur rest hcur]
      have key := ih (pre ++ (cur ++ [c])) [] (if cur ≠ [] then parts ++ [String.mk cur]
        else parts) f hf (by simp) hrest
      simp only [List.append_assoc, List.singleton_append, List.nil_append,
        List.length_append, List.length_cons, List.length_nil, Nat.add_zero,
        ← Nat.add_assoc] at key ⊢
      rw [key]
      by_cases hc : cur = []
      · simp [hc]
      · simp [hc]
    · rw [if_neg hd]
      have key := ih pre (cur ++ [c]) parts f hf
        (by
          intro x hx
          rcases List.mem_append.mp hx with h | h
          · exact hcur x h
          · simp at h
            rw [h]
            exact hd)
        hrest
      simp only [List.append_assoc, List.singleton_append, List.nil_append,
        List.length_append, List.length_cons, List.length_nil, Nat.add_zero,
        ← Nat.add_assoc] at key ⊢
      exact key


theorem json_split_plain (s : String) (delimiter : Char)
    (hplain : ∀ c ∈ s.data, c ≠ '"' ∧ c ≠ '[' ∧ c ≠ ']' ∧ c ≠ '{' ∧ c ≠ '}') :
    json_split s delimiter = split_dropping_empty s delimiter := by
  have key := json_split_loop_plain delimiter s.data [] [] [] s.data.length (le_refl _)
    (by simp) hplain
  simp only [List.nil_append, List.length_nil, Nat.add_zero] at key
  unfold json_split split_dropping_empty
  exact key

/-- Claim C31. For a text without double quotes, square brackets and braces, `json_split`
returns the ordinary split of the text on the delimiter with the empty fields dropped:
no part is empty, and a non-empty text without the delimiter is returned as its one
part. -/
theorem json_split_is_split_dropping_empty (s : String) (delimiter : Char)
    (hplain : ∀ c ∈ s.data, c ≠ '"' ∧ c ≠ '[' ∧ c ≠ ']' ∧ c ≠ '{' ∧ c ≠ '}') :
    json_split s delimiter = split_dropping_empty s delimiter ∧
    (∀ part ∈ json_split s delimiter, part ≠ "") ∧
    (s ≠ "" → delimiter ∉ s.data → json_split s delimiter = [s]) := by
  have heq := json_split_plain s delimiter hplain
  refine ⟨heq, ?_, ?_⟩
  · intro part hpart
    rw [heq, split_dropping_empty, List.mem_map] at hpart
    obtain ⟨field, hfield, rfl⟩ := hpart
    have hne : field ≠ [] := by simpa using (List.mem_filter.mp hfield).2
    intro h
    exact hne (by simpa using congrArg String.data h)
  · intro hs hd
    rw [heq, split_dropping_empty,
      splitOn_single delimiter s.data (fun c hc h => hd (h ▸ hc))]
    have hne : s.data ≠ [] := by
      intro h
      exact hs (String.ext h)
    simp [hne]

/-- The statement of claim C31 at the text `a,,bc,` split on the comma. -/
theorem json_split_is_split_dropping_empty_witness :
    json_split "a,,bc," ',' = ["a", "bc"] ∧
    split_dropping_empty "a,,bc," ',' = ["a", "bc"] :=
  ⟨(json_split_is_split_dropping_empty "a,,bc," ',' (by decide)).1.trans (by decide),
    by decide⟩


/-! ## Big-endian bytes of an integer -/

theorem and_255_eq_mod (x : Nat) : x &&& 255 = x % 256 :=
  Nat.and_pow_two_sub_one_eq_mod x 8

theorem shiftLeft_8_or (a b : Nat) (h : b < 256) : (a <<< 8) ||| b = a * 256 + b := by
  have := Nat.mul_add_lt_is_or (i := 8) (b := b) (by simpa using h) a
  rw [Nat.shiftLeft_eq, Nat.mul_comm a, ← this]

theorem shiftLeft_8_or_mod (a b : Nat) : (a <<< 8) ||| (b % 256) = a * 256 + b % 256 :=
  shiftLeft_8_or a _ (Nat.mod_lt _ (by norm_num))

theorem internal_serialize_any_into_8 (b0 b1 b2 b3 b4 b5 b6 b7 : Nat) (rest : List Nat)
    (n : Nat) (h : n < 2 ^ 64) :
    internal_serialize_any_into 8 (b0 :: b1 :: b2 :: b3 :: b4 :: b5 :: b6 :: b7 :: rest) n
      = [(n >>> 56) &&& 255, (n >>> 48) &&& 255, (n >>> 40) &&& 255, (n >>> 32) &&& 255,
         (n >>> 24) &&& 255, (n >>> 16) &&& 255, (n >>> 8) &&& 255, n &&& 255] ++ rest := by
  have hn : n % 18446744073709551616 = n := Nat.mod_eq_of_lt (by simpa using h)
  simp [internal_serialize_any_into, serialize_any_loop, hn, List.set, ← Nat.shiftRight_add]

theorem internal_deserialize_any_8 (n : Nat) (h : n < 2 ^ 64) (tail : List Nat) :
    internal_deserialize_any 8 8
      ([(n >>> 56) &&& 255, (n >>> 48) &&& 255, (n >>> 40) &&& 255, (n >>> 32) &&& 255,
         (n >>> 24) &&& 255, (n >>> 16) &&& 255, (n >>> 8) &&& 255, n &&& 255] ++ tail)
      = n := by
  simp only [internal_deserialize_any, deserialize_any_loop, List.cons_append,
    List.nil_append, List.getD_cons_zero, List.getD_cons_succ, and_255_eq_mod,
    Nat.shiftRight_eq_div_pow, shiftLeft_8_or_mod]
  norm_num
  omega

theorem internal_serialize_any_into_1 (b0 : Nat) (rest : List Nat) (n : Nat)
    (h : n < 2 ^ 8) :
    internal_serialize_any_into 1 (b0 :: rest) n = [n &&& 255] ++ rest := by
  have h1 : n % 256 = n := Nat.mod_eq_of_lt (by simpa using h)
  have h2 : n % 18446744073709551616 = n := Nat.mod_eq_of_lt (by norm_num at h; omega)
  simp [internal_serialize_any_into, serialize_any_loop, h1, h2, List.set]

theorem internal_serialize_any_into_2 (b0 b1 : Nat) (rest : List Nat) (n : Nat)
    (h : n < 2 ^ 16) :
    internal_serialize_any_into 2 (b0 :: b1 :: rest) n
      = [(n >>> 8) &&& 255, n &&& 255] ++ rest := by
  have h1 : n % 65536 = n := Nat.mod_eq_of_lt (by simpa using h)
  have h2 : n % 18446744073709551616 = n := Nat.mod_eq_of_lt (by norm_num at h; omega)
  simp [internal_serialize_any_into, serialize_any_loop, h1, h2, List.set,
    ← Nat.shiftRight_add]

theorem internal_serialize_any_into_4 (b0 b1 b2 b3 : Nat) (rest : List Nat) (n : Nat)
    (h : n < 2 ^ 32) :
    internal_serialize_any_into 4 (b0 :: b1 :: b2 :: b3 :: rest) n
      = [(n >>> 24) &&& 255, (n >>> 16) &&& 255, (n >>> 8) &&& 255, n &&& 255] ++ rest := by
  have h1 : n % 4294967296 = n := Nat.mod_eq_of_lt (by simpa using h)
  have h2 : n % 18446744073709551616 = n := Nat.mod_eq_of_lt (by norm_num at h; omega)
  simp [internal_serialize_any_into, serialize_any_loop, h1, h2, List.set,
    ← Nat.shiftRight_add]

/-- Claim C35. For the widths 1, 2, 4 and 8 and an unsigned value `v` of that width,
`internal_serialize_any_into` writes the first bytes of the buffer, as many as the width,
and leaves the rest: the byte `k` is `(v >> 8*(w-1-k)) & 0xff`, the most significant byte
first; and `internal_deserialize_any` on the bytes that `serialize_any` returns gives
`v` back. The value `0x12345678` of width 4 is written as 18, 52, 86, 120. -/
theorem any_bytes_are_big_endian_and_read_back :
    (∀ (v : Nat) (buffer rest : List Nat), v < 2 ^ (8 * 1) → buffer.length = 1 →
      internal_serialize_any_into 1 (buffer ++ rest) v
        = (List.range 1).map (fun k => (v >>> (8 * (1 - 1 - k))) &&& 0xff) ++ rest ∧
      internal_deserialize_any 1 1 (serialize_any 1 1 v) = v) ∧
    (∀ (v : Nat) (buffer rest : List Nat), v < 2 ^ (8 * 2) → buffer.length = 2 →
      internal_serialize_any_into 2 (buffer ++ rest) v
        = (List.range 2).map (fun k => (v >>> (8 * (2 - 1 - k))) &&& 0xff) ++ rest ∧
      internal_deserialize_any 2 2 (serialize_any 2 2 v) = v) ∧
    (∀ (v : Nat) (buffer rest : List Nat), v < 2 ^ (8 * 4) → buffer.length = 4 →
      internal_serialize_any_into 4 (buffer ++ rest) v
        = (List.range 4).map (fun k => (v >>> (8 * (4 - 1 - k))) &&& 0xff) ++ rest ∧
      internal_deserialize_any 4 4 (serialize_any 4 4 v) = v) ∧
    (∀ (v : Nat) (buffer rest : List Nat), v < 2 ^ (8 * 8) → buffer.length = 8 →
      internal_serialize_any_into 8 (buffer ++ rest) v
        = (List.range 8).map (fun k => (v >>> (8 * (8 - 1 - k))) &&& 0xff) ++ rest ∧
      internal_deserialize_any 8 8 (serialize_any 8 8 v) = v) ∧
    serialize_any 4 4 305419896 = [18, 52, 86, 120] := by
  refine ⟨?_, ?_, ?_, ?_, by decide⟩
  · intro v buffer rest hv hlen
    obtain ⟨b0, rfl⟩ : ∃ b0, buffer = [b0] := List.length_eq_one.mp hlen
    have hs := internal_serialize_any_into_1 b0 rest v (by simpa using hv)
    have hs0 := internal_serialize_any_into_1 0 [] v (by simpa using hv)
    refine ⟨by simpa [List.range_succ] using hs, ?_⟩
    have hsa : serialize_any 1 1 v = [v &&& 255] := by simpa [serialize_any] using hs0
    rw [hsa]
    simp only [internal_deserialize_any, deserialize_any_loop, List.getD_cons_zero,
      and_255_eq_mod, shiftLeft_8_or_mod]
    norm_num
    omega
  · intro v buffer rest hv hlen
    obtain ⟨b0, b1, rfl⟩ : ∃ b0 b1, buffer = [b0, b1] := List.length_eq_two.mp hlen
    have hs := internal_serialize_any_into_2 b0 b1 rest v (by simpa using hv)
    have hs0 := internal_serialize_any_into_2 0 0 [] v (by simpa using hv)
    refine ⟨by simpa [List.range_succ] using hs, ?_⟩
    have hsa : serialize_any 2 2 v = [(v >>> 8) &&& 255, v &&& 255] := by
      simpa [serialize_any] using hs0
    rw [hsa]
    simp only [internal_deserialize_any, deserialize_any_loop, List.getD_cons_zero,
      List.getD_cons_succ, and_255_eq_mod, Nat.shiftRight_eq_div_pow, shiftLeft_8_or_mod]
    norm_num at hv ⊢
    omega
  · intro v buffer rest hv hlen
    obtain ⟨b0, b1, b2, b3, rfl⟩ : ∃ b0 b1 b2 b3, buffer = [b0, b1, b2, b3] := by
      rcases buffer with _ | ⟨b0, _ | ⟨b1, _ | ⟨b2, _ | ⟨b3, _ | ⟨b4, l⟩⟩⟩⟩⟩ <;>
        simp at hlen
      exact ⟨b0, b1, b2, b3, rfl⟩
    have hs := internal_serialize_any_into_4 b0 b1 b2 b3 rest v (by simpa using hv)
    have hs0 := internal_serialize_any_into_4 0 0 0 0 [] v (by simpa using hv)
    refine ⟨by simpa [List.range_succ] using hs, ?_⟩
    have hsa : serialize_any 4 4 v
        = [(v >>> 24) &&& 255, (v >>> 16) &&& 255, (v >>> 8) &&& 255, v &&& 255] := by
      simpa [serialize_any] using hs0
    rw [hsa]
    simp only [internal_deserialize_any, deserialize_any_loop, List.getD_cons_zero,
      List.getD_cons_succ, and_255_eq_mod, Nat.shiftRight_eq_div_pow, shiftLeft_8_or_mod]
    norm_num at hv ⊢
    omega
  · intro v buffer rest hv hlen
    obtain ⟨b0, b1, b2, b3, b4, b5, b6, b7, rfl⟩ :
        ∃ b0 b1 b2 b3 b4 b5 b6 b7, buffer = [b0, b1, b2, b3, b4, b5, b6, b7] := by
      rcases buffer with _ | ⟨b0, _ | ⟨b1, _ | ⟨b2, _ | ⟨b3, _ | ⟨b4, _ | ⟨b5, _ | ⟨b6,
        _ | ⟨b7, _ | ⟨b8, l⟩⟩⟩⟩⟩⟩⟩⟩⟩ <;> simp at hlen
      exact ⟨b0, b1, b2, b3, b4, b5, b6, b7, rfl⟩
    have hs := internal_serialize_any_into_8 b0 b1 b2 b3 b4 b5 b6 b7 rest v hv
    have hs0 := internal_serialize_any_into_8 0 0 0 0 0 0 0 0 [] v hv
    refine ⟨by simpa [List.range_succ] using hs, ?_⟩
    have hsa : serialize_any 8 8 v
        = [(v >>> 56) &&& 255, (v >>> 48) &&& 255, (v >>> 40) &&& 255, (v >>> 32) &&& 255,
           (v >>> 24) &&& 255, (v >>> 16) &&& 255, (v >>> 8) &&& 255, v &&& 255] := by
      simpa [serialize_any] using hs0
    rw [hsa]
    simpa using internal_deserialize_any_8 v hv []


/-! ## Strings in a byte buffer -/

theorem serialize_any_loop_length (n i as_unsigned : Nat) (iter : List Nat) :
    (serialize_any_loop n i as_unsigned iter).length = iter.length := by
  induction n generalizing i as_unsigned iter with
  | zero => rfl
  | succ n ih => simp [serialize_any_loop, ih]

theorem size_as_any_length (iter : List Nat) (n : Nat) :
    (size_as_any.serialize_into iter n).length = iter.length :=
  serialize_any_loop_length _ _ _ _

theorem size_as_any_round_trip (iter : List Nat) (n : Nat) (tail : List Nat)
    (hroom : sizeof_size_t ≤ iter.length) (hn : n < 2 ^ 64) :
    size_as_any.deserialize ((size_as_any.serialize_into iter n).take sizeof_size_t ++ tail)
      = n := by
  obtain ⟨b0, b1, b2, b3, b4, b5, b6, b7, rest, rfl⟩ :
      ∃ b0 b1 b2 b3 b4 b5 b6 b7 rest, iter = b0 :: b1 :: b2 :: b3 :: b4 :: b5 :: b6 :: b7 ::
        rest := by
    rcases iter with _ | ⟨b0, _ | ⟨b1, _ | ⟨b2, _ | ⟨b3, _ | ⟨b4, _ | ⟨b5, _ | ⟨b6,
      _ | ⟨b7, rest⟩⟩⟩⟩⟩⟩⟩⟩ <;> simp [sizeof_size_t] at hroom
    exact ⟨b0, b1, b2, b3, b4, b5, b6, b7, rest, rfl⟩
  show internal_deserialize_any 8 8
    ((internal_serialize_any_into 8 _ n).take sizeof_size_t ++ tail) = n
  rw [internal_serialize_any_into_8 _ _ _ _ _ _ _ _ rest n hn]
  have := internal_deserialize_any_8 n hn tail
  simpa [sizeof_size_t] using this

theorem map_ofNat_toNat (l : List Char) (h : ∀ c ∈ l, c.toNat < 256) :
    (l.map (fun c => c.toNat % 256)).map Char.ofNat = l := by
  induction l with
  | nil => rfl
  | cons c l ih =>
    have hc := h c (List.mem_cons_self c l)
    have hl := ih (fun x hx => h x (List.mem_cons_of_mem c hx))
    simp only [List.map_cons, Nat.mod_eq_of_lt hc, Char.ofNat_toNat, hl]

theorem string_internal_serialize_fn_eq (size : SizeSerialization) (s : String)
    (hlength : ∀ iter n, (size.serialize_into iter n).length = iter.length) :
    string_internal_serialize_fn size s
      = (size.serialize_into (List.replicate (sizeof_size_t + s.length) 0)
            s.length).take sizeof_size_t
          ++ s.data.map (fun c => c.toNat % 256) := by
  unfold string_internal_serialize_fn write_bytes
  have hdrop : (size.serialize_into (List.replicate (sizeof_size_t + s.length) 0)
      s.length).drop (sizeof_size_t + (s.data.map (fun c => c.toNat % 256)).length) = [] := by
    apply List.drop_eq_nil_of_le
    rw [hlength, List.length_replicate, List.length_map]
    exact le_refl _
  simp only [hdrop, List.append_nil]

/-- Claim C36. With a serialization of `std::size_t` that keeps the length of the buffer
and is read back from its first `sizeof(size_t)` bytes, the buffer of
`internal_serialize_fn` for a string `s` of one-byte characters has
`sizeof(size_t) + |s|` bytes, the serialized length followed by the bytes of `s`;
`internal_deserialize_fn` reads `s` back from it; `enigma_internal_deserialize_fn` reads
`s` and advances the cursor by `sizeof(size_t) + |s|`; and
`internal_resize_buffer_for_fn` grows the buffer by the same amount. -/
theorem string_serialization_round_trip (size : SizeSerialization) (s : String)
    (hlength : ∀ iter n, (size.serialize_into iter n).length = iter.length)
    (hround : ∀ iter n tail, sizeof_size_t ≤ iter.length → n < 2 ^ 64 →
      size.deserialize ((size.serialize_into iter n).take sizeof_size_t ++ tail) = n)
    (hchars : ∀ c ∈ s.data, c.toNat < 256)
    (hsize : s.length < 2 ^ 64) :
    (string_internal_serialize_fn size s).length = sizeof_size_t + s.length ∧
    string_internal_serialize_fn size s
      = (size.serialize_into (List.replicate (sizeof_size_t + s.length) 0)
            s.length).take sizeof_size_t
          ++ s.data.map (fun c => c.toNat % 256) ∧
    (∀ tail : List Nat,
      string_internal_deserialize_fn size (string_internal_serialize_fn size s ++ tail)
        = s) ∧
    (∀ before tail : List Nat,
      string_enigma_internal_deserialize_fn size
          (before ++ (string_internal_serialize_fn size s ++ tail)) before.length
        = (s, before.length + (sizeof_size_t + s.length))) ∧
    (∀ buffer_size : Nat,
      string_internal_resize_buffer_for_fn buffer_size s
        = buffer_size + (sizeof_size_t + s.length)) := by
  have heq := string_internal_serialize_fn_eq size s hlength
  have htake : ((size.serialize_into (List.replicate (sizeof_size_t + s.length) 0)
      s.length).take sizeof_size_t).length = sizeof_size_t := by
    rw [List.length_take, hlength, List.length_replicate]
    omega
  have hlen : (string_internal_serialize_fn size s).length = sizeof_size_t + s.length := by
    rw [heq, List.length_append, htake, List.length_map]
    rfl
  have hread : ∀ tail : List Nat,
      string_internal_deserialize_fn size (string_internal_serialize_fn size s ++ tail)
        = s := by
    intro tail
    unfold string_internal_deserialize_fn
    rw [heq, List.append_assoc,
      hround _ _ _ (by rw [List.length_replicate]; omega) hsize]
    have hdrop : List.drop sizeof_size_t
        ((size.serialize_into (List.replicate (sizeof_size_t + s.length) 0)
            s.length).take sizeof_size_t
          ++ (s.data.map (fun c => c.toNat % 256) ++ tail))
        = s.data.map (fun c => c.toNat % 256) ++ tail := by
      exact List.drop_left' htake
    have htk : List.take s.length (s.data.map (fun c => c.toNat % 256) ++ tail)
        = s.data.map (fun c => c.toNat % 256) := by
      exact List.take_left' (by rw [List.length_map]; rfl)
    simp only [hdrop, htk, map_ofNat_toNat s.data hchars]
  refine ⟨hlen, heq, hread, ?_, ?_⟩
  · intro before tail
    unfold string_enigma_internal_deserialize_fn
    simp only [List.drop_left, hread tail]
    rw [Nat.add_comm s.length sizeof_size_t]
  · intro buffer_size
    unfold string_internal_resize_buffer_for_fn
    omega

/-- The statement of claim C36 at the string `hi`, with the serialization of a
`std::size_t` by the functions of serialization.h: the buffer is the length 2 in eight
bytes followed by the bytes 104 and 105. -/
theorem string_serialization_round_trip_witness :
    string_internal_serialize_fn size_as_any "hi" = [0, 0, 0, 0, 0, 0, 0, 2, 104, 105] ∧
    string_internal_deserialize_fn size_as_any
        (string_internal_serialize_fn size_as_any "hi" ++ [7]) = "hi" ∧
    string_enigma_internal_deserialize_fn size_as_any
        ([9] ++ (string_internal_serialize_fn size_as_any "hi" ++ [7])) 1
      = ("hi", 1 + (sizeof_size_t + 2)) :=
  have h := string_serialization_round_trip size_as_any "hi" size_as_any_length
    size_as_any_round_trip (by decide) (by decide)
  ⟨by decide, h.2.2.1 [7], h.2.2.2.1 [9] [7]⟩


/-! ## Vectors in a byte buffer -/

theorem size_internal_serialize_into_length (size : SizeSerialization)
    (hlength : ∀ iter n, (size.serialize_into iter n).length = iter.length)
    (bytes : List Nat) (iter n : Nat) (written : List Nat)
    (h : size_internal_serialize_into size bytes iter n = some written) :
    written.length = bytes.length := by
  unfold size_internal_serialize_into at h
  split at h
  · rename_i hroom
    simp only [Option.some.injEq] at h
    rw [← h, List.length_append, hlength, List.length_take, List.length_drop]
    omega
  · simp at h

theorem string_internal_serialize_into_fn_length (size : SizeSerialization)
    (hlength : ∀ iter n, (size.serialize_into iter n).length = iter.length)
    (bytes : List Nat) (iter : Nat) (value : String) (written : List Nat)
    (h : string_internal_serialize_into_fn size bytes iter value = some written) :
    written.length = bytes.length := by
  unfold string_internal_serialize_into_fn at h
  cases h1 : size_internal_serialize_into size bytes iter value.length with
  | none => simp [h1] at h
  | some bytes1 =>
    have hl1 := size_internal_serialize_into_length size hlength _ _ _ _ h1
    simp only [h1, checked_write] at h
    split at h
    · rename_i hroom
      simp only [Option.some.injEq] at h
      rw [← h, write_bytes, List.length_append, List.length_append, List.length_take,
        List.length_drop, ← hl1]
      omega
    · simp at h

theorem string_internal_serialize_into_fn_room (size : SizeSerialization)
    (hlength : ∀ iter n, (size.serialize_into iter n).length = iter.length)
    (bytes : List Nat) (iter : Nat) (value : String)
    (h : bytes.length < iter + (sizeof_size_t + value.length)) :
    string_internal_serialize_into_fn size bytes iter value = none := by
  unfold string_internal_serialize_into_fn
  cases h1 : size_internal_serialize_into size bytes iter value.length with
  | none => rfl
  | some bytes1 =>
    have hl1 := size_internal_serialize_into_length size hlength _ _ _ _ h1
    simp only [checked_write]
    rw [if_neg]
    rw [hl1, List.length_map]
    have : value.data.length = value.length := rfl
    omega

theorem vector_larger_second_element_has_no_room {α : Type} (size : SizeSerialization)
    (internal_serialize_into : List Nat → Nat → α → Option (List Nat))
    (enigma_internal_sizeof : α → Nat) (a b : α) (bytes : List Nat)
    (hlength : ∀ iter n, (size.serialize_into iter n).length = iter.length)
    (hkeep : ∀ buffer iter element written,
      internal_serialize_into buffer iter element = some written →
      written.length = buffer.length)
    (hroom : ∀ buffer iter, buffer.length < iter + enigma_internal_sizeof b →
      internal_serialize_into buffer iter b = none)
    (hlt : enigma_internal_sizeof a < enigma_internal_sizeof b) :
    vector_enigma_serialize size internal_serialize_into enigma_internal_sizeof [a, b]
      bytes = none := by
  have hgrow : vector_internal_resize_buffer_for_fn enigma_internal_sizeof bytes.length [a, b]
      = bytes.length + (sizeof_size_t + 2 * enigma_internal_sizeof a) := by
    simp [vector_internal_resize_buffer_for_fn]
    omega
  simp only [vector_enigma_serialize, vector_internal_serialize_into_fn, hgrow]
  cases h1 : size_internal_serialize_into size
      (bytes ++ List.replicate
        (bytes.length + (sizeof_size_t + 2 * enigma_internal_sizeof a) - bytes.length) 0)
      bytes.length [a, b].length with
  | none => rfl
  | some bytes1 =>
    have hl1 := size_internal_serialize_into_length size hlength _ _ _ _ h1
    simp only [vector_serialize_elements]
    cases h2 : internal_serialize_into bytes1 (bytes.length + sizeof_size_t) a with
    | none => rfl
    | some bytes2 =>
      have hl2 := hkeep _ _ _ _ h2
      have hnone := hroom bytes2 (bytes.length + sizeof_size_t + enigma_internal_sizeof a) (by
        rw [hl2, hl1, List.length_append, List.length_replicate]
        omega)
      simp only [hnone]

/-- Claim C34. For a vector, `internal_resize_buffer_for_fn` grows the buffer by
`sizeof(size_t)` and the number of elements times the size of the first one, while
`internal_serialize_into_fn` writes each element where the sizes of the elements before
it put `iter`. So for two elements of which the second is larger, a write that covers at
least the size of its element reaches past the end of the buffer; this is so for every
two strings of which the second is longer, both when the size of a string is its length
and when it counts the length field as well. For the strings `a` and `bcd` serialized
into an empty buffer the buffer has 10 bytes with the length as the size, and the
writes reach past its end; with the length as the size they also do for `ab` and `cd`,
where the write of `ab` at offset 8 covers 10 bytes of the 12, and with the length
field counted that vector is written into its 28 bytes. -/
theorem vector_serialization_writes_past_buffer :
    (∀ {α : Type} (enigma_internal_sizeof : α → Nat) (buffer_size : Nat) (first : α)
        (rest : List α),
      vector_internal_resize_buffer_for_fn enigma_internal_sizeof buffer_size (first :: rest)
        = buffer_size + (sizeof_size_t + (rest.length + 1) * enigma_internal_sizeof first)) ∧
    (∀ {α : Type} (size : SizeSerialization)
        (internal_serialize_into : List Nat → Nat → α → Option (List Nat))
        (enigma_internal_sizeof : α → Nat) (a b : α) (bytes : List Nat),
      (∀ iter n, (size.serialize_into iter n).length = iter.length) →
      (∀ buffer iter element written,
        internal_serialize_into buffer iter element = some written →
        written.length = buffer.length) →
      (∀ buffer iter, buffer.length < iter + enigma_internal_sizeof b →
        internal_serialize_into buffer iter b = none) →
      enigma_internal_sizeof a < enigma_internal_sizeof b →
      vector_enigma_serialize size internal_serialize_into enigma_internal_sizeof [a, b]
        bytes = none) ∧
    (∀ (a b : String) (bytes : List Nat), a.length < b.length →
      vector_enigma_serialize size_as_any (string_internal_serialize_into_fn size_as_any)
          string_enigma_internal_sizeof [a, b] bytes = none ∧
      vector_enigma_serialize size_as_any (string_internal_serialize_into_fn size_as_any)
          (fun value => sizeof_size_t + value.length) [a, b] bytes = none) ∧
    string_enigma_internal_sizeof "a" = 1 ∧ string_enigma_internal_sizeof "bcd" = 3 ∧
    vector_internal_resize_buffer_for_fn string_enigma_internal_sizeof 0 ["a", "bcd"] = 10 ∧
    vector_enigma_serialize size_as_any (string_internal_serialize_into_fn size_as_any)
        string_enigma_internal_sizeof ["a", "bcd"] [] = none ∧
    vector_internal_resize_buffer_for_fn string_enigma_internal_sizeof 0 ["ab", "cd"] = 12 ∧
    string_internal_serialize_into_fn size_as_any (List.replicate 12 0) 8 "ab" = none ∧
    vector_enigma_serialize size_as_any (string_internal_serialize_into_fn size_as_any)
        string_enigma_internal_sizeof ["ab", "cd"] [] = none ∧
    vector_enigma_serialize size_as_any (string_internal_serialize_into_fn size_as_any)
        (fun value => sizeof_size_t + value.length) ["a", "bcd"] [] = none ∧
    vector_enigma_serialize size_as_any (string_internal_serialize_into_fn size_as_any)
        (fun value => sizeof_size_t + value.length) ["ab", "cd"] []
      = some [0, 0, 0, 0, 0, 0, 0, 2, 0, 0, 0, 0, 0, 0, 0, 2, 97, 98,
          0, 0, 0, 0, 0, 0, 0, 2, 99, 100] := by
  refine ⟨?_, ?_, ?_, by decide, by decide, by decide, by decide, by decide, by decide,
    by decide, by decide, by decide⟩
  · intro α f buffer_size first rest
    simp [vector_internal_resize_buffer_for_fn]
    omega
  · intro α size ser f a b bytes hlength hkeep hroom hlt
    exact vector_larger_second_element_has_no_room size ser f a b bytes hlength hkeep hroom hlt
  · intro a b bytes hlt
    constructor
    · apply vector_larger_second_element_has_no_room _ _ _ _ _ _ size_as_any_length
        (string_internal_serialize_into_fn_length _ size_as_any_length)
      · intro buffer iter h
        apply string_internal_serialize_into_fn_room _ size_as_any_length
        simp only [string_enigma_internal_sizeof] at h
        omega
      · simp only [string_enigma_internal_sizeof]
        omega
    · apply vector_larger_second_element_has_no_room _ _ _ _ _ _ size_as_any_length
        (string_internal_serialize_into_fn_length _ size_as_any_length)
      · intro buffer iter h
        exact string_internal_serialize_into_fn_room _ size_as_any_length _ _ _ h
      · omega

/-! ## The texture of a background in JSON -/

theorem first_of_take (chars : List Char) (l : List Char) (i : Nat)
    (h : first_of chars l = some i) : ∀ c ∈ l.take i, c ∉ chars := by
  induction l generalizing i with
  | nil => simp [first_of] at h
  | cons a l ih =>
    by_cases ha : a ∈ chars
    · simp [first_of, ha] at h
      subst h
      simp
    · simp [first_of, ha] at h
      obtain ⟨j, hj, rfl⟩ := h
      intro c hc
      simp only [List.take_succ_cons, List.mem_cons] at hc
      rcases hc with rfl | hc
      · exact ha
      · exact ih j hj c hc

theorem find_value_has_no_delimiter (json field : String) :
    ∀ c ∈ (find_value json field).data, c ∉ [',', '}'] := by
  unfold find_value
  cases string_find (("\"" ++ field ++ "\":").data) json.data with
  | none => simp
  | some startPos =>
    simp only
    cases h : string_find_first_of [',', '}'] json.data (startPos + (field.length + 3)) with
    | none => simp
    | some endPos =>
      simp only [string_find_first_of, Option.map_eq_some'] at h
      obtain ⟨i, hi, rfl⟩ := h
      simp only [string_substr, Nat.add_sub_cancel]
      exact first_of_take _ _ i hi

theorem JSON_serialize_elements_keeps {α : Type} (ser : α → String) (value : List α)
    (json : String) (c : Char) (h : c ∈ json.data) :
    c ∈ (JSON_serialize_elements ser value json).data := by
  induction value generalizing json with
  | nil => exact h
  | cons element rest ih =>
    simp only [JSON_serialize_elements]
    apply ih
    split <;> simp [String.data_append, h]

theorem vector_JSON_has_comma {α : Type} (ser : α → String) (value : List α)
    (h : 2 ≤ value.length) : ',' ∈ (vector_JSON_serialize_into ser value).data := by
  obtain ⟨first, second, rest, rfl⟩ : ∃ first second rest, value = first :: second :: rest := by
    rcases value with _ | ⟨first, _ | ⟨second, rest⟩⟩ <;> simp at h
    exact ⟨first, second, rest, rfl⟩
  simp only [vector_JSON_serialize_into, String.data_append, List.mem_append]
  left
  rw [JSON_serialize_elements]
  apply JSON_serialize_elements_keeps
  simp [String.data_append]

/-- Claim C37. The value that `find_value` extracts never has a comma in it, and the
array that `JSON_serialize_into` writes for two or more elements has one; so for a
background whose `hexStream` has two or more entries, as it has with one pixel or more,
the value extracted for `texture` is not the serialized array. For the background of one
pixel with the bytes 255, 0, 128, 255 the array is `["ff","0","80","ff"]` and the value
extracted is `["ff"`. -/
theorem texture_value_is_cut_at_first_comma :
    (∀ json field : String, ∀ c ∈ (find_value json field).data, c ∉ [',', '}']) ∧
    (∀ {α : Type} (ser : α → String) (value : List α), 2 ≤ value.length →
      ',' ∈ (vector_JSON_serialize_into ser value).data) ∧
    (∀ {Scalar : Type} (ser : JSON_serialization Scalar) (b : Background Scalar),
      2 ≤ b.hexStream.length →
      find_value (b.json_serialize ser) "texture"
        ≠ vector_JSON_serialize_into ser.string_ b.hexStream) ∧
    vector_JSON_serialize_into example_serialization.string_ example_background.hexStream
      = "[\"ff\",\"0\",\"80\",\"ff\"]" ∧
    find_value (example_background.json_serialize example_serialization) "texture"
      = "[\"ff\"" := by
  refine ⟨find_value_has_no_delimiter, ?_, ?_, by decide, by decide⟩
  · intro α ser value h
    exact vector_JSON_has_comma ser value h
  · intro Scalar ser b h heq
    have h1 := find_value_has_no_delimiter (b.json_serialize ser) "texture" ','
    rw [heq] at h1
    exact h1 (vector_JSON_has_comma ser.string_ b.hexStream h) (by simp)

end Enigma
